import Mathlib

/-!
# Qwt: Hermite spline conversions, polyline splitting and the plot renderer

A shallow embedding of parts of the Qwt widget library:

* `qwt_spline_hermite.h`: the inline conversions between slopes, curvatures
  and Bezier control points of a cubic Hermite segment;
* `qwt_painter.cpp`: the file-static `drawPolyline` with its splitting loop;
* `qwt_plot_renderer.cpp`: `QwtPlotRenderer::render` and its helpers.

Conventions of the embedding:

* a C++ `double` is a rational number (`ℚ`): the statements about the spline
  formulas are statements of exact arithmetic, rounding is not modelled;
* a C++ `int` is an `Int` (overflow is not modelled: no value computed here
  leaves the range of `int` unless an input is within 20 of its bounds); the
  bitwise operators on flag words are the two's-complement operations
  `Int.land`, `Int.lor`, `Int.lnot`;
* an object that is mutated through a pointer is passed in and returned;
* the calls made on collaborators outside these files (the Qt painter, the
  layout engine, the plot items) are recorded, in order, in a trace.
-/

namespace Qwt

/-! ## Qt value types -/

/-- Qt's `QPointF`: a point with `double` coordinates. -/
structure QPointF where
  x : ℚ
  y : ℚ
  deriving DecidableEq

/-- One element of a `QPainterPath`. -/
inductive PathElement where
  | moveTo (p : QPointF)
  | lineTo (p : QPointF)
  | cubicTo (c1 c2 endPoint : QPointF)
  deriving DecidableEq

/-- The point at which a path element ends. -/
def PathElement.endPoint : PathElement → QPointF
  | .moveTo p => p
  | .lineTo p => p
  | .cubicTo _ _ e => e

/-- Qt's `QPainterPath`, as the sequence of the elements it was asked to
hold. -/
structure QPainterPath where
  elements : List PathElement
  deriving DecidableEq

/-- Qt's `QPainterPath::currentPosition()`: the end of the last element, the
origin for an empty path. -/
def QPainterPath.currentPosition (path : QPainterPath) : QPointF :=
  match path.elements.getLast? with
  | some e => e.endPoint
  | none => ⟨0, 0⟩

/-- Qt's `QPainterPath::cubicTo( c1X, c1Y, c2X, c2Y, endX, endY )`: the call is
recorded as a cubic Bezier element from the current position to the end
point, with the two control points. -/
def QPainterPath.cubicTo (path : QPainterPath)
    (c1X c1Y c2X c2Y endX endY : ℚ) : QPainterPath :=
  ⟨path.elements ++ [PathElement.cubicTo ⟨c1X, c1Y⟩ ⟨c2X, c2Y⟩ ⟨endX, endY⟩]⟩

/-- The point of the cubic Bezier curve with control polygon `p0 c1 c2 p3`
at parameter `t` (the curve Qt draws for a `cubicTo` element). -/
def bezierAt (p0 c1 c2 p3 : QPointF) (t : ℚ) : QPointF :=
  ⟨(1 - t) ^ 3 * p0.x + 3 * (1 - t) ^ 2 * t * c1.x
      + 3 * (1 - t) * t ^ 2 * c2.x + t ^ 3 * p3.x,
   (1 - t) ^ 3 * p0.y + 3 * (1 - t) ^ 2 * t * c1.y
      + 3 * (1 - t) * t ^ 2 * c2.y + t ^ 3 * p3.y⟩

/-- A point `c` lies on the straight line through `p1` and `p2`. -/
def onLine (p1 p2 c : QPointF) : Prop :=
  (c.x - p1.x) * (p2.y - p1.y) = (c.y - p1.y) * (p2.x - p1.x)

instance (p1 p2 c : QPointF) : Decidable (onLine p1 p2 c) := by
  unfold onLine; infer_instance

/-! ## `qwt_spline_hermite.h` -/

namespace QwtSplineHermite

/-- Embeds `toCurvatures( double dx, double a, double b, double &cv1, double &cv2 )`;
the two output parameters are returned as a pair `(cv1, cv2)`. -/
def toCurvatures (dx a b : ℚ) : ℚ × ℚ :=
  (2 * b, 2 * (3 * a * dx + b))

/-- Embeds `toCurvatures( const QPointF &p1, const QPointF &p2, double a, double b,
double &cv1, double &cv2 )`. -/
def toCurvaturesP (p1 p2 : QPointF) (a b : ℚ) : ℚ × ℚ :=
  toCurvatures (p2.x - p1.x) a b

/-- Embeds `toCurvatures2( p1, m1, p2, m2, cv1, cv2 )`, returning `(cv1, cv2)`. -/
def toCurvatures2 (p1 : QPointF) (m1 : ℚ) (p2 : QPointF) (m2 : ℚ) : ℚ × ℚ :=
  let dx := p2.x - p1.x
  let dy := p2.y - p1.y
  let v := 3 * dy / dx - m1 - m2
  let k := 2 / dx
  (k * (v - m1), k * (m2 - v))

/-- Embeds `cubicTo( p1, m1, p2, m2, path )`; the path is returned. -/
def cubicTo (p1 : QPointF) (m1 : ℚ) (p2 : QPointF) (m2 : ℚ)
    (path : QPainterPath) : QPainterPath :=
  let dx := (p2.x - p1.x) / 3
  path.cubicTo (p1.x + dx) (p1.y + m1 * dx)
    (p2.x - dx) (p2.y - m2 * dx)
    p2.x p2.y

end QwtSplineHermite

/-! ## `qwt_painter.cpp` -/

/-- Qt's `QPaintEngine::Type`. -/
inductive PaintEngineType where
  | X11 | Windows | QuickDraw | CoreGraphics | MacPrinter | QWindowSystem
  | PostScript | OpenGL | Picture | SVG | Raster | Direct3D | Pdf | OpenVG
  | OpenGL2 | PaintBuffer | Blitter | User
  deriving DecidableEq

/-- One call `painter->drawPolyline( points + offset, count )` received by the
Qt painter: the polyline through the `count` points that start at index
`offset` of the caller's point array. -/
structure PolylineCall where
  offset : Int
  count : Int
  deriving DecidableEq

/-- The line segments a polyline call draws, as pairs of indices into the
caller's point array: `(offset + k, offset + k + 1)` for `0 ≤ k < count - 1`. -/
def PolylineCall.segments (c : PolylineCall) : List (Int × Int) :=
  (List.range (c.count - 1).toNat).map fun k : ℕ =>
    (c.offset + (k : Int), c.offset + (k : Int) + 1)

/-- The points `j` and `j + 1` of the caller's array both belong to the call. -/
def PolylineCall.holdsPair (c : PolylineCall) (j : Int) : Bool :=
  decide (c.offset ≤ j ∧ j + 1 < c.offset + c.count)

namespace QwtPainter

/-- The local constant `splitSize` of `drawPolyline`. -/
def splitSize : Int := 20

/-- The loop `for ( int i = 0; i < pointCount; i += splitSize )` of the static
`drawPolyline`, entered with loop variable `i`; returns the calls issued. -/
def drawPolylineLoop (pointCount : Int) (i : Int) : List PolylineCall :=
  if i < pointCount then
    let n := min (splitSize + 1) (pointCount - i)
    ⟨i, n⟩ :: drawPolylineLoop pointCount (i + splitSize)
  else
    []
termination_by (pointCount - i).toNat
decreasing_by
  simp only [splitSize]
  omega

/-- The file-static `drawPolyline( painter, points, pointCount,
polylineSplitting )`.  Of the painter only `paintEngine()` (a null pointer is
`none`) and the type of the engine are read; the result is the list of
`drawPolyline` calls forwarded to the painter. -/
def drawPolyline (paintEngine : Option PaintEngineType) (pointCount : Int)
    (polylineSplitting : Bool) : List PolylineCall :=
  let doSplit : Bool :=
    if polylineSplitting then
      match paintEngine with
      | some pe => if pe = PaintEngineType.Raster then true else false
      | none => false
    else false
  if doSplit then
    drawPolylineLoop pointCount 0
  else
    [⟨0, pointCount⟩]

end QwtPainter

/-! ## `qwt_plot_renderer.cpp`: the types the renderer works on -/

/-- Qt's `QSize`: a size with `int` width and height. -/
structure QSize where
  wd : Int
  ht : Int
  deriving DecidableEq

/-- Qt's `QSize::isNull()`: both the width and the height are 0. -/
def QSize.isNull (s : QSize) : Bool :=
  decide (s.wd = 0 ∧ s.ht = 0)

/-- Qt's `QRect`: a rectangle with `int` position and size. -/
structure QRect where
  x : Int
  y : Int
  w : Int
  h : Int
  deriving DecidableEq

/-- Qt's `QRect::right()`: the x coordinate of the right-most column, `x + w - 1`. -/
def QRect.right (r : QRect) : Int :=
  r.x + r.w - 1

/-- Qt's `QRectF`: position `(xp, yp)`, width `w` and height `h`. -/
structure QRectF where
  xp : ℚ
  yp : ℚ
  w : ℚ
  h : ℚ
  deriving DecidableEq

namespace QRectF

def x (r : QRectF) : ℚ := r.xp

def y (r : QRectF) : ℚ := r.yp

def left (r : QRectF) : ℚ := r.xp

def top (r : QRectF) : ℚ := r.yp

def right (r : QRectF) : ℚ := r.xp + r.w

def bottom (r : QRectF) : ℚ := r.yp + r.h

def width (r : QRectF) : ℚ := r.w

def height (r : QRectF) : ℚ := r.h

/-- Qt's `QRectF::isValid()`: `w > 0 && h > 0`. -/
def isValid (r : QRectF) : Bool :=
  decide (0 < r.w ∧ 0 < r.h)

/-- Qt's `QRectF::adjusted( dx1, dy1, dx2, dy2 )` (and, in place, `adjust`). -/
def adjusted (r : QRectF) (dx1 dy1 dx2 dy2 : ℚ) : QRectF :=
  ⟨r.xp + dx1, r.yp + dy1, r.w + dx2 - dx1, r.h + dy2 - dy1⟩

/-- Qt's `QRectF::setX( pos )`: moves the left edge, the right edge stays. -/
def setX (r : QRectF) (pos : ℚ) : QRectF :=
  ⟨pos, r.yp, r.w - (pos - r.xp), r.h⟩

/-- The conversion constructor `QRectF( const QRect & )`. -/
def ofQRect (r : QRect) : QRectF :=
  ⟨r.x, r.y, r.w, r.h⟩

/-- The default constructed (null) rectangle `QRectF()`. -/
def null : QRectF := ⟨0, 0, 0, 0⟩

end QRectF

/-- The implicit C++ conversion of a `double` to `int`: truncation towards 0. -/
def doubleToInt (q : ℚ) : Int :=
  if 0 ≤ q then ⌊q⌋ else ⌈q⌉

/-- Qt's `QTransform`, restricted to the transforms the renderer builds: the
identity scaled by `transform.scale( sx, sy )`, that is the diagonal matrix
with entries `m11`, `m22`. -/
structure QTransform where
  m11 : ℚ
  m22 : ℚ
  deriving DecidableEq

namespace QTransform

/-- The default constructed transform: the identity. -/
def identity : QTransform := ⟨1, 1⟩

/-- Qt's `QTransform::scale( sx, sy )`. -/
def scale (t : QTransform) (sx sy : ℚ) : QTransform :=
  ⟨t.m11 * sx, t.m22 * sy⟩

/-- Qt's `QTransform::inverted()`: the inverse matrix, the identity when the matrix
is singular. -/
def inverted (t : QTransform) : QTransform :=
  if t.m11 = 0 ∨ t.m22 = 0 then identity else ⟨1 / t.m11, 1 / t.m22⟩

/-- Qt's `QTransform::mapRect( const QRectF & )` for a scaling transform: position
and size are scaled, a negative size is flipped. -/
def mapRect (t : QTransform) (r : QRectF) : QRectF :=
  let x := t.m11 * r.xp
  let y := t.m22 * r.yp
  let w := t.m11 * r.w
  let h := t.m22 * r.h
  let x := if w < 0 then x + w else x
  let w := if w < 0 then -w else w
  let y := if h < 0 then y + h else y
  let h := if h < 0 then -h else h
  ⟨x, y, w, h⟩

end QTransform

/-- Modelled from the spec: the class `QwtScaleDraw` is declared in
`qwt_scale_draw.h`, which is not among the sources.  Of a scale draw the
renderer reads and writes the position (`pos()`, `move()`) and the length
(`length()`, `setLength()`), taken as a plain pair of attributes. -/
structure QwtScaleDraw where
  pos : QPointF
  length : ℚ
  deriving DecidableEq

/-- Modelled from the spec: `enum QwtScaleDraw::Alignment` is declared in
`qwt_scale_draw.h`, which is not among the sources; the four alignments
`renderScale` names. -/
inductive QwtScaleDraw.Alignment where
  | BottomScale | TopScale | LeftScale | RightScale
  deriving DecidableEq

/-- Modelled from the spec: the class `QwtScaleWidget` is declared in
`qwt_scale_widget.h`, which is not among the sources.  The attributes the
renderer reads through its getters; `margin()` / `setMargin()` are taken as a
plain getter and setter of the attribute `margin`. -/
structure QwtScaleWidget where
  /-- Value of `margin()` -/
  margin : Int
  /-- Value of `startBorderDist()` -/
  startBorderDist : Int
  /-- Value of `endBorderDist()` -/
  endBorderDist : Int
  /-- first output of `getBorderDistHint( start, end )` -/
  borderDistHintStart : Int
  /-- second output of `getBorderDistHint( start, end )` -/
  borderDistHintEnd : Int
  /-- Value of `isColorBarEnabled()` -/
  isColorBarEnabled : Bool
  /-- Value of `colorBarWidth()` -/
  colorBarWidth : Int
  /-- Value of `spacing()` -/
  spacing : Int
  /-- Value of `scaleDraw()` -/
  scaleDraw : QwtScaleDraw
  deriving DecidableEq

/-- Modelled from the spec: the class `QwtScaleDiv` is declared in
`qwt_scale_div.h`, which is not among the sources; the renderer reads its two
bounds (the data interval of an axis). -/
structure QwtScaleDiv where
  lowerBound : ℚ
  upperBound : ℚ
  deriving DecidableEq

/-- Modelled from the spec: `QwtScaleTransformation` is declared in
`qwt_scale_map.h`, which is not among the sources; the kind of transformation
(spec section 4.1: linear or logarithmic) that `setTransformation` is given. -/
inductive TransformationType where
  | Linear | Log10 | Other
  deriving DecidableEq

/-- Modelled from the spec: the class `QwtScaleMap` (the scale mapper of spec
section 4.1) is declared in `qwt_scale_map.h`, which is not among the sources;
the attributes set by `setTransformation`, `setScaleInterval( s1, s2 )` and
`setPaintInterval( p1, p2 )`. -/
structure QwtScaleMap where
  transformation : TransformationType
  s1 : ℚ
  s2 : ℚ
  p1 : ℚ
  p2 : ℚ
  deriving DecidableEq

/-- The rectangles a run of the layout engine computes. -/
structure LayoutRects where
  titleRect : QRectF
  legendRect : QRectF
  canvasRect : QRectF
  scaleRect : Int → QRectF

/-- Modelled from the spec: the class `QwtPlotLayout` (the layout engine of
spec section 4.4) is declared in `qwt_plot_layout.h`, which is not among the
sources.  It holds the rectangles of the last activation and the canvas
margins; `engine` is the function `activate` computes, of the axis widgets,
the target rectangle and the options. -/
structure QwtPlotLayout where
  rects : LayoutRects
  canvasMargin : Int → Int
  engine : (Int → Option QwtScaleWidget) → QRectF → Int → LayoutRects

/-- Modelled from the spec: the classes `QwtLegend`, `QwtLegendItem` and
`QwtDynGridLayout` are not among the sources; the widget of one item of the
legend layout, with what `renderLegendItem` reads of it. -/
structure LegendItemWidget where
  /-- Whether `inherits( "QwtLegendItem" )` -/
  isLegendItem : Bool
  /-- Value of `margin()` -/
  margin : Int
  /-- Value of `spacing()` -/
  spacing : Int
  /-- Value of `identifierSize().width()` -/
  identifierWidth : Int
  /-- Whether `plot->legend()->find( item )` is not null -/
  hasManager : Bool
  deriving DecidableEq

/-- Modelled from the spec: see `LegendItemWidget`; the layout of the contents
widget of the legend. -/
structure LegendLayout where
  /-- Whether `inherits( "QwtDynGridLayout" )` -/
  isDynGrid : Bool
  /-- Value of `itemAt( i )->widget()` for `i` below `count()`; a null widget is `none` -/
  items : List (Option LegendItemWidget)
  /-- Value of `layoutItems( rect.toRect(), columnsForWidth( rect.width() ) )` -/
  layoutItems : QRectF → List QRect

/-- Modelled from the spec: see `LegendItemWidget`; the class `QwtLegend`, as
far as the renderer reads it. -/
structure QwtLegend where
  isEmpty : Bool
  /-- Value of `contentsWidget()->layout()`, a null pointer is `none` -/
  layout : Option LegendLayout

/-- Modelled from the spec: the class `QwtPlot` (the plot model of spec section
6) is declared in `qwt_plot.h`, which is not among the sources; the plot as far
as the renderer reads and writes it.  The per-axis
getters take the `int` axis id; `axisWidget` returns a null pointer (`none`)
where the plot has no scale widget. -/
structure QwtPlot where
  /-- Value of `size()` -/
  size : QSize
  logicalDpiX : Int
  logicalDpiY : Int
  axisWidget : Int → Option QwtScaleWidget
  axisEnabled : Int → Bool
  /-- Value of `*axisScaleDiv( axisId )` -/
  axisScaleDiv : Int → QwtScaleDiv
  /-- Value of `axisScaleEngine( axisId )->transformation()` -/
  axisTransformation : Int → TransformationType
  /-- Value of `titleLabel()->text().isEmpty()` -/
  titleIsEmpty : Bool
  /-- Value of `legend()`, a null pointer is `none` -/
  legend : Option QwtLegend
  /-- Value of `*plotLayout()` -/
  plotLayout : QwtPlotLayout

namespace QwtPlot

/-- Modelled from the spec: `enum QwtPlot::Axis` is declared in `qwt_plot.h`,
which is not among the sources; the four axes of the spec with the upstream
numbering. -/
def yLeft : Int := 0

/-- Modelled from the spec: see `yLeft`. -/
def yRight : Int := 1

/-- Modelled from the spec: see `yLeft`. -/
def xBottom : Int := 2

/-- Modelled from the spec: see `yLeft`. -/
def xTop : Int := 3

/-- Modelled from the spec: see `yLeft`; the number of axes. -/
def axisCnt : Nat := 4

/-- The values of `axisId` in `for ( axisId = 0; axisId < QwtPlot::axisCnt;
axisId++ )`, in order. -/
def axisIds : List Int :=
  (List.range axisCnt).map Int.ofNat

/-- Modelled from the spec: `QwtScaleWidget::setMargin` is not among the
sources; `scaleWidget->setMargin( margin )` on the widget
`axisWidget( axisId )` overrides the attribute `margin`. -/
def setMargin (plot : QwtPlot) (axisId : Int) (margin : Int) : QwtPlot :=
  match plot.axisWidget axisId with
  | some wdg =>
    { plot with axisWidget :=
        Function.update plot.axisWidget axisId (some { wdg with margin := margin }) }
  | none => plot

/-- Modelled from the spec: `QwtScaleDraw::move` and `setLength` are not among
the sources; `sd->move( pos ); sd->setLength( length )` on the scale draw of the
widget `axisWidget( axisId )` overrides the two attributes. -/
def setScaleDraw (plot : QwtPlot) (axisId : Int) (pos : QPointF) (length : ℚ) : QwtPlot :=
  match plot.axisWidget axisId with
  | some wdg =>
    { plot with axisWidget :=
        Function.update plot.axisWidget axisId (some { wdg with scaleDraw := ⟨pos, length⟩ }) }
  | none => plot

/-- Modelled from the spec: `QwtPlotLayout::activate` is not among the sources;
`plotLayout()->activate( plot, rect, options )` replaces the rectangles by
those the layout engine computes. -/
def activate (plot : QwtPlot) (rect : QRectF) (options : Int) : QwtPlot :=
  { plot with plotLayout :=
      { plot.plotLayout with rects := plot.plotLayout.engine plot.axisWidget rect options } }

/-- Modelled from the spec: `QwtPlotLayout::invalidate` is not among the
sources; `plotLayout()->invalidate()` drops the computed rectangles (they
become null rectangles). -/
def invalidate (plot : QwtPlot) : QwtPlot :=
  { plot with plotLayout :=
      { plot.plotLayout with
        rects := ⟨QRectF.null, QRectF.null, QRectF.null, fun _ => QRectF.null⟩ } }

end QwtPlot

/-- Qt's `QPainter`, as far as the renderer reads and writes it: whether it is
active, the logical resolution of its device, and the number of states pushed
by `save()` that `restore()` has not popped yet. -/
structure QPainter where
  isActive : Bool
  deviceLogicalDpiX : Int
  deviceLogicalDpiY : Int
  depth : Nat
  deriving DecidableEq

/-- The pens the renderer sets. -/
inductive PenKind where
  | black | noPen | titleText
  deriving DecidableEq

/-- The fonts the renderer sets. -/
inductive FontKind where
  | title | legendItem | scaleWidget (axisId : Int)
  deriving DecidableEq

/-- The calls the renderer makes on its collaborators (the painter, the plot
and its widgets, the layout engine), in the order of the trace. -/
inductive Call where
  /-- Call `painter->fillRect( rect, brush )` -/
  | fillRect (rect : QRectF)
  /-- Call `painter->save()` -/
  | save
  /-- Call `painter->restore()` -/
  | restore
  /-- Call `painter->setWorldTransform( transform, true )` -/
  | setWorldTransform (transform : QTransform)
  /-- Call `painter->setPen( ... )` -/
  | setPen (pen : PenKind)
  /-- Call `painter->setBrush( bgBrush )` -/
  | setBrush
  /-- Call `painter->setFont( ... )` -/
  | setFont (font : FontKind)
  /-- Call `painter->setClipRect( rect )` -/
  | setClipRect (rect : QRectF)
  /-- Call `QwtPainter::drawRect( painter, rect )` -/
  | drawRect (rect : QRectF)
  /-- Call `plot->drawItems( painter, canvasRect, map )` -/
  | drawItems (canvasRect : QRectF) (maps : List QwtScaleMap)
  /-- Call `text.draw( painter, rect )` -/
  | drawText (rect : QRectF)
  /-- Call `itemManger->drawLegendIdentifier( painter, identifierRect )` -/
  | drawLegendIdentifier (rect : QRect)
  /-- Call `scaleWidget->drawColorBar( painter, scaleWidget->colorBarRect( rect ) )` -/
  | drawColorBar (axisId : Int) (rect : QRectF)
  /-- Call `scaleWidget->drawTitle( painter, align, rect )` -/
  | drawTitle (axisId : Int) (align : QwtScaleDraw.Alignment) (rect : QRectF)
  /-- Call `sd->draw( painter, palette )`, with the position and length of `sd` -/
  | drawScale (axisId : Int) (pos : QPointF) (length : ℚ)
  /-- Call `scaleWidget->setMargin( margin )` -/
  | setMargin (axisId : Int) (margin : Int)
  /-- Call `plot->plotLayout()->activate( plot, rect, options )` -/
  | activate (rect : QRectF) (options : Int)
  /-- Call `plot->plotLayout()->invalidate()` -/
  | invalidate
  deriving DecidableEq

/-- What a rendering function works on: the plot, the painter (not null) and
the trace of the calls made so far. -/
structure Ctx where
  plot : QwtPlot
  painter : QPainter
  trace : List Call

namespace Ctx

/-- Records a call. -/
def call (s : Ctx) (c : Call) : Ctx :=
  { s with trace := s.trace ++ [c] }

/-- Call `painter->save()`: one more saved state. -/
def save (s : Ctx) : Ctx :=
  { s with painter := { s.painter with depth := s.painter.depth + 1 },
           trace := s.trace ++ [Call.save] }

/-- Call `painter->restore()`: one saved state less; without a saved state Qt
warns and does nothing. -/
def restore (s : Ctx) : Ctx :=
  { s with painter := { s.painter with depth := s.painter.depth - 1 },
           trace := s.trace ++ [Call.restore] }

/-- Call `scaleWidget->setMargin( margin )` for the widget of `axisId`. -/
def setMargin (s : Ctx) (axisId : Int) (margin : Int) : Ctx :=
  { s with plot := s.plot.setMargin axisId margin,
           trace := s.trace ++ [Call.setMargin axisId margin] }

end Ctx

/-- A step from `s` to `t` that leaves the plot and the painter as they were
and only appends calls to the trace. -/
def Framed (s t : Ctx) : Prop :=
  t.plot = s.plot ∧ t.painter = s.painter ∧ s.trace <+: t.trace

/-- What `render` is called on and leaves behind: the plot, the painter
pointer (`none` is the null pointer) and the trace of calls. -/
structure World where
  plot : QwtPlot
  painter : Option QPainter
  trace : List Call

/-! ## `qwt_plot_renderer.cpp`: the functions -/

namespace QwtPlotLayout

/-- Modelled from the spec: `enum QwtPlotLayout::Option` is declared in
`qwt_plot_layout.h`, which is not among the sources; the option flags of spec
section 4.4 with the upstream values. -/
def AlignScales : Int := 0x01

/-- Modelled from the spec: see `AlignScales`. -/
def IgnoreScrollbars : Int := 0x02

/-- Modelled from the spec: see `AlignScales`. -/
def IgnoreFrames : Int := 0x04

/-- Modelled from the spec: see `AlignScales`. -/
def IgnoreMargin : Int := 0x08

/-- Modelled from the spec: see `AlignScales`. -/
def IgnoreLegend : Int := 0x10

end QwtPlotLayout

namespace QwtPlotRenderer

/-- Modelled from the spec: `enum QwtPlotRenderer::DiscardFlag` is declared in
`qwt_plot_renderer.h`, which is not among the sources; the discard flags of
spec section 3 with the upstream values. -/
def DiscardNone : Int := 0x00

/-- Modelled from the spec: see `DiscardNone`. -/
def DiscardBackground : Int := 0x01

/-- Modelled from the spec: see `DiscardNone`. -/
def DiscardTitle : Int := 0x02

/-- Modelled from the spec: see `DiscardNone`. -/
def DiscardLegend : Int := 0x04

/-- Modelled from the spec: see `DiscardNone`. -/
def DiscardCanvasBackground : Int := 0x08

/-- Modelled from the spec: `enum QwtPlotRenderer::LayoutFlag` is declared in
`qwt_plot_renderer.h`, which is not among the sources; the layout flags of
spec section 3 with the upstream values. -/
def DefaultLayout : Int := 0x00

/-- Modelled from the spec: see `DefaultLayout`. -/
def KeepMargins : Int := 0x01

/-- Modelled from the spec: see `DefaultLayout`. -/
def KeepFrames : Int := 0x02

/-- Modelled from the spec: see `DefaultLayout`. -/
def FrameWithScales : Int := 0x04

/-- Embeds `QwtPlotRenderer::PrivateData`: the two flag words (the `int` inside a
`QFlags`). -/
structure PrivateData where
  discardFlags : Int
  layoutFlags : Int
  deriving DecidableEq

/-- The constructor `PrivateData()`. -/
def PrivateData.init : PrivateData :=
  ⟨DiscardBackground, DefaultLayout⟩

/-- The value of `flags & flag` where a `bool` is expected: the bitwise and is
not 0. -/
def flagSet (flags flag : Int) : Bool :=
  decide (Int.land flags flag ≠ 0)

/-- Qt's `QFlags::operator!()`: `!i`, true exactly for the empty flag word. -/
def flagsNot (flags : Int) : Bool :=
  decide (flags = 0)

/-- The integral promotion of a `bool`. -/
def boolToInt (b : Bool) : Int :=
  if b then 1 else 0

/-- The condition `!d_data->layoutFlags & KeepMargins` of `render`: the unary
`!` is applied to the flag word first, the resulting `bool` is promoted to
`int` and combined with `KeepMargins` by the bitwise and. -/
def keepMarginsCheck (d : PrivateData) : Bool :=
  decide (Int.land (boolToInt (flagsNot d.layoutFlags)) KeepMargins ≠ 0)

/-- The computation of `layoutOptions` in `render`. -/
def layoutOptions (d : PrivateData) : Int :=
  let layoutOptions := Int.lor QwtPlotLayout.IgnoreScrollbars QwtPlotLayout.IgnoreFrames
  let layoutOptions :=
    if keepMarginsCheck d then Int.lor layoutOptions QwtPlotLayout.IgnoreMargin
    else layoutOptions
  let layoutOptions :=
    if flagSet d.discardFlags DiscardLegend then
      Int.lor layoutOptions QwtPlotLayout.IgnoreLegend
    else layoutOptions
  layoutOptions

/-- Embeds `QwtPlotRenderer::renderTitle( plot, painter, rect )`. -/
def renderTitle (s : Ctx) (rect : QRectF) : Ctx :=
  ((s.call (Call.setFont FontKind.title)).call (Call.setPen PenKind.titleText)).call
    (Call.drawText rect)

/-- Embeds `QwtPlotRenderer::renderLegendItem( plot, painter, widget, rect )`. -/
def renderLegendItem (s : Ctx) (widget : LegendItemWidget) (rect : QRectF) : Ctx :=
  if widget.isLegendItem then
    let identifierRect : QRect :=
      ⟨doubleToInt (rect.x + widget.margin), doubleToInt rect.y,
        widget.identifierWidth, doubleToInt rect.height⟩
    let s :=
      if widget.hasManager then
        ((s.save).call (Call.drawLegendIdentifier identifierRect)).restore
      else s
    let titleRect := rect.setX ((identifierRect.right + 2 * widget.spacing : Int) : ℚ)
    let s := s.call (Call.setFont FontKind.legendItem)
    s.call (Call.drawText titleRect)
  else s

/-- The loop over the layout items in `renderLegend`, entered with the items
still to visit and the value of `index`; `none` when `itemRects[index]` is
read out of range. -/
def renderLegendItems (itemRects : List QRect) :
    List (Option LegendItemWidget) → Nat → Ctx → Option Ctx
  | [], _, s => some s
  | none :: rest, index, s => renderLegendItems itemRects rest index s
  | some w :: rest, index, s =>
    let s := s.save
    match itemRects[index]? with
    | none => none
    | some itemRect =>
      let s := s.call (Call.setClipRect (QRectF.ofQRect itemRect))
      let s := renderLegendItem s w (QRectF.ofQRect itemRect)
      renderLegendItems itemRects rest (index + 1) s.restore

/-- Embeds `QwtPlotRenderer::renderLegend( plot, painter, rect )`. -/
def renderLegend (s : Ctx) (rect : QRectF) : Option Ctx :=
  match s.plot.legend with
  | none => some s
  | some legend =>
    if legend.isEmpty then some s
    else
      match legend.layout with
      | none => some s
      | some l =>
        if !l.isDynGrid then some s
        else
          let itemRects := l.layoutItems rect
          renderLegendItems itemRects l.items 0 s

/-- The `switch ( axisId )` of `renderScale`: `x`, `y`, `w` and `align` for the
four axes, `none` for the `default:` label. -/
def scaleGeometry (axisId : Int) (startDist endDist baseDist : Int) (rect : QRectF) :
    Option (ℚ × ℚ × ℚ × QwtScaleDraw.Alignment) :=
  if axisId = QwtPlot.yLeft then
    some (rect.right - 1 - baseDist, rect.y + startDist,
      rect.height - startDist - endDist, QwtScaleDraw.Alignment.LeftScale)
  else if axisId = QwtPlot.yRight then
    some (rect.left + baseDist, rect.y + startDist,
      rect.height - startDist - endDist, QwtScaleDraw.Alignment.RightScale)
  else if axisId = QwtPlot.xTop then
    some (rect.left + startDist, rect.bottom - 1 - baseDist,
      rect.width - startDist - endDist, QwtScaleDraw.Alignment.TopScale)
  else if axisId = QwtPlot.xBottom then
    some (rect.left + startDist, rect.top + baseDist,
      rect.width - startDist - endDist, QwtScaleDraw.Alignment.BottomScale)
  else
    none

/-- Embeds `QwtPlotRenderer::renderScale( plot, painter, axisId, startDist, endDist,
baseDist, rect )`; `none` when the null pointer `axisWidget( axisId )` is
dereferenced. -/
def renderScale (s : Ctx) (axisId : Int) (startDist endDist baseDist : Int)
    (rect : QRectF) : Option Ctx :=
  if !s.plot.axisEnabled axisId then some s
  else
    match s.plot.axisWidget axisId with
    | none => none
    | some scaleWidget =>
      let colorBar : Bool :=
        scaleWidget.isColorBarEnabled && decide (scaleWidget.colorBarWidth > 0)
      let s := if colorBar then s.call (Call.drawColorBar axisId rect) else s
      -- both branches of the test of the orientation add `off`
      let baseDist :=
        if colorBar then baseDist + (scaleWidget.colorBarWidth + scaleWidget.spacing)
        else baseDist
      let s := s.save
      match scaleGeometry axisId startDist endDist baseDist rect with
      | none => some s
      | some (x, y, w, align) =>
        let s := s.call (Call.drawTitle axisId align rect)
        let s := s.call (Call.setFont (FontKind.scaleWidget axisId))
        let sdPos := scaleWidget.scaleDraw.pos
        let sdLength := scaleWidget.scaleDraw.length
        let s := { s with plot := s.plot.setScaleDraw axisId ⟨x, y⟩ w }
        let s := s.call (Call.drawScale axisId ⟨x, y⟩ w)
        let s := { s with plot := s.plot.setScaleDraw axisId sdPos sdLength }
        some s.restore

/-- Embeds `QwtPlotRenderer::renderCanvas( plot, painter, canvasRect, map )`. -/
def renderCanvas (d : PrivateData) (s : Ctx) (canvasRect : QRectF)
    (map : List QwtScaleMap) : Ctx :=
  let s := s.save
  let r := canvasRect.adjusted 0 0 (-1) (-1)
  let framed := flagSet d.layoutFlags FrameWithScales
  let r := if framed then r.adjusted (-1) (-1) 1 1 else r
  let s := if framed then s.call (Call.setPen PenKind.black)
    else s.call (Call.setPen PenKind.noPen)
  let s := if !flagSet d.discardFlags DiscardCanvasBackground then s.call Call.setBrush
    else s
  let s := s.call (Call.drawRect r)
  let s := s.restore
  let s := s.save
  let s := s.call (Call.setClipRect canvasRect)
  let s := s.call (Call.drawItems canvasRect map)
  s.restore

/-- The body of the loop of `buildCanvasMaps` for one axis: the map of the
axis; `none` when the null pointer `axisWidget( axisId )` is dereferenced. -/
def buildCanvasMap (plot : QwtPlot) (canvasRect : QRectF) (axisId : Int) :
    Option QwtScaleMap :=
  let scaleDiv := plot.axisScaleDiv axisId
  if plot.axisEnabled axisId then
    match plot.axisWidget axisId with
    | none => none
    | some wdg =>
      let sDist := wdg.startBorderDist
      let eDist := wdg.endBorderDist
      let scaleRect := plot.plotLayout.rects.scaleRect axisId
      if axisId = QwtPlot.xTop ∨ axisId = QwtPlot.xBottom then
        some ⟨plot.axisTransformation axisId, scaleDiv.lowerBound, scaleDiv.upperBound,
          scaleRect.left + sDist, scaleRect.right - eDist⟩
      else
        some ⟨plot.axisTransformation axisId, scaleDiv.lowerBound, scaleDiv.upperBound,
          scaleRect.bottom - eDist, scaleRect.top + sDist⟩
  else
    let margin := plot.plotLayout.canvasMargin axisId
    if axisId = QwtPlot.yLeft ∨ axisId = QwtPlot.yRight then
      some ⟨plot.axisTransformation axisId, scaleDiv.lowerBound, scaleDiv.upperBound,
        canvasRect.bottom - margin, canvasRect.top + margin⟩
    else
      some ⟨plot.axisTransformation axisId, scaleDiv.lowerBound, scaleDiv.upperBound,
        canvasRect.left + margin, canvasRect.right - margin⟩

/-- The loop of `buildCanvasMaps` over the axis ids still to visit: the maps
of these axes, in order. -/
def buildCanvasMapsLoop (plot : QwtPlot) (canvasRect : QRectF) :
    List Int → Option (List QwtScaleMap)
  | [] => some []
  | axisId :: rest =>
    match buildCanvasMap plot canvasRect axisId with
    | none => none
    | some map =>
      match buildCanvasMapsLoop plot canvasRect rest with
      | none => none
      | some maps => some (map :: maps)

/-- Embeds `QwtPlotRenderer::buildCanvasMaps( plot, canvasRect, maps )`: the array
`maps`, filled for the axes `0 .. axisCnt - 1`. -/
def buildCanvasMaps (plot : QwtPlot) (canvasRect : QRectF) : Option (List QwtScaleMap) :=
  buildCanvasMapsLoop plot canvasRect QwtPlot.axisIds

/-- The first loop of `render`: for each axis with a scale widget the margin
is stored in `baseLineDists` and set to 0. -/
def zeroMargins : List Int → Ctx × (Int → Int) → Ctx × (Int → Int)
  | [], acc => acc
  | axisId :: rest, (s, baseLineDists) =>
    match s.plot.axisWidget axisId with
    | some scaleWidget =>
      zeroMargins rest
        (s.setMargin axisId 0, Function.update baseLineDists axisId scaleWidget.margin)
    | none => zeroMargins rest (s, baseLineDists)

/-- The loop of `render` that paints the scales. -/
def renderScales : List Int → Ctx → Option Ctx
  | [], s => some s
  | axisId :: rest, s =>
    match s.plot.axisWidget axisId with
    | some scaleWidget =>
      let baseDist := scaleWidget.margin
      let startDist := scaleWidget.borderDistHintStart
      let endDist := scaleWidget.borderDistHintEnd
      match renderScale s axisId startDist endDist baseDist
          (s.plot.plotLayout.rects.scaleRect axisId) with
      | some s => renderScales rest s
      | none => none
    | none => renderScales rest s

/-- The last loop of `render`: for each axis with a scale widget the margin is
set to the value stored in `baseLineDists`. -/
def restoreMargins (baseLineDists : Int → Int) : List Int → Ctx → Ctx
  | [], s => s
  | axisId :: rest, s =>
    match s.plot.axisWidget axisId with
    | some _ => restoreMargins baseLineDists rest (s.setMargin axisId (baseLineDists axisId))
    | none => restoreMargins baseLineDists rest s

/-- The painting steps of `render` between `setWorldTransform` and
`invalidate`: the canvas maps, the canvas, the title, the legend and the
scales; `none` when a null scale widget is dereferenced or `itemRects` is read
out of range. -/
def renderSteps (d : PrivateData) (s : Ctx) : Option Ctx :=
  match buildCanvasMaps s.plot s.plot.plotLayout.rects.canvasRect with
  | none => none
  | some maps =>
    let s := renderCanvas d s s.plot.plotLayout.rects.canvasRect maps
    let s :=
      if !flagSet d.discardFlags DiscardTitle && !s.plot.titleIsEmpty then
        renderTitle s s.plot.plotLayout.rects.titleRect
      else s
    let legendStep : Option Ctx :=
      if !flagSet d.discardFlags DiscardLegend
          && (match s.plot.legend with
              | some legend => !legend.isEmpty
              | none => false) then
        renderLegend s s.plot.plotLayout.rects.legendRect
      else some s
    match legendStep with
    | none => none
    | some s => renderScales QwtPlot.axisIds s

/-- Embeds `QwtPlotRenderer::render( plot, painter, plotRect )`.  `uninit` is the
indeterminate initial content of the local array `baseLineDists`; the result
is `none` when a null scale widget is dereferenced or `itemRects` is read out
of range. -/
def render (d : PrivateData) (uninit : Int → Int) (world : World) (plotRect : QRectF) :
    Option World :=
  match world.painter with
  | none => some world
  | some painter =>
    if !painter.isActive || !plotRect.isValid || world.plot.size.isNull then
      some world
    else
      let plot := world.plot
      let s : Ctx := ⟨plot, painter, world.trace⟩
      let s := if !flagSet d.discardFlags DiscardBackground then
          s.call (Call.fillRect plotRect)
        else s
      let transform := QTransform.identity.scale
        ((painter.deviceLogicalDpiX : ℚ) / (plot.logicalDpiX : ℚ))
        ((painter.deviceLogicalDpiY : ℚ) / (plot.logicalDpiY : ℚ))
      let s := s.save
      let zeroed : Ctx × (Int → Int) :=
        if flagSet d.layoutFlags FrameWithScales then
          zeroMargins QwtPlot.axisIds (s, uninit)
        else (s, uninit)
      let s := zeroed.1
      let baseLineDists := zeroed.2
      let layoutRect := transform.inverted.mapRect plotRect
      let s := { s with plot := s.plot.activate layoutRect (layoutOptions d) }
      let s := s.call (Call.activate layoutRect (layoutOptions d))
      let s := s.call (Call.setWorldTransform transform)
      match renderSteps d s with
      | none => none
      | some s =>
        let s := { s with plot := s.plot.invalidate }
        let s := s.call Call.invalidate
        let s :=
          if flagSet d.layoutFlags FrameWithScales then
            restoreMargins baseLineDists QwtPlot.axisIds s
          else s
        let s := s.restore
        some ⟨s.plot, some s.painter, s.trace⟩

end QwtPlotRenderer

/-! ## `qwt_plot_renderer.cpp`: the flag accessors -/

namespace QwtPlotRenderer

/-- Embeds `QwtPlotRenderer::setDiscardFlag( flag, on )`: `discardFlags |= flag`
when `on`, `discardFlags &= ~flag` otherwise. -/
def setDiscardFlag (d : PrivateData) (flag : Int) (on_ : Bool) : PrivateData :=
  if on_ then
    { d with discardFlags := Int.lor d.discardFlags flag }
  else
    { d with discardFlags := Int.land d.discardFlags (Int.lnot flag) }

/-- Embeds `QwtPlotRenderer::testDiscardFlag( flag )`: `discardFlags & flag`,
converted to `bool`. -/
def testDiscardFlag (d : PrivateData) (flag : Int) : Bool :=
  flagSet d.discardFlags flag

/-- Embeds `QwtPlotRenderer::setDiscardFlags( flags )`. -/
def setDiscardFlags (d : PrivateData) (flags : Int) : PrivateData :=
  { d with discardFlags := flags }

/-- Embeds `QwtPlotRenderer::discardFlags()`. -/
def discardFlags (d : PrivateData) : Int :=
  d.discardFlags

/-- Embeds `QwtPlotRenderer::setLayoutFlag( flag, on )`: `layoutFlags |= flag`
when `on`, `layoutFlags &= ~flag` otherwise. -/
def setLayoutFlag (d : PrivateData) (flag : Int) (on_ : Bool) : PrivateData :=
  if on_ then
    { d with layoutFlags := Int.lor d.layoutFlags flag }
  else
    { d with layoutFlags := Int.land d.layoutFlags (Int.lnot flag) }

/-- Embeds `QwtPlotRenderer::testLayoutFlag( flag )`: `layoutFlags & flag`,
converted to `bool`. -/
def testLayoutFlag (d : PrivateData) (flag : Int) : Bool :=
  flagSet d.layoutFlags flag

/-- Embeds `QwtPlotRenderer::setLayoutFlags( flags )`. -/
def setLayoutFlags (d : PrivateData) (flags : Int) : PrivateData :=
  { d with layoutFlags := flags }

/-- Embeds `QwtPlotRenderer::layoutFlags()`. -/
def layoutFlags (d : PrivateData) : Int :=
  d.layoutFlags

end QwtPlotRenderer

/-! ## Qt value types: rectangles, sizes, rounding -/

namespace QRectF

/-- Qt's `QRectF::isEmpty()`: `w <= 0 || h <= 0`. -/
def isEmpty (r : QRectF) : Bool :=
  decide (r.w ≤ 0 ∨ r.h ≤ 0)

/-- Qt's `QRectF::normalized()`: a negative width or height is flipped. -/
def normalized (r : QRectF) : QRectF :=
  let xp := if r.w < 0 then r.xp + r.w else r.xp
  let w := if r.w < 0 then -r.w else r.w
  let yp := if r.h < 0 then r.yp + r.h else r.yp
  let h := if r.h < 0 then -r.h else r.h
  ⟨xp, yp, w, h⟩

/-- The smaller x coordinate of the two vertical edges (`l1` in Qt's code). -/
def lo1 (r : QRectF) : ℚ := if r.w < 0 then r.xp + r.w else r.xp

/-- The larger x coordinate of the two vertical edges (`r1` in Qt's code). -/
def hi1 (r : QRectF) : ℚ := if r.w < 0 then r.xp else r.xp + r.w

/-- The smaller y coordinate of the two horizontal edges (`t1` in Qt's code). -/
def lo2 (r : QRectF) : ℚ := if r.h < 0 then r.yp + r.h else r.yp

/-- The larger y coordinate of the two horizontal edges (`b1` in Qt's code). -/
def hi2 (r : QRectF) : ℚ := if r.h < 0 then r.yp else r.yp + r.h

/-- Qt's `QRectF::intersects( r )`: false when one of the rectangles has no
width or no height, or when they do not overlap in x or in y. -/
def intersects (a b : QRectF) : Bool :=
  if a.lo1 = a.hi1 then false
  else if b.lo1 = b.hi1 then false
  else if a.lo1 ≥ b.hi1 ∨ b.lo1 ≥ a.hi1 then false
  else if a.lo2 = a.hi2 then false
  else if b.lo2 = b.hi2 then false
  else if a.lo2 ≥ b.hi2 ∨ b.lo2 ≥ a.hi2 then false
  else true

/-- Qt's `QRectF::contains( const QRectF &r )`: false when one of the rectangles
has no width or no height, or when `b` sticks out of `a`. -/
def contains (a b : QRectF) : Bool :=
  if a.lo1 = a.hi1 then false
  else if b.lo1 = b.hi1 then false
  else if b.lo1 < a.lo1 ∨ b.hi1 > a.hi1 then false
  else if a.lo2 = a.hi2 then false
  else if b.lo2 = b.hi2 then false
  else if b.lo2 < a.lo2 ∨ b.hi2 > a.hi2 then false
  else true

/-- Qt's `QRectF::contains( const QPointF &p )`: false when the rectangle has no
width or no height, or when the point is outside; the edges belong to the
rectangle. -/
def containsPoint (a : QRectF) (p : QPointF) : Bool :=
  if a.lo1 = a.hi1 then false
  else if p.x < a.lo1 ∨ p.x > a.hi1 then false
  else if a.lo2 = a.hi2 then false
  else if p.y < a.lo2 ∨ p.y > a.hi2 then false
  else true

/-- Qt's `QRectF::operator&( r )` (also `intersect`, `intersected`, `&=`): the
common part of two rectangles, the null rectangle when `intersects` is false. -/
def intersected (a b : QRectF) : QRectF :=
  if a.lo1 = a.hi1 then QRectF.null
  else if b.lo1 = b.hi1 then QRectF.null
  else if a.lo1 ≥ b.hi1 ∨ b.lo1 ≥ a.hi1 then QRectF.null
  else if a.lo2 = a.hi2 then QRectF.null
  else if b.lo2 = b.hi2 then QRectF.null
  else if a.lo2 ≥ b.hi2 ∨ b.lo2 ≥ a.hi2 then QRectF.null
  else
    ⟨max a.lo1 b.lo1, max a.lo2 b.lo2,
      min a.hi1 b.hi1 - max a.lo1 b.lo1, min a.hi2 b.hi2 - max a.lo2 b.lo2⟩

end QRectF

/-- Qt's `QPolygonF( const QRectF & )`: the closed polygon of the four corners,
the first corner repeated at the end. -/
def polygonOfRect (r : QRectF) : List QPointF :=
  [⟨r.x, r.y⟩, ⟨r.x + r.width, r.y⟩, ⟨r.x + r.width, r.y + r.height⟩,
    ⟨r.x, r.y + r.height⟩, ⟨r.x, r.y⟩]

/-- Qt's `qRound( qreal d )` (Qt 4):
`d >= 0.0 ? int(d + 0.5) : int(d - int(d-1) + 0.5) + int(d-1)`. -/
def qRound (d : ℚ) : Int :=
  if d ≥ 0 then doubleToInt (d + 1 / 2)
  else doubleToInt (d - (doubleToInt (d - 1) : ℚ) + 1 / 2) + doubleToInt (d - 1)

/-- Qt's `QRectF::toRect()` (Qt 4): position and size rounded by `qRound`. -/
def QRectF.toRect (r : QRectF) : QRect :=
  ⟨qRound r.xp, qRound r.yp, qRound r.w, qRound r.h⟩

/-- Qt's `QSizeF`: a size with `double` width and height. -/
structure QSizeF where
  wd : ℚ
  ht : ℚ
  deriving DecidableEq

/-- Qt's `QSizeF::isEmpty()`: the width or the height is `<= 0`. -/
def QSizeF.isEmpty (s : QSizeF) : Bool :=
  decide (s.wd ≤ 0 ∨ s.ht ≤ 0)

/-! ## `qwt_painter.cpp`: the clipping wrappers -/

/-- Qt's `QPainter`, as far as the wrappers of `qwt_painter.cpp` read it: the
paint engine (a null pointer is `none`), whether clipping is on, the bounding
rectangle of the clip region and the window. -/
structure ClipPainter where
  /-- Value of `paintEngine()`, with its `type()` -/
  paintEngine : Option PaintEngineType
  /-- Value of `hasClipping()` -/
  hasClipping : Bool
  /-- Value of `clipRegion().boundingRect()` -/
  clipBoundingRect : QRect
  /-- Value of `window()` -/
  window : QRect
  deriving DecidableEq

/-- The calls the wrappers of `qwt_painter.cpp` forward to the Qt painter. -/
inductive PainterCall where
  /-- Call `painter->drawRect( r )` -/
  | drawRect (r : QRectF)
  /-- Call `painter->fillRect( r, brush )` -/
  | fillRect (r : QRectF)
  /-- Call `painter->drawPie( rect, a, alen )` -/
  | drawPie (rect : QRectF) (a alen : Int)
  /-- Call `painter->drawEllipse( rect )` -/
  | drawEllipse (rect : QRectF)
  /-- Call `painter->drawPoint( pos )` -/
  | drawPoint (pos : QPointF)
  /-- Call `painter->drawPolyline( points, n )`, with the `n` points -/
  | drawPolyline (points : List QPointF)
  /-- Call `painter->save()` -/
  | save
  /-- Call `painter->restore()` -/
  | restore
  /-- Call `painter->setBrush( Qt::NoBrush )` -/
  | setNoBrush
  deriving DecidableEq

namespace QwtPainter

/-- The file-static `isClippingNeeded( painter, clipRect )`: the result and the
value of the reference parameter `clipRect` on return. -/
def isClippingNeeded (painter : ClipPainter) (clipRect : QRectF) : Bool × QRectF :=
  match painter.paintEngine with
  | some pe =>
    if pe = PaintEngineType.SVG then
      if painter.hasClipping then (true, QRectF.ofQRect painter.clipBoundingRect)
      else (false, clipRect)
    else (false, clipRect)
  | none => (false, clipRect)

/-- Embeds `QwtPainter::fillRect( painter, rect, brush )`; the calls forwarded to
the painter. -/
def fillRect (painter : ClipPainter) (rect : QRectF) : List PainterCall :=
  if !rect.isValid then []
  else
    let clipping := isClippingNeeded painter QRectF.null
    let deviceClipping := clipping.1
    let clipRect := clipping.2
    let clipRect :=
      if deviceClipping then clipRect.intersected (QRectF.ofQRect painter.window)
      else QRectF.ofQRect painter.window
    let clipRect :=
      if painter.hasClipping then
        clipRect.intersected (QRectF.ofQRect painter.clipBoundingRect)
      else clipRect
    let r := rect
    let r := if deviceClipping then r.intersected clipRect else r
    if r.isValid then [PainterCall.fillRect r] else []

/-- Embeds `QwtPainter::drawPolyline( painter, const QPolygonF &polygon )`.
`clipPolygonF` is `QwtClipper::clipPolygonF`, which is not among the sources;
`polylineSplitting` is the static flag `d_polylineSplitting`. -/
def drawPolylineF (clipPolygonF : QRectF → List QPointF → List QPointF)
    (polylineSplitting : Bool) (painter : ClipPainter) (polygon : List QPointF) :
    List PainterCall :=
  let clipping := isClippingNeeded painter QRectF.null
  let cpa := if clipping.1 then clipPolygonF clipping.2 polygon else polygon
  (drawPolyline painter.paintEngine cpa.length polylineSplitting).map fun c =>
    PainterCall.drawPolyline ((cpa.drop c.offset.toNat).take c.count.toNat)

/-- Embeds `QwtPainter::drawRect( painter, const QRectF &rect )`. -/
def drawRect (clipPolygonF : QRectF → List QPointF → List QPointF)
    (polylineSplitting : Bool) (painter : ClipPainter) (rect : QRectF) :
    List PainterCall :=
  let r := rect
  let clipping := isClippingNeeded painter QRectF.null
  let deviceClipping := clipping.1
  let clipRect := clipping.2
  if deviceClipping then
    if !clipRect.intersects r then []
    else if !clipRect.contains r then
      fillRect painter (r.intersected clipRect)
        ++ [PainterCall.save, PainterCall.setNoBrush]
        ++ drawPolylineF clipPolygonF polylineSplitting painter (polygonOfRect r)
        ++ [PainterCall.restore]
    else [PainterCall.drawRect r]
  else [PainterCall.drawRect r]

/-- Embeds `QwtPainter::drawPie( painter, rect, a, alen )`. -/
def drawPie (painter : ClipPainter) (rect : QRectF) (a alen : Int) : List PainterCall :=
  let clipping := isClippingNeeded painter QRectF.null
  if clipping.1 && !clipping.2.contains rect then []
  else [PainterCall.drawPie rect a alen]

/-- Embeds `QwtPainter::drawEllipse( painter, rect )`. -/
def drawEllipse (painter : ClipPainter) (rect : QRectF) : List PainterCall :=
  let clipping := isClippingNeeded painter QRectF.null
  if clipping.1 && !clipping.2.contains rect then []
  else [PainterCall.drawEllipse rect]

/-- Embeds `QwtPainter::drawPoint( painter, pos )`. -/
def drawPoint (painter : ClipPainter) (pos : QPointF) : List PainterCall :=
  let clipping := isClippingNeeded painter QRectF.null
  if clipping.1 && !clipping.2.containsPoint pos then []
  else [PainterCall.drawPoint pos]

end QwtPainter

/-! ## `qwt_column_symbol.h` -/

/-- Modelled from the spec: the class `QwtDoubleInterval` is declared in
`qwt_double_interval.h`, which is not among the sources; the interval of spec
section 3 as the pair `minValue()`, `maxValue()`, valid when
`minValue <= maxValue`. -/
structure QwtDoubleInterval where
  minValue : ℚ
  maxValue : ℚ
  deriving DecidableEq

/-- Embeds `enum QwtColumnRect::Direction`. -/
inductive QwtColumnRect.Direction where
  | LeftToRight | RightToLeft | BottomToTop | TopToBottom
  deriving DecidableEq

/-- Qt's `Qt::Orientation`. -/
inductive Orientation where
  | Horizontal | Vertical
  deriving DecidableEq

/-- Embeds `class QwtColumnRect`: two intervals and a direction. -/
structure QwtColumnRect where
  hInterval : QwtDoubleInterval
  vInterval : QwtDoubleInterval
  direction : QwtColumnRect.Direction
  deriving DecidableEq

namespace QwtColumnRect

/-- Embeds `QwtColumnRect::toRect()`. -/
def toRect (c : QwtColumnRect) : QRectF :=
  (QRectF.mk c.hInterval.minValue c.vInterval.minValue
    (c.hInterval.maxValue - c.hInterval.minValue)
    (c.vInterval.maxValue - c.vInterval.minValue)).normalized

/-- Embeds `QwtColumnRect::orientation()`. -/
def orientation (c : QwtColumnRect) : Orientation :=
  if c.direction = Direction.LeftToRight ∨ c.direction = Direction.RightToLeft then
    Orientation.Horizontal
  else
    Orientation.Vertical

end QwtColumnRect

/-! ## `qwt_plot_renderer.cpp`: documents and paint devices -/

/-- Qt's `QSvgGenerator`, as far as `renderTo` reads it. -/
structure QSvgGenerator where
  /-- Value of `viewBoxF()` -/
  viewBoxF : QRectF
  /-- Value of `width()` -/
  width : Int
  /-- Value of `height()` -/
  height : Int
  deriving DecidableEq

/-- What `renderDocument` does to its collaborators, in order. -/
inductive DocumentCall where
  /-- A `QPrinter` set up for the file, for pdf or for PostScript -/
  | printer (fileName : String) (pdf : Bool) (docName : String) (sizeMM : QSizeF)
      (resolution : Int)
  /-- A `QSvgGenerator` set up for the file -/
  | svgGenerator (fileName : String) (title : String) (resolution : Int)
      (viewBox : QRectF)
  /-- A `QImage` of the size of the document, filled white -/
  | image (width height : Int) (dotsPerMeter : Int)
  /-- Call `render( plot, &painter, rect )` with a painter on the device -/
  | render (rect : QRectF)
  /-- Call `painter.end()` -/
  | painterEnd
  /-- Call `image.save( fileName, format.toLatin1() )` -/
  | imageSave (fileName : String) (format : String)
  deriving DecidableEq

/-- The call is a call of `render`. -/
def DocumentCall.isRender : DocumentCall → Bool
  | DocumentCall.render _ => true
  | _ => false

namespace QwtPlotRenderer

/-- Embeds `QwtPlotRenderer::renderDocument( plot, fileName, format, sizeMM,
resolution )`, in the build with SVG support (the preprocessor conditions
around the `svg` branch hold).  `plotTitle` is `plot->title().text()`,
`supportedImageFormat` tells whether
`QImageWriter::supportedImageFormats().indexOf( format.toLatin1() ) >= 0`. -/
def renderDocument (supportedImageFormat : String → Bool) (plot : Option QwtPlot)
    (plotTitle : String) (fileName : String) (format : String) (sizeMM : QSizeF)
    (resolution : Int) : List DocumentCall :=
  if plot.isNone || sizeMM.isEmpty || decide (resolution ≤ 0) then []
  else
    let title : String := if plotTitle.isEmpty then ("Plot Document") else plotTitle
    let mmToInch : ℚ := 1 / (254 / 10)
    let size : QSizeF :=
      ⟨sizeMM.wd * mmToInch * resolution, sizeMM.ht * mmToInch * resolution⟩
    let documentRect : QRectF := ⟨0, 0, size.wd, size.ht⟩
    let _fmt : String := format.toLower
    if format = ("pdf") || format = ("ps") then
      [DocumentCall.printer fileName (format = ("pdf")) title sizeMM resolution,
        DocumentCall.render documentRect]
    else if format = ("svg") then
      [DocumentCall.svgGenerator fileName title resolution documentRect,
        DocumentCall.render documentRect]
    else
      if supportedImageFormat format then
        let imageRect := documentRect.toRect
        let dotsPerMeter := qRound (resolution * mmToInch * 1000)
        [DocumentCall.image imageRect.w imageRect.h dotsPerMeter,
          DocumentCall.render (QRectF.ofQRect imageRect),
          DocumentCall.painterEnd,
          DocumentCall.imageSave fileName format]
      else []

/-- The target rectangle `renderTo( plot, QSvgGenerator & )` computes. -/
def renderToSvgRect (generator : QSvgGenerator) : QRectF :=
  let rect := generator.viewBoxF
  let rect := if rect.isEmpty then ⟨0, 0, generator.width, generator.height⟩ else rect
  let rect := if rect.isEmpty then ⟨0, 0, 800, 600⟩ else rect
  rect

/-- Embeds `QwtPlotRenderer::renderTo( plot, QSvgGenerator &generator )`; `p` is
the painter `QPainter p( &generator )`. -/
def renderToSvg (d : PrivateData) (uninit : Int → Int) (plot : QwtPlot)
    (generator : QSvgGenerator) (p : QPainter) (trace : List Call) : Option World :=
  render d uninit ⟨plot, some p, trace⟩ (renderToSvgRect generator)

/-! ### The calls of the rendering steps -/

/-- The calls of `renderCanvas`, in order: the canvas background, then the
plot items. -/
def canvasCalls (d : PrivateData) (canvasRect : QRectF) (map : List QwtScaleMap) :
    List Call :=
  [Call.save,
    Call.setPen
      (if flagSet d.layoutFlags FrameWithScales then PenKind.black else PenKind.noPen)]
  ++ (if !flagSet d.discardFlags DiscardCanvasBackground then [Call.setBrush] else [])
  ++ [Call.drawRect
        (if flagSet d.layoutFlags FrameWithScales then
          (canvasRect.adjusted 0 0 (-1) (-1)).adjusted (-1) (-1) 1 1
        else canvasRect.adjusted 0 0 (-1) (-1)),
      Call.restore, Call.save, Call.setClipRect canvasRect,
      Call.drawItems canvasRect map, Call.restore]

/-- The calls of `renderTitle`. -/
def titleCalls (rect : QRectF) : List Call :=
  [Call.setFont FontKind.title, Call.setPen PenKind.titleText, Call.drawText rect]

/-- The calls of `renderLegendItem` for one widget of the legend. -/
def legendItemCalls (widget : LegendItemWidget) (rect : QRectF) : List Call :=
  if widget.isLegendItem then
    (if widget.hasManager then
      [Call.save,
        Call.drawLegendIdentifier
          ⟨doubleToInt (rect.x + widget.margin), doubleToInt rect.y,
            widget.identifierWidth, doubleToInt rect.height⟩,
        Call.restore]
    else [])
    ++ [Call.setFont FontKind.legendItem,
        Call.drawText
          (rect.setX (((QRect.mk (doubleToInt (rect.x + widget.margin)) (doubleToInt rect.y)
            widget.identifierWidth (doubleToInt rect.height)).right
              + 2 * widget.spacing : Int) : ℚ))]
  else []

/-- The calls of the legend step for the items still to visit: for each item
that has a widget a bracket of `save`, `setClipRect`, the calls of the item,
`restore`; `none` when a rectangle is missing. -/
def legendItemsCalls (itemRects : List QRect) :
    List (Option LegendItemWidget) → Nat → Option (List Call)
  | [], _ => some []
  | none :: rest, index => legendItemsCalls itemRects rest index
  | some w :: rest, index =>
    match itemRects[index]? with
    | none => none
    | some itemRect =>
      match legendItemsCalls itemRects rest (index + 1) with
      | none => none
      | some calls =>
        some ([Call.save, Call.setClipRect (QRectF.ofQRect itemRect)]
          ++ legendItemCalls w (QRectF.ofQRect itemRect) ++ [Call.restore] ++ calls)

/-- The calls of `renderLegend` for the legend of the plot. -/
def legendCalls (legend : Option QwtLegend) (rect : QRectF) : Option (List Call) :=
  match legend with
  | none => some []
  | some legend =>
    if legend.isEmpty then some []
    else
      match legend.layout with
      | none => some []
      | some l =>
        if !l.isDynGrid then some []
        else legendItemsCalls (l.layoutItems rect) l.items 0

/-- The calls of the scale step of `render` for one axis: nothing for an axis
without scale widget, nothing for an axis that is not enabled, otherwise the
colour bar (when enabled) and the bracket of `save`, scale title, font, scale,
`restore`. -/
def scaleCalls (plot : QwtPlot) (axisId : Int) : List Call :=
  match plot.axisWidget axisId with
  | none => []
  | some scaleWidget =>
    if !plot.axisEnabled axisId then []
    else
      let rect := plot.plotLayout.rects.scaleRect axisId
      let colorBar : Bool :=
        scaleWidget.isColorBarEnabled && decide (scaleWidget.colorBarWidth > 0)
      let baseDist :=
        if colorBar then
          scaleWidget.margin + (scaleWidget.colorBarWidth + scaleWidget.spacing)
        else scaleWidget.margin
      (if colorBar then [Call.drawColorBar axisId rect] else [])
      ++ (match scaleGeometry axisId scaleWidget.borderDistHintStart
            scaleWidget.borderDistHintEnd baseDist rect with
          | none => [Call.save]
          | some (x, y, w, align) =>
            [Call.save, Call.drawTitle axisId align rect,
              Call.setFont (FontKind.scaleWidget axisId),
              Call.drawScale axisId ⟨x, y⟩ w, Call.restore])

/-- The plot as the painting steps of `render` find it: with `FrameWithScales`
the margin of every scale widget is 0, and the layout holds the rectangles the
layout engine computes for `layoutRect` and the layout options of `render`. -/
def paintedPlot (d : PrivateData) (plot : QwtPlot) (layoutRect : QRectF) : QwtPlot :=
  let axisWidget : Int → Option QwtScaleWidget := fun axisId =>
    if flagSet d.layoutFlags FrameWithScales = true ∧ axisId ∈ QwtPlot.axisIds then
      (plot.axisWidget axisId).map fun w => { w with margin := 0 }
    else plot.axisWidget axisId
  { plot with
    axisWidget := axisWidget
    plotLayout := { plot.plotLayout with
      rects := plot.plotLayout.engine axisWidget layoutRect (layoutOptions d) } }

/-- The calls of the first loop of `render`: `setMargin( 0 )` for each axis
with a scale widget, in the order of the axis ids. -/
def zeroMarginCalls (plot : QwtPlot) (axisIds : List Int) : List Call :=
  axisIds.filterMap fun axisId =>
    (plot.axisWidget axisId).map fun _ => Call.setMargin axisId 0

/-- The calls of the last loop of `render`: `setMargin` with the margin the
widget had on entry, for each axis with a scale widget, in the order of the
axis ids. -/
def restoreMarginCalls (plot : QwtPlot) (axisIds : List Int) : List Call :=
  axisIds.filterMap fun axisId =>
    (plot.axisWidget axisId).map fun w => Call.setMargin axisId w.margin

end QwtPlotRenderer

/-- The axis a call of the scale step belongs to: the axis id of
`drawColorBar`, `drawTitle` and `drawScale`, `none` for every other call. -/
def Call.scaleAxis : Call → Option Int
  | Call.drawColorBar axisId _ => some axisId
  | Call.drawTitle axisId _ _ => some axisId
  | Call.drawScale axisId _ _ => some axisId
  | _ => none

/-! ## Example data -/

/-- A scale widget of the example plot. -/
def exampleWidget (margin : Int) : QwtScaleWidget :=
  ⟨margin, 2, 3, 1, 1, false, 0, 2, ⟨⟨0, 0⟩, 100⟩⟩

/-- A layout engine for the example plot: a title strip of height 10 on top,
the rest for the canvas and the scales. -/
def exampleLayout : QwtPlotLayout :=
  ⟨⟨QRectF.null, QRectF.null, QRectF.null, fun _ => QRectF.null⟩, fun _ => 0,
    fun _ rect _ =>
      ⟨⟨rect.xp, rect.yp, rect.w, 10⟩, QRectF.null,
        ⟨rect.xp, rect.yp + 10, rect.w, rect.h - 10⟩,
        fun _ => ⟨rect.xp, rect.yp + 10, rect.w, rect.h - 10⟩⟩⟩

/-- An example plot: four axes with scale widgets of margins 4, 5, 6, 7, the
two left and bottom axes enabled, a title, no legend. -/
def examplePlot : QwtPlot :=
  ⟨⟨400, 300⟩, 96, 96,
    fun axisId => if 0 ≤ axisId ∧ axisId < 4 then some (exampleWidget (4 + axisId)) else none,
    fun axisId => decide (axisId = QwtPlot.yLeft ∨ axisId = QwtPlot.xBottom),
    fun _ => ⟨0, 10⟩, fun _ => TransformationType.Linear, false, none, exampleLayout⟩

/-- An example painter: active, on a device of 96 dpi, nothing saved. -/
def examplePainter : QPainter :=
  ⟨true, 96, 96, 0⟩

/-! ## Theorems: Hermite conversions -/

open QwtSplineHermite

theorem currentPosition_cubicTo (p1 : QPointF) (m1 : ℚ) (p2 : QPointF) (m2 : ℚ)
    (path : QPainterPath) :
    (cubicTo p1 m1 p2 m2 path).currentPosition = p2 := by
  simp [cubicTo, QPainterPath.cubicTo, QPainterPath.currentPosition,
    PathElement.endPoint]

/-- C1: for `p2.x ≠ p1.x`, `toCurvatures2( p1, m1, p2, m2 )` returns the same
pair as `toCurvatures( dx, a, b )` for the coefficients `a`, `b` of the cubic
`a t^3 + b t^2 + m1 t` that has value `dy` and slope `m2` at `t = dx`. -/
theorem toCurvatures2_eq_toCurvatures (p1 p2 : QPointF) (m1 m2 : ℚ)
    (hx : p2.x ≠ p1.x) :
    let dx := p2.x - p1.x
    let dy := p2.y - p1.y
    let a := (m1 + m2 - 2 * dy / dx) / dx ^ 2
    let b := (3 * dy / dx - 2 * m1 - m2) / dx
    (a * dx ^ 3 + b * dx ^ 2 + m1 * dx = dy
      ∧ 3 * a * dx ^ 2 + 2 * b * dx + m1 = m2)
    ∧ toCurvatures2 p1 m1 p2 m2 = toCurvatures dx a b := by
  have hdx : p2.x - p1.x ≠ 0 := sub_ne_zero.mpr hx
  refine ⟨⟨?_, ?_⟩, ?_⟩
  · field_simp
    ring
  · field_simp
    ring
  · simp only [toCurvatures2, toCurvatures, Prod.mk.injEq]
    constructor
    · field_simp
      ring
    · field_simp
      ring

theorem toCurvatures2_eq_toCurvatures_witness :
    ((((1 : ℚ) + 2 - 2 * (5 - 1) / (2 - 0)) / (2 - 0) ^ 2 * (2 - 0) ^ 3
        + (3 * (5 - 1) / (2 - 0) - 2 * 1 - 2) / (2 - 0) * (2 - 0) ^ 2
        + 1 * (2 - 0) = 5 - 1
      ∧ 3 * (((1 : ℚ) + 2 - 2 * (5 - 1) / (2 - 0)) / (2 - 0) ^ 2) * (2 - 0) ^ 2
        + 2 * ((3 * (5 - 1) / (2 - 0) - 2 * 1 - 2) / (2 - 0)) * (2 - 0)
        + 1 = 2)
    ∧ toCurvatures2 ⟨0, 1⟩ 1 ⟨2, 5⟩ 2
      = toCurvatures (2 - 0) (((1 : ℚ) + 2 - 2 * (5 - 1) / (2 - 0)) / (2 - 0) ^ 2)
          ((3 * (5 - 1) / (2 - 0) - 2 * 1 - 2) / (2 - 0))) :=
  toCurvatures2_eq_toCurvatures ⟨0, 1⟩ ⟨2, 5⟩ 1 2 (by decide)

/-- C2: `toCurvatures( dx, a, b )` returns `cv1 = 2 b` and
`cv2 = 2 (3 a dx + b)`; these are the values of the second derivative of
`a t^3 + b t^2 + c t + d` at `t = 0` and at `t = dx`; the overload taking two
points returns the same pair for `dx = p2.x - p1.x`. -/
theorem toCurvatures_second_derivative (dx a b c d : ℚ) (p1 p2 : QPointF) :
    toCurvatures dx a b = (2 * b, 2 * (3 * a * dx + b))
    ∧ (toCurvatures dx a b).1
        = Polynomial.eval 0 (Polynomial.derivative (Polynomial.derivative
            (Polynomial.C a * Polynomial.X ^ 3 + Polynomial.C b * Polynomial.X ^ 2
              + Polynomial.C c * Polynomial.X + Polynomial.C d)))
    ∧ (toCurvatures dx a b).2
        = Polynomial.eval dx (Polynomial.derivative (Polynomial.derivative
            (Polynomial.C a * Polynomial.X ^ 3 + Polynomial.C b * Polynomial.X ^ 2
              + Polynomial.C c * Polynomial.X + Polynomial.C d)))
    ∧ toCurvaturesP p1 p2 a b = toCurvatures (p2.x - p1.x) a b
    ∧ toCurvaturesP p1 p2 a b
        = (2 * b, 2 * (3 * a * (p2.x - p1.x) + b)) := by
  refine ⟨rfl, ?_, ?_, rfl, rfl⟩
  · simp only [toCurvatures, Polynomial.derivative_add, Polynomial.derivative_mul,
      Polynomial.derivative_C, Polynomial.derivative_X_pow, Polynomial.derivative_X,
      Polynomial.eval_add, Polynomial.eval_mul, Polynomial.eval_C, Polynomial.eval_X,
      Polynomial.eval_pow, Polynomial.eval_one, Polynomial.eval_zero,
      Polynomial.derivative_one, Polynomial.derivative_zero,
      Polynomial.derivative_natCast, Polynomial.eval_natCast]
    norm_num
    ring
  · simp only [toCurvatures, Polynomial.derivative_add, Polynomial.derivative_mul,
      Polynomial.derivative_C, Polynomial.derivative_X_pow, Polynomial.derivative_X,
      Polynomial.eval_add, Polynomial.eval_mul, Polynomial.eval_C, Polynomial.eval_X,
      Polynomial.eval_pow, Polynomial.eval_one, Polynomial.eval_zero,
      Polynomial.derivative_one, Polynomial.derivative_zero,
      Polynomial.derivative_natCast, Polynomial.eval_natCast]
    norm_num
    ring

/-- C3: `cubicTo( p1, m1, p2, m2, path )` appends one cubic Bezier element with
control points `(p1.x + D/3, p1.y + m1 D/3)`, `(p2.x - D/3, p2.y - m2 D/3)` and
end point `p2`, where `D = p2.x - p1.x`.  When the current position of the path
is `p1` and `D ≠ 0`, the curve has `x(t) = p1.x + t D`, and its `y(t)` is the
value at `x(t)` of a polynomial of degree at most 3 that takes the values
`p1.y`, `p2.y` and the slopes `m1`, `m2` at `p1.x`, `p2.x`: the cubic Hermite
interpolant. -/
theorem cubicTo_hermite (p1 p2 : QPointF) (m1 m2 : ℚ) (path : QPainterPath) :
    (cubicTo p1 m1 p2 m2 path).elements
        = path.elements ++ [PathElement.cubicTo
            ⟨p1.x + (p2.x - p1.x) / 3, p1.y + m1 * (p2.x - p1.x) / 3⟩
            ⟨p2.x - (p2.x - p1.x) / 3, p2.y - m2 * (p2.x - p1.x) / 3⟩ p2]
    ∧ (path.currentPosition = p1 → p2.x - p1.x ≠ 0 →
        ∃ H : Polynomial ℚ, H.natDegree ≤ 3
          ∧ H.eval p1.x = p1.y ∧ H.eval p2.x = p2.y
          ∧ (Polynomial.derivative H).eval p1.x = m1
          ∧ (Polynomial.derivative H).eval p2.x = m2
          ∧ ∀ t : ℚ,
              (bezierAt path.currentPosition
                ⟨p1.x + (p2.x - p1.x) / 3, p1.y + m1 * (p2.x - p1.x) / 3⟩
                ⟨p2.x - (p2.x - p1.x) / 3, p2.y - m2 * (p2.x - p1.x) / 3⟩ p2 t).x
                = p1.x + t * (p2.x - p1.x)
              ∧ (bezierAt path.currentPosition
                ⟨p1.x + (p2.x - p1.x) / 3, p1.y + m1 * (p2.x - p1.x) / 3⟩
                ⟨p2.x - (p2.x - p1.x) / 3, p2.y - m2 * (p2.x - p1.x) / 3⟩ p2 t).y
                = H.eval (p1.x + t * (p2.x - p1.x))) := by
  constructor
  · simp only [cubicTo, QPainterPath.cubicTo, mul_div_assoc]
  · intro hcur hD
    rw [hcur]
    refine ⟨Polynomial.C p1.y + Polynomial.C m1 * (Polynomial.X - Polynomial.C p1.x)
        + Polynomial.C ((3 * (p2.y - p1.y) / (p2.x - p1.x) - 2 * m1 - m2) / (p2.x - p1.x))
            * (Polynomial.X - Polynomial.C p1.x) ^ 2
        + Polynomial.C ((m1 + m2 - 2 * (p2.y - p1.y) / (p2.x - p1.x)) / (p2.x - p1.x) ^ 2)
            * (Polynomial.X - Polynomial.C p1.x) ^ 3, ?_, ?_, ?_, ?_, ?_, ?_⟩
    · compute_degree
    · simp
    · simp only [Polynomial.eval_add, Polynomial.eval_mul, Polynomial.eval_C,
        Polynomial.eval_pow, Polynomial.eval_sub, Polynomial.eval_X]
      field_simp
      ring
    · simp [Polynomial.derivative_pow]
    · simp only [Polynomial.derivative_add, Polynomial.derivative_mul,
        Polynomial.derivative_C, Polynomial.derivative_pow, Polynomial.derivative_sub,
        Polynomial.derivative_X, Polynomial.eval_add, Polynomial.eval_mul,
        Polynomial.eval_C, Polynomial.eval_pow, Polynomial.eval_sub, Polynomial.eval_X,
        Polynomial.eval_zero, Polynomial.eval_one, Polynomial.eval_natCast]
      field_simp
      ring
    · intro t
      simp only [bezierAt, Polynomial.eval_add, Polynomial.eval_mul, Polynomial.eval_C,
        Polynomial.eval_pow, Polynomial.eval_sub, Polynomial.eval_X]
      constructor
      · ring
      · field_simp
        ring

theorem cubicTo_hermite_witness :
    (QPainterPath.currentPosition ⟨[PathElement.moveTo ⟨0, 1⟩]⟩ = ⟨0, 1⟩
      ∧ (3 : ℚ) - 0 ≠ 0)
    ∧ ∃ H : Polynomial ℚ, H.natDegree ≤ 3
        ∧ H.eval 0 = 1 ∧ H.eval 3 = 2
        ∧ (Polynomial.derivative H).eval 0 = 1
        ∧ (Polynomial.derivative H).eval 3 = -1
        ∧ ∀ t : ℚ,
            (bezierAt (QPainterPath.currentPosition ⟨[PathElement.moveTo ⟨0, 1⟩]⟩)
              ⟨0 + (3 - 0) / 3, 1 + 1 * (3 - 0) / 3⟩
              ⟨3 - (3 - 0) / 3, 2 - (-1) * (3 - 0) / 3⟩ ⟨3, 2⟩ t).x
              = 0 + t * (3 - 0)
            ∧ (bezierAt (QPainterPath.currentPosition ⟨[PathElement.moveTo ⟨0, 1⟩]⟩)
              ⟨0 + (3 - 0) / 3, 1 + 1 * (3 - 0) / 3⟩
              ⟨3 - (3 - 0) / 3, 2 - (-1) * (3 - 0) / 3⟩ ⟨3, 2⟩ t).y
              = H.eval (0 + t * (3 - 0)) :=
  ⟨⟨rfl, by norm_num⟩,
   (cubicTo_hermite ⟨0, 1⟩ ⟨3, 2⟩ 1 (-1) ⟨[PathElement.moveTo ⟨0, 1⟩]⟩).2 rfl
     (by norm_num)⟩

/-- C4: for points `p0`, `p1`, `p2` with strictly increasing `x`, the segments
appended by `cubicTo( p0, m0, p1, m1 )` and then `cubicTo( p1, m1, p2, m2 )`
meet at `p1` (the first ends at `p1`, which is the current position from which
the second starts), and the slope of the last control leg of the first segment
and of the first control leg of the second segment are both `m1`. -/
theorem cubicTo_C1_continuous (p0 p1 p2 : QPointF) (m0 m1 m2 : ℚ)
    (path : QPainterPath) (h01 : p0.x < p1.x) (h12 : p1.x < p2.x) :
    ∃ a1 a2 e1 b1 b2 e2 : QPointF,
      (cubicTo p1 m1 p2 m2 (cubicTo p0 m0 p1 m1 path)).elements
        = path.elements ++ [PathElement.cubicTo a1 a2 e1, PathElement.cubicTo b1 b2 e2]
      ∧ e1 = p1
      ∧ (cubicTo p0 m0 p1 m1 path).currentPosition = p1
      ∧ e2 = p2
      ∧ (p1.y - a2.y) / (p1.x - a2.x) = m1
      ∧ (b1.y - p1.y) / (b1.x - p1.x) = m1 := by
  have hA : p1.x - p0.x ≠ 0 := ne_of_gt (sub_pos.mpr h01)
  have hB : p2.x - p1.x ≠ 0 := ne_of_gt (sub_pos.mpr h12)
  refine ⟨⟨p0.x + (p1.x - p0.x) / 3, p0.y + m0 * ((p1.x - p0.x) / 3)⟩,
    ⟨p1.x - (p1.x - p0.x) / 3, p1.y - m1 * ((p1.x - p0.x) / 3)⟩, p1,
    ⟨p1.x + (p2.x - p1.x) / 3, p1.y + m1 * ((p2.x - p1.x) / 3)⟩,
    ⟨p2.x - (p2.x - p1.x) / 3, p2.y - m2 * ((p2.x - p1.x) / 3)⟩, p2,
    ?_, rfl, currentPosition_cubicTo _ _ _ _ _, rfl, ?_, ?_⟩
  · simp only [cubicTo, QPainterPath.cubicTo, List.append_assoc, List.singleton_append]
  · have ex : p1.x - (p1.x - (p1.x - p0.x) / 3) = (p1.x - p0.x) / 3 := by ring
    have ey : p1.y - (p1.y - m1 * ((p1.x - p0.x) / 3)) = m1 * ((p1.x - p0.x) / 3) := by
      ring
    simp only [ex, ey]
    field_simp
  · have ex : p1.x + (p2.x - p1.x) / 3 - p1.x = (p2.x - p1.x) / 3 := by ring
    have ey : p1.y + m1 * ((p2.x - p1.x) / 3) - p1.y = m1 * ((p2.x - p1.x) / 3) := by
      ring
    simp only [ex, ey]
    field_simp

theorem cubicTo_C1_continuous_witness :
    ((0 : ℚ) < 1 ∧ (1 : ℚ) < 3)
    ∧ ∃ a1 a2 e1 b1 b2 e2 : QPointF,
      (cubicTo ⟨1, 2⟩ 5 ⟨3, 1⟩ (-2) (cubicTo ⟨0, 0⟩ 1 ⟨1, 2⟩ 5 ⟨[]⟩)).elements
        = [] ++ [PathElement.cubicTo a1 a2 e1, PathElement.cubicTo b1 b2 e2]
      ∧ e1 = ⟨1, 2⟩
      ∧ (cubicTo ⟨0, 0⟩ 1 ⟨1, 2⟩ 5 ⟨[]⟩).currentPosition = ⟨1, 2⟩
      ∧ e2 = ⟨3, 1⟩
      ∧ (2 - a2.y) / (1 - a2.x) = 5
      ∧ (b1.y - 2) / (b1.x - 1) = 5 :=
  ⟨⟨by norm_num, by norm_num⟩,
   cubicTo_C1_continuous ⟨0, 0⟩ ⟨1, 2⟩ ⟨3, 1⟩ 1 5 (-2) ⟨[]⟩ (by norm_num) (by norm_num)⟩

/-- C5: for the points `(0,0)` and `(1,0)` with slopes `0` and `0`,
`toCurvatures2` returns `(0, 0)`, both control points appended by `cubicTo`
have `y = 0` and the Bezier curve from `(0,0)` has `y = 0` at every parameter.
In general, when `p2.x ≠ p1.x` and `m1 = m2 = (p2.y - p1.y) / (p2.x - p1.x)`,
`toCurvatures2` returns `(0, 0)` and both control points appended by `cubicTo`
lie on the straight line through `p1` and `p2`. -/
theorem straight_segment (p1 p2 : QPointF) (m1 m2 : ℚ) (path : QPainterPath) :
    (toCurvatures2 ⟨0, 0⟩ 0 ⟨1, 0⟩ 0 = (0, 0)
      ∧ ∃ c1 c2 e : QPointF,
          (cubicTo ⟨0, 0⟩ 0 ⟨1, 0⟩ 0 path).elements
            = path.elements ++ [PathElement.cubicTo c1 c2 e]
          ∧ c1.y = 0 ∧ c2.y = 0
          ∧ ∀ t : ℚ, (bezierAt ⟨0, 0⟩ c1 c2 e t).y = 0)
    ∧ (p2.x ≠ p1.x → m1 = (p2.y - p1.y) / (p2.x - p1.x) →
        m2 = (p2.y - p1.y) / (p2.x - p1.x) →
        toCurvatures2 p1 m1 p2 m2 = (0, 0)
        ∧ ∃ c1 c2 e : QPointF,
            (cubicTo p1 m1 p2 m2 path).elements
              = path.elements ++ [PathElement.cubicTo c1 c2 e]
            ∧ onLine p1 p2 c1 ∧ onLine p1 p2 c2) := by
  refine ⟨⟨?_, _, _, _, rfl, ?_, ?_, ?_⟩, ?_⟩
  · simp [toCurvatures2]
  · simp
  · simp
  · intro t
    simp [bezierAt]
  · intro hx h1 h2
    have hdx : p2.x - p1.x ≠ 0 := sub_ne_zero.mpr hx
    refine ⟨?_, _, _, _, rfl, ?_, ?_⟩
    · subst h1 h2
      simp only [toCurvatures2, Prod.mk.injEq]
      constructor
      · field_simp
        ring
      · field_simp
        ring
    · subst h1
      simp only [onLine]
      field_simp
      ring
    · subst h2
      simp only [onLine]
      field_simp
      ring

theorem straight_segment_witness :
    ((4 : ℚ) ≠ 1 ∧ (2 : ℚ) = (7 - 1) / (4 - 1) ∧ (2 : ℚ) = (7 - 1) / (4 - 1))
    ∧ toCurvatures2 ⟨1, 1⟩ 2 ⟨4, 7⟩ 2 = (0, 0)
    ∧ ∃ c1 c2 e : QPointF,
        (cubicTo ⟨1, 1⟩ 2 ⟨4, 7⟩ 2 ⟨[]⟩).elements
          = [] ++ [PathElement.cubicTo c1 c2 e]
        ∧ onLine ⟨1, 1⟩ ⟨4, 7⟩ c1 ∧ onLine ⟨1, 1⟩ ⟨4, 7⟩ c2 :=
  ⟨⟨by norm_num, by norm_num, by norm_num⟩,
   (straight_segment ⟨1, 1⟩ ⟨4, 7⟩ 2 2 ⟨[]⟩).2 (by norm_num) (by norm_num) (by norm_num)⟩

/-! ## Theorems: polyline splitting -/

open QwtPainter

theorem drawPolylineLoop_lt (n i : Int) (h : i < n) :
    drawPolylineLoop n i = ⟨i, min 21 (n - i)⟩ :: drawPolylineLoop n (i + 20) := by
  rw [drawPolylineLoop]
  simp [h, splitSize]

theorem drawPolylineLoop_ge (n i : Int) (h : ¬ i < n) :
    drawPolylineLoop n i = [] := by
  rw [drawPolylineLoop]
  simp [h]

/-- The calls of the loop in closed form: chunk `k` starts at `i + 20 k` and
holds `min 21 (n - (i + 20 k))` points, for `k` below `⌈(n - i) / 20⌉`. -/
theorem drawPolylineLoop_eq (n : Int) (m : ℕ) :
    ∀ i : Int, ((n - i + 19) / 20).toNat = m →
      drawPolylineLoop n i
        = (List.range m).map fun k : ℕ =>
            (⟨i + 20 * k, min 21 (n - (i + 20 * k))⟩ : PolylineCall) := by
  induction m with
  | zero =>
    intro i hm
    rw [drawPolylineLoop_ge n i (by omega)]
    rfl
  | succ m ih =>
    intro i hm
    rw [drawPolylineLoop_lt n i (by omega), ih (i + 20) (by omega),
      List.range_succ_eq_map, List.map_cons, List.map_map]
    simp only [Nat.cast_zero, mul_zero, add_zero, List.cons.injEq, true_and]
    apply List.map_congr_left
    intro k _
    simp only [Function.comp, Nat.succ_eq_add_one, Nat.cast_add, Nat.cast_one]
    have e : i + 20 + 20 * (k : Int) = i + 20 * ((k : Int) + 1) := by ring
    rw [e]

theorem drawPolylineLoop_segments (n : Int) (m : ℕ) :
    ∀ i : Int, ((n - i + 19) / 20).toNat = m →
      (drawPolylineLoop n i).flatMap PolylineCall.segments
        = (List.range (n - 1 - i).toNat).map fun k : ℕ => (i + (k : Int), i + k + 1) := by
  induction m with
  | zero =>
    intro i hm
    rw [drawPolylineLoop_ge n i (by omega)]
    have e : (n - 1 - i).toNat = 0 := by omega
    rw [e]
    rfl
  | succ m ih =>
    intro i hm
    rw [drawPolylineLoop_lt n i (by omega), List.flatMap_cons, ih (i + 20) (by omega)]
    simp only [PolylineCall.segments]
    by_cases hb : n - 1 - (i + 20) ≤ 0
    · have e0 : (n - 1 - (i + 20)).toNat = 0 := by omega
      have e1 : (min 21 (n - i) - 1).toNat = (n - 1 - i).toNat := by omega
      rw [e0, e1]
      simp
    · have e1 : (min 21 (n - i) - 1).toNat = 20 := by omega
      have e2 : (n - 1 - i).toNat = 20 + (n - 1 - (i + 20)).toNat := by omega
      rw [e1, e2, List.range_add, List.map_append, List.map_map]
      congr 1
      apply List.map_congr_left
      intro k _
      simp only [Function.comp, Nat.cast_add, Nat.cast_ofNat, Prod.mk.injEq]
      constructor <;> ring

theorem drawPolylineLoop_countP_zero (n j : Int) (m : ℕ) :
    ∀ i : Int, ((n - i + 19) / 20).toNat = m → j < i →
      (drawPolylineLoop n i).countP (fun c => c.holdsPair j) = 0 := by
  induction m with
  | zero =>
    intro i hm _
    rw [drawPolylineLoop_ge n i (by omega)]
    rfl
  | succ m ih =>
    intro i hm hj
    rw [drawPolylineLoop_lt n i (by omega), List.countP_cons, ih (i + 20) (by omega) (by omega)]
    simp only [PolylineCall.holdsPair, zero_add, ite_eq_right_iff, decide_eq_true_eq]
    omega

theorem drawPolylineLoop_countP_one (n j : Int) (hj : j + 1 < n) (m : ℕ) :
    ∀ i : Int, ((n - i + 19) / 20).toNat = m → i ≤ j →
      (drawPolylineLoop n i).countP (fun c => c.holdsPair j) = 1 := by
  induction m with
  | zero =>
    intro i hm hi
    omega
  | succ m ih =>
    intro i hm hi
    rw [drawPolylineLoop_lt n i (by omega), List.countP_cons]
    by_cases h : j < i + 20
    · rw [drawPolylineLoop_countP_zero n j m (i + 20) (by omega) h]
      have : (⟨i, min 21 (n - i)⟩ : PolylineCall).holdsPair j = true := by
        simp only [PolylineCall.holdsPair, decide_eq_true_eq]
        omega
      simp [this]
    · rw [ih (i + 20) (by omega) (by omega)]
      have : (⟨i, min 21 (n - i)⟩ : PolylineCall).holdsPair j = false := by
        simp only [PolylineCall.holdsPair, decide_eq_false_iff_not]
        omega
      simp [this]

theorem drawPolylineLoop_chain (n : Int) (m : ℕ) :
    ∀ i : Int, ((n - i + 19) / 20).toNat = m →
      (drawPolylineLoop n i).Chain' fun a b => a.offset + a.count - 1 = b.offset := by
  induction m with
  | zero =>
    intro i hm
    rw [drawPolylineLoop_ge n i (by omega)]
    exact List.chain'_nil
  | succ m ih =>
    intro i hm
    rw [drawPolylineLoop_lt n i (by omega), List.chain'_cons']
    refine ⟨?_, ih (i + 20) (by omega)⟩
    intro y hy
    by_cases h : i + 20 < n
    · rw [drawPolylineLoop_lt n (i + 20) h] at hy
      simp only [List.head?_cons, Option.mem_def, Option.some.injEq] at hy
      subst hy
      simp only
      omega
    · rw [drawPolylineLoop_ge n (i + 20) h] at hy
      simp at hy

theorem drawPolyline_split (n : Int) :
    drawPolyline (some PaintEngineType.Raster) n true = drawPolylineLoop n 0 := by
  simp [drawPolyline]

theorem drawPolyline_split_eq (n : Int) :
    drawPolyline (some PaintEngineType.Raster) n true
      = (List.range ((n + 19) / 20).toNat).map fun k : ℕ =>
          (⟨20 * k, min 21 (n - 20 * k)⟩ : PolylineCall) := by
  rw [drawPolyline_split, drawPolylineLoop_eq n ((n + 19) / 20).toNat 0 (by simp)]
  simp

/-- C6: with the splitting flag on and the raster paint engine, the static
`drawPolyline` issues, for a point count `n`, the index ranges
`[i, i + min 21 (n - i))` for `i = 0, 20, 40, ... < n` (a C++ `int` is taken as
an unbounded integer; the loop variable stays below `n + 20`).  Every range
lies inside `[0, n)`; of two consecutive chunks the last point of the earlier
one is the first point of the later one; every pair of adjacent points
`(j, j + 1)` lies inside exactly one chunk; and the line segments drawn are,
in order, those drawn by the single call issued when splitting is off. -/
theorem drawPolyline_split_same_segments (n : Int) :
    drawPolyline (some PaintEngineType.Raster) n true
        = (List.range ((n + 19) / 20).toNat).map (fun k : ℕ =>
            (⟨20 * k, min 21 (n - 20 * k)⟩ : PolylineCall))
    ∧ (∀ c ∈ drawPolyline (some PaintEngineType.Raster) n true,
        0 ≤ c.offset ∧ 1 ≤ c.count ∧ c.offset + c.count ≤ n)
    ∧ (drawPolyline (some PaintEngineType.Raster) n true).Chain'
        (fun a b => a.offset + a.count - 1 = b.offset)
    ∧ (∀ j : Int, 0 ≤ j → j + 1 < n →
        (drawPolyline (some PaintEngineType.Raster) n true).countP
          (fun c => c.holdsPair j) = 1)
    ∧ drawPolyline (some PaintEngineType.Raster) n false = [⟨0, n⟩]
    ∧ (drawPolyline (some PaintEngineType.Raster) n true).flatMap PolylineCall.segments
        = (drawPolyline (some PaintEngineType.Raster) n false).flatMap
            PolylineCall.segments := by
  refine ⟨drawPolyline_split_eq n, ?_, ?_, ?_, ?_, ?_⟩
  · intro c hc
    rw [drawPolyline_split_eq, List.mem_map] at hc
    obtain ⟨k, hk, rfl⟩ := hc
    rw [List.mem_range] at hk
    simp only
    omega
  · rw [drawPolyline_split]
    exact drawPolylineLoop_chain n _ 0 rfl
  · intro j hj0 hjn
    rw [drawPolyline_split]
    exact drawPolylineLoop_countP_one n j hjn _ 0 rfl hj0
  · simp [drawPolyline]
  · rw [drawPolyline_split, drawPolylineLoop_segments n _ 0 rfl]
    simp [drawPolyline, PolylineCall.segments]

theorem drawPolyline_split_same_segments_witness :
    ((0 : Int) ≤ 20 ∧ (20 : Int) + 1 < 1000)
    ∧ (drawPolyline (some PaintEngineType.Raster) 1000 true).countP
          (fun c => c.holdsPair 20) = 1
    ∧ (drawPolyline (some PaintEngineType.Raster) 1000 true).flatMap PolylineCall.segments
        = (drawPolyline (some PaintEngineType.Raster) 1000 false).flatMap
            PolylineCall.segments :=
  ⟨⟨by decide, by decide⟩,
   (drawPolyline_split_same_segments 1000).2.2.2.1 20 (by decide) (by decide),
   (drawPolyline_split_same_segments 1000).2.2.2.2.2⟩

/-- C7: with splitting active and `n ≥ 1` points, the number `m` of chunks is
`⌈n / 20⌉`; chunk `k` starts at index `20 k` (consecutive starts are 20
apart); every chunk but the last holds exactly 21 points (so it shares its
last point with the next chunk) and the last holds between 1 and 21. -/
theorem drawPolyline_split_sizes (n : Int) (hn : 1 ≤ n) :
    ∃ m : ℕ, (drawPolyline (some PaintEngineType.Raster) n true).length = m
      ∧ 1 ≤ m
      ∧ (m : Int) = (n + 19) / 20
      ∧ 20 * ((m : Int) - 1) < n ∧ n ≤ 20 * (m : Int)
      ∧ ∀ k : ℕ, k < m →
          ∃ c : PolylineCall,
            (drawPolyline (some PaintEngineType.Raster) n true)[k]? = some c
            ∧ c.offset = 20 * (k : Int)
            ∧ (k + 1 < m → c.count = 21)
            ∧ (k + 1 = m → 1 ≤ c.count ∧ c.count ≤ 21) := by
  refine ⟨((n + 19) / 20).toNat, ?_, by omega, by omega, by omega, by omega, ?_⟩
  · rw [drawPolyline_split_eq]
    simp
  · intro k hk
    refine ⟨⟨20 * k, min 21 (n - 20 * k)⟩, ?_, rfl, ?_, ?_⟩
    · rw [drawPolyline_split_eq]
      simp [List.getElem?_map, List.getElem?_range, hk]
    · intro h
      simp only
      omega
    · intro h
      simp only
      omega

theorem drawPolyline_split_sizes_witness :
    (1 : Int) ≤ 41
    ∧ ∃ m : ℕ, (drawPolyline (some PaintEngineType.Raster) 41 true).length = m
      ∧ 1 ≤ m
      ∧ (m : Int) = (41 + 19) / 20
      ∧ 20 * ((m : Int) - 1) < 41 ∧ 41 ≤ 20 * (m : Int)
      ∧ ∀ k : ℕ, k < m →
          ∃ c : PolylineCall,
            (drawPolyline (some PaintEngineType.Raster) 41 true)[k]? = some c
            ∧ c.offset = 20 * (k : Int)
            ∧ (k + 1 < m → c.count = 21)
            ∧ (k + 1 = m → 1 ≤ c.count ∧ c.count ≤ 21) :=
  ⟨by decide, drawPolyline_split_sizes 41 (by decide)⟩

/-! ## Theorems: the plot renderer -/

open QwtPlotRenderer

theorem keepMarginsCheck_iff (d : PrivateData) :
    keepMarginsCheck d = true ↔ d.layoutFlags = 0 := by
  unfold keepMarginsCheck flagsNot boolToInt KeepMargins
  by_cases h : d.layoutFlags = 0
  · simp only [h, decide_True, if_true, iff_true, decide_eq_true_eq]
    decide
  · simp only [h, decide_False, iff_false]
    decide

/-- C10, as stated, fails: for the flag words of a freshly constructed
renderer (`layoutFlags = DefaultLayout = 0`) the check
`!d_data->layoutFlags & KeepMargins` is true and `IgnoreMargin` is among the
options passed to the layout engine. -/
theorem keepMarginsCheck_default_true :
    keepMarginsCheck PrivateData.init = true
    ∧ flagSet (layoutOptions PrivateData.init) QwtPlotLayout.IgnoreMargin = true := by
  decide

/-- C10, amended: the check `!d_data->layoutFlags & KeepMargins` is true
exactly when `layoutFlags` is 0 and false for every other value, so
`IgnoreMargin` is among the options passed to the layout engine exactly when
`layoutFlags` is 0. -/
theorem keepMarginsCheck_true_iff_no_flag (d : PrivateData) :
    (keepMarginsCheck d = true ↔ d.layoutFlags = 0)
    ∧ (flagSet (layoutOptions d) QwtPlotLayout.IgnoreMargin = true ↔ d.layoutFlags = 0) := by
  refine ⟨keepMarginsCheck_iff d, ?_⟩
  rw [← keepMarginsCheck_iff d]
  unfold layoutOptions
  cases keepMarginsCheck d <;> cases flagSet d.discardFlags DiscardLegend <;> decide

/-- C8: `render` returns at once, leaving the plot (with every scale widget
margin), the painter and the trace of calls (so no paint call and no call of
the layout engine) as they were, when the painter is null, or not active, or
`plotRect` has width or height `≤ 0`, or the size of the plot is null. -/
theorem render_noop (d : PrivateData) (uninit : Int → Int) (world : World)
    (plotRect : QRectF)
    (h : world.painter = none
      ∨ (∃ p, world.painter = some p ∧ p.isActive = false)
      ∨ plotRect.width ≤ 0 ∨ plotRect.height ≤ 0
      ∨ (world.plot.size.wd = 0 ∧ world.plot.size.ht = 0)) :
    render d uninit world plotRect = some world := by
  unfold render
  cases hp : world.painter with
  | none => rfl
  | some p =>
    simp only
    rw [if_pos]
    rcases h with h | ⟨q, hq, ha⟩ | h | h | h
    · rw [hp] at h
      cases h
    · rw [hp] at hq
      cases hq
      simp [ha]
    · have : plotRect.isValid = false := by
        simp only [QRectF.isValid, decide_eq_false_iff_not, not_and, not_lt]
        intro hw
        exact absurd hw (not_lt.mpr h)
      simp [this]
    · have : plotRect.isValid = false := by
        simp only [QRectF.isValid, decide_eq_false_iff_not, not_and, not_lt]
        intro _
        exact h
      simp [this]
    · have : world.plot.size.isNull = true := by
        simp [QSize.isNull, h.1, h.2]
      simp [this]

theorem Framed.refl (s : Ctx) : Framed s s :=
  ⟨rfl, rfl, List.prefix_refl _⟩

theorem Framed.trans {s t u : Ctx} (h1 : Framed s t) (h2 : Framed t u) : Framed s u :=
  ⟨h2.1.trans h1.1, h2.2.1.trans h1.2.1, h1.2.2.trans h2.2.2⟩

theorem framed_call (s : Ctx) (c : Call) : Framed s (s.call c) :=
  ⟨rfl, rfl, List.prefix_append _ _⟩

theorem save_restore_painter (s : Ctx) : s.save.restore.painter = s.painter := by
  obtain ⟨plot, ⟨a, x, y, n⟩, trace⟩ := s
  simp [Ctx.save, Ctx.restore]

/-- A step bracketed by `save()` and `restore()` is framed when the step
itself is. -/
theorem framed_bracket' (s u : Ctx) (hf : Framed s.save u) : Framed s u.restore := by
  obtain ⟨h1, h2, h3⟩ := hf
  refine ⟨h1, ?_, ?_⟩
  · exact (congrArg (fun q : QPainter => ({ q with depth := q.depth - 1 } : QPainter)) h2).trans
      (save_restore_painter s)
  · exact ((List.prefix_append _ _).trans h3).trans (List.prefix_append _ _)

theorem framed_bracket (s : Ctx) (f : Ctx → Ctx) (hf : ∀ u, Framed u (f u)) :
    Framed s (f s.save).restore := by
  obtain ⟨h1, h2, h3⟩ := hf s.save
  refine ⟨h1, ?_, ?_⟩
  · exact (congrArg (fun q : QPainter => ({ q with depth := q.depth - 1 } : QPainter)) h2).trans
      (save_restore_painter s)
  · exact ((List.prefix_append _ _).trans h3).trans (List.prefix_append _ _)

theorem framed_renderTitle (s : Ctx) (rect : QRectF) : Framed s (renderTitle s rect) :=
  ((framed_call _ _).trans (framed_call _ _)).trans (framed_call _ _)

theorem framed_renderLegendItem (s : Ctx) (w : LegendItemWidget) (rect : QRectF) :
    Framed s (renderLegendItem s w rect) := by
  unfold renderLegendItem
  split
  · refine Framed.trans ?_ ((framed_call _ _).trans (framed_call _ _))
    split
    · exact framed_bracket s (fun u => u.call _) (fun u => framed_call u _)
    · exact Framed.refl s
  · exact Framed.refl s

theorem framed_renderLegendItems (itemRects : List QRect) (items : List (Option LegendItemWidget)) :
    ∀ (index : Nat) (s t : Ctx), renderLegendItems itemRects items index s = some t →
      Framed s t := by
  induction items with
  | nil =>
    intro index s t h
    simp only [renderLegendItems, Option.some.injEq] at h
    subst h
    exact Framed.refl s
  | cons item rest ih =>
    intro index s t h
    cases item with
    | none =>
      simp only [renderLegendItems] at h
      exact ih index s t h
    | some w =>
      simp only [renderLegendItems] at h
      cases hr : itemRects[index]? with
      | none => simp [hr] at h
      | some itemRect =>
        simp only [hr] at h
        refine Framed.trans ?_ (ih _ _ _ h)
        exact framed_bracket s
          (fun u => renderLegendItem (u.call (Call.setClipRect (QRectF.ofQRect itemRect))) w
            (QRectF.ofQRect itemRect))
          (fun u => (framed_call u _).trans (framed_renderLegendItem _ _ _))

theorem framed_renderLegend (s t : Ctx) (rect : QRectF) (h : renderLegend s rect = some t) :
    Framed s t := by
  unfold renderLegend at h
  split at h
  · cases h; exact Framed.refl s
  · split at h
    · cases h; exact Framed.refl s
    · split at h
      · cases h; exact Framed.refl s
      · split at h
        · cases h; exact Framed.refl s
        · exact framed_renderLegendItems _ _ _ _ _ h

theorem framed_renderCanvas (d : PrivateData) (s : Ctx) (canvasRect : QRectF)
    (map : List QwtScaleMap) : Framed s (renderCanvas d s canvasRect map) := by
  have h1 : ∀ u : Ctx, Framed u
      ((if !flagSet d.discardFlags DiscardCanvasBackground then
          (if flagSet d.layoutFlags FrameWithScales then u.call (Call.setPen PenKind.black)
            else u.call (Call.setPen PenKind.noPen)).call Call.setBrush
        else
          (if flagSet d.layoutFlags FrameWithScales then u.call (Call.setPen PenKind.black)
            else u.call (Call.setPen PenKind.noPen))).call
        (Call.drawRect
          (if flagSet d.layoutFlags FrameWithScales then
            (canvasRect.adjusted 0 0 (-1) (-1)).adjusted (-1) (-1) 1 1
          else canvasRect.adjusted 0 0 (-1) (-1)))) := by
    intro u
    refine Framed.trans ?_ (framed_call _ _)
    have h0 : Framed u (if flagSet d.layoutFlags FrameWithScales then
        u.call (Call.setPen PenKind.black) else u.call (Call.setPen PenKind.noPen)) := by
      split <;> exact framed_call _ _
    split
    · exact h0.trans (framed_call _ _)
    · exact h0
  exact (framed_bracket s _ h1).trans
    (framed_bracket _ (fun u => (u.call (Call.setClipRect canvasRect)).call
        (Call.drawItems canvasRect map))
      (fun u => (framed_call u _).trans (framed_call _ _)))

theorem setScaleDraw_restore (plot : QwtPlot) (axisId : Int) (wdg : QwtScaleWidget)
    (h : plot.axisWidget axisId = some wdg) (pos : QPointF) (length : ℚ) :
    (plot.setScaleDraw axisId pos length).setScaleDraw axisId wdg.scaleDraw.pos
      wdg.scaleDraw.length = plot := by
  obtain ⟨size, dx, dy, axisWidget, en, sd, tr, ti, lg, pl⟩ := plot
  simp only at h
  simp only [QwtPlot.setScaleDraw, h, Function.update_same, Function.update_idem]
  congr 1
  rw [Function.update_eq_self_iff, h]

theorem scaleGeometry_ne_none (axisId : Int) (startDist endDist baseDist : Int)
    (rect : QRectF) (ha : axisId ∈ QwtPlot.axisIds) :
    scaleGeometry axisId startDist endDist baseDist rect ≠ none := by
  have h : axisId = 0 ∨ axisId = 1 ∨ axisId = 2 ∨ axisId = 3 := by
    simpa [QwtPlot.axisIds, QwtPlot.axisCnt, List.range_succ] using ha
  rcases h with h | h | h | h <;> subst h <;>
    simp [scaleGeometry, QwtPlot.yLeft, QwtPlot.yRight, QwtPlot.xTop, QwtPlot.xBottom]

theorem framed_renderScale (s t : Ctx) (axisId : Int) (startDist endDist baseDist : Int)
    (rect : QRectF) (ha : axisId ∈ QwtPlot.axisIds)
    (h : renderScale s axisId startDist endDist baseDist rect = some t) : Framed s t := by
  unfold renderScale at h
  split at h
  · cases h; exact Framed.refl s
  · split at h
    · cases h
    · rename_i scaleWidget hw
      simp only at h
      split at h
      · rename_i hg
        exact absurd hg (scaleGeometry_ne_none _ _ _ _ _ ha)
      · cases h
        have h0 : Framed s
            (if (scaleWidget.isColorBarEnabled && decide (scaleWidget.colorBarWidth > 0)) = true
              then s.call (Call.drawColorBar axisId rect) else s) := by
          split
          · exact framed_call _ _
          · exact Framed.refl s
        refine h0.trans (framed_bracket' _ _ ⟨?_, rfl, ?_⟩)
        · exact setScaleDraw_restore _ axisId scaleWidget (by rw [← hw]; exact congrArg (fun p => p.axisWidget axisId) h0.1) _ _
        · exact ((List.prefix_append _ _).trans (List.prefix_append _ _)).trans
            (List.prefix_append _ _)

theorem framed_renderScales (l : List Int) (hl : ∀ a ∈ l, a ∈ QwtPlot.axisIds) :
    ∀ s t : Ctx, renderScales l s = some t → Framed s t := by
  induction l with
  | nil =>
    intro s t h
    simp only [renderScales, Option.some.injEq] at h
    subst h
    exact Framed.refl s
  | cons a rest ih =>
    intro s t h
    have hrest : ∀ b ∈ rest, b ∈ QwtPlot.axisIds := fun b hb => hl b (List.mem_cons_of_mem _ hb)
    simp only [renderScales] at h
    split at h
    · split at h
      · rename_i u hu
        exact (framed_renderScale _ _ _ _ _ _ _ (hl a (List.mem_cons_self _ _)) hu).trans
          (ih hrest _ _ h)
      · cases h
    · exact ih hrest _ _ h

theorem framed_renderSteps (d : PrivateData) (s t : Ctx) (h : renderSteps d s = some t) :
    Framed s t := by
  unfold renderSteps at h
  split at h
  · cases h
  · rename_i maps _
    simp only at h
    split at h
    · cases h
    · rename_i u hu
      have h1 := framed_renderCanvas d s s.plot.plotLayout.rects.canvasRect maps
      refine Framed.trans ?_ (framed_renderScales _ (fun a ha => ha) _ _ h)
      generalize renderCanvas d s s.plot.plotLayout.rects.canvasRect maps = s1 at h1 hu
      have h2 : Framed s1 (if (!flagSet d.discardFlags DiscardTitle && !s1.plot.titleIsEmpty) = true
          then renderTitle s1 s1.plot.plotLayout.rects.titleRect else s1) := by
        split
        · exact framed_renderTitle _ _
        · exact Framed.refl _
      generalize (if (!flagSet d.discardFlags DiscardTitle && !s1.plot.titleIsEmpty) = true
          then renderTitle s1 s1.plot.plotLayout.rects.titleRect else s1) = s2 at h2 hu
      refine h1.trans (h2.trans ?_)
      split at hu
      · exact framed_renderLegend _ _ _ hu
      · cases hu
        exact Framed.refl _


theorem setMargin_axisWidget (plot : QwtPlot) (a : Int) (m : Int) (b : Int) :
    (plot.setMargin a m).axisWidget b
      = if b = a then (plot.axisWidget a).map (fun w => { w with margin := m })
        else plot.axisWidget b := by
  unfold QwtPlot.setMargin
  cases h : plot.axisWidget a with
  | none =>
    simp only [Option.map_none']
    split
    · rename_i hb
      rw [hb, h]
    · rfl
  | some w =>
    simp only [Option.map_some', Function.update_apply]

theorem zeroMargins_painter (l : List Int) :
    ∀ (s : Ctx) (b : Int → Int), (zeroMargins l (s, b)).1.painter = s.painter := by
  induction l with
  | nil => intro s b; rfl
  | cons x rest ih =>
    intro s b
    simp only [zeroMargins]
    split
    · rw [ih]; rfl
    · rw [ih]

theorem zeroMargins_trace (l : List Int) :
    ∀ (s : Ctx) (b : Int → Int), s.trace <+: (zeroMargins l (s, b)).1.trace := by
  induction l with
  | nil => intro s b; exact List.prefix_refl _
  | cons x rest ih =>
    intro s b
    simp only [zeroMargins]
    split
    · exact (List.prefix_append _ _).trans (ih (s.setMargin x 0) _)
    · exact ih s b

theorem zeroMargins_axisWidget (l : List Int) :
    ∀ (s : Ctx) (b : Int → Int) (a : Int),
      (zeroMargins l (s, b)).1.plot.axisWidget a
        = if a ∈ l then (s.plot.axisWidget a).map (fun w => { w with margin := 0 })
          else s.plot.axisWidget a := by
  induction l with
  | nil => intro s b a; simp [zeroMargins]
  | cons x rest ih =>
    intro s b a
    simp only [zeroMargins]
    split
    · rename_i w hw
      rw [ih]
      simp only [Ctx.setMargin, setMargin_axisWidget, List.mem_cons]
      by_cases hax : a = x
      · subst hax
        simp [hw]
      · simp [hax]
    · rename_i hw
      rw [ih]
      simp only [List.mem_cons]
      by_cases hax : a = x
      · subst hax
        simp [hw]
      · simp [hax]

theorem zeroMargins_dists_not_mem (l : List Int) :
    ∀ (s : Ctx) (b : Int → Int) (a : Int), a ∉ l → (zeroMargins l (s, b)).2 a = b a := by
  induction l with
  | nil => intro s b a _; rfl
  | cons x rest ih =>
    intro s b a ha
    simp only [List.mem_cons, not_or] at ha
    simp only [zeroMargins]
    split
    · rw [ih _ _ _ ha.2, Function.update_noteq ha.1]
    · exact ih _ _ _ ha.2

theorem zeroMargins_dists (l : List Int) (hl : l.Nodup) :
    ∀ (s : Ctx) (b : Int → Int) (a : Int) (w : QwtScaleWidget), a ∈ l →
      s.plot.axisWidget a = some w → (zeroMargins l (s, b)).2 a = w.margin := by
  induction l with
  | nil => intro s b a w ha; cases ha
  | cons x rest ih =>
    intro s b a w ha hw
    rw [List.nodup_cons] at hl
    simp only [zeroMargins]
    by_cases hax : a = x
    · subst hax
      simp only [hw]
      rw [zeroMargins_dists_not_mem _ _ _ _ hl.1, Function.update_same]
    · have har : a ∈ rest := by
        rcases List.mem_cons.mp ha with h | h
        · exact absurd h hax
        · exact h
      split
      · refine ih hl.2 _ _ _ _ har ?_
        simp only [Ctx.setMargin, setMargin_axisWidget, hax, if_false]
        exact hw
      · exact ih hl.2 _ _ _ _ har hw

theorem restoreMargins_painter (b : Int → Int) (l : List Int) :
    ∀ s : Ctx, (restoreMargins b l s).painter = s.painter := by
  induction l with
  | nil => intro s; rfl
  | cons x rest ih =>
    intro s
    simp only [restoreMargins]
    split
    · rw [ih]; rfl
    · rw [ih]

theorem restoreMargins_trace (b : Int → Int) (l : List Int) :
    ∀ s : Ctx, s.trace <+: (restoreMargins b l s).trace := by
  induction l with
  | nil => intro s; exact List.prefix_refl _
  | cons x rest ih =>
    intro s
    simp only [restoreMargins]
    split
    · exact (List.prefix_append _ _).trans (ih (s.setMargin x (b x)))
    · exact ih s

theorem restoreMargins_axisWidget (b : Int → Int) (l : List Int) :
    ∀ (s : Ctx) (a : Int),
      (restoreMargins b l s).plot.axisWidget a
        = if a ∈ l then (s.plot.axisWidget a).map (fun w => { w with margin := b a })
          else s.plot.axisWidget a := by
  induction l with
  | nil => intro s a; simp [restoreMargins]
  | cons x rest ih =>
    intro s a
    simp only [restoreMargins]
    split
    · rename_i w hw
      rw [ih]
      simp only [Ctx.setMargin, setMargin_axisWidget, List.mem_cons]
      by_cases hax : a = x
      · subst hax
        simp [hw]
      · simp [hax]
    · rename_i hw
      rw [ih]
      simp only [List.mem_cons]
      by_cases hax : a = x
      · subst hax
        simp [hw]
      · simp [hax]

theorem axisIds_nodup : QwtPlot.axisIds.Nodup := by
  decide

theorem margin_roundtrip (o : Option QwtScaleWidget) (b : Int)
    (hb : ∀ w, o = some w → b = w.margin) :
    (o.map (fun w => ({ w with margin := 0 } : QwtScaleWidget))).map
      (fun w => ({ w with margin := b } : QwtScaleWidget)) = o := by
  cases o with
  | none => rfl
  | some w =>
    simp only [Option.map_some', hb w rfl]

theorem render_frame (d : PrivateData) (uninit : Int → Int) (world : World)
    (plotRect : QRectF) (w' : World) (h : render d uninit world plotRect = some w') :
    w'.plot.axisWidget = world.plot.axisWidget ∧ w'.painter = world.painter
      ∧ world.trace <+: w'.trace := by
  unfold render at h
  split at h
  · cases h
    exact ⟨rfl, rfl, List.prefix_refl _⟩
  · rename_i painter hp
    split at h
    · cases h
      exact ⟨rfl, rfl, List.prefix_refl _⟩
    · have e1 : Framed ⟨world.plot, painter, world.trace⟩
          (if (!flagSet d.discardFlags DiscardBackground) = true then
            (⟨world.plot, painter, world.trace⟩ : Ctx).call (Call.fillRect plotRect)
          else ⟨world.plot, painter, world.trace⟩) := by
        split
        · exact framed_call _ _
        · exact Framed.refl _
      simp only at h
      generalize (if (!flagSet d.discardFlags DiscardBackground) = true then
            (⟨world.plot, painter, world.trace⟩ : Ctx).call (Call.fillRect plotRect)
          else ⟨world.plot, painter, world.trace⟩) = s1 at h e1
      obtain ⟨e1p, e1q, e1t⟩ := e1
      simp only at e1p e1q e1t
      by_cases hF : flagSet d.layoutFlags FrameWithScales = true
      · simp only [hF, if_true] at h
        have z1 := zeroMargins_painter QwtPlot.axisIds s1.save uninit
        have z2 := zeroMargins_trace QwtPlot.axisIds s1.save uninit
        have z3 := zeroMargins_axisWidget QwtPlot.axisIds s1.save uninit
        have z4 := zeroMargins_dists QwtPlot.axisIds axisIds_nodup s1.save uninit
        generalize zeroMargins QwtPlot.axisIds (s1.save, uninit) = z at h z1 z2 z3 z4
        split at h
        · cases h
        · rename_i s5 h5
          cases h
          obtain ⟨f1, f2, f3⟩ := framed_renderSteps d _ _ h5
          refine ⟨?_, ?_, ?_⟩
          · funext a
            show (restoreMargins z.2 QwtPlot.axisIds _).plot.axisWidget a = _
            rw [restoreMargins_axisWidget]
            show (if a ∈ QwtPlot.axisIds then
                (s5.plot.axisWidget a).map (fun w => ({ w with margin := z.2 a } : QwtScaleWidget))
              else s5.plot.axisWidget a) = _
            rw [f1]
            show (if a ∈ QwtPlot.axisIds then
                (z.1.plot.axisWidget a).map (fun w => ({ w with margin := z.2 a } : QwtScaleWidget))
              else z.1.plot.axisWidget a) = _
            rw [z3 a]
            by_cases ha : a ∈ QwtPlot.axisIds
            · simp only [ha, if_true]
              show _ = world.plot.axisWidget a
              rw [← e1p]
              exact margin_roundtrip _ _ (fun w hw => z4 a w ha hw)
            · simp only [ha, if_false]
              show s1.plot.axisWidget a = _
              rw [e1p]
          · show some (restoreMargins z.2 QwtPlot.axisIds _).restore.painter = _
            rw [hp]
            refine congrArg some ?_
            show ({ (restoreMargins z.2 QwtPlot.axisIds _).painter with
              depth := (restoreMargins z.2 QwtPlot.axisIds _).painter.depth - 1 } : QPainter) = _
            rw [restoreMargins_painter]
            show ({ s5.painter with depth := s5.painter.depth - 1 } : QPainter) = _
            rw [f2]
            show ({ z.1.painter with depth := z.1.painter.depth - 1 } : QPainter) = _
            rw [z1, ← e1q]
            exact save_restore_painter s1
          · show world.trace <+: (restoreMargins z.2 QwtPlot.axisIds _).restore.trace
            refine List.IsPrefix.trans ?_ (List.prefix_append _ _)
            refine List.IsPrefix.trans ?_ (restoreMargins_trace _ _ _)
            refine List.IsPrefix.trans ?_ (List.prefix_append _ _)
            refine List.IsPrefix.trans ?_ f3
            refine List.IsPrefix.trans ?_ (List.prefix_append _ _)
            refine List.IsPrefix.trans ?_ (List.prefix_append _ _)
            refine List.IsPrefix.trans ?_ z2
            exact e1t.trans (List.prefix_append _ _)
      · simp only [hF, if_false] at h
        split at h
        · cases h
        · rename_i s5 h5
          cases h
          obtain ⟨f1, f2, f3⟩ := framed_renderSteps d _ _ h5
          refine ⟨?_, ?_, ?_⟩
          · show s5.plot.axisWidget = _
            rw [f1]
            show s1.plot.axisWidget = _
            rw [e1p]
          · show some ({ s5.painter with depth := s5.painter.depth - 1 } : QPainter) = _
            rw [hp, f2]
            refine congrArg some ?_
            rw [← e1q]
            exact save_restore_painter s1
          · show world.trace <+: _ ++ [Call.restore]
            refine List.IsPrefix.trans ?_ (List.prefix_append _ _)
            refine List.IsPrefix.trans ?_ (List.prefix_append _ _)
            refine List.IsPrefix.trans ?_ f3
            refine List.IsPrefix.trans ?_ (List.prefix_append _ _)
            refine List.IsPrefix.trans ?_ (List.prefix_append _ _)
            exact e1t.trans (List.prefix_append _ _)


theorem zeroMargins_tail (l : List Int) :
    ∀ (s : Ctx) (b : Int → Int), ∃ tl, (zeroMargins l (s, b)).1.trace = s.trace ++ tl
      ∧ ∀ a ∈ l, ∀ w, s.plot.axisWidget a = some w → Call.setMargin a 0 ∈ tl := by
  induction l with
  | nil =>
    intro s b
    exact ⟨[], by simp [zeroMargins], fun a ha => by cases ha⟩
  | cons x rest ih =>
    intro s b
    simp only [zeroMargins]
    split
    · rename_i w0 hw0
      obtain ⟨tl, h1, h2⟩ := ih (s.setMargin x 0)
        (Function.update b x w0.margin)
      refine ⟨Call.setMargin x 0 :: tl, ?_, ?_⟩
      · rw [h1]
        simp [Ctx.setMargin]
      · intro a ha w hw
        by_cases hax : a = x
        · subst hax
          exact List.mem_cons_self _ _
        · have har : a ∈ rest := by
            rcases List.mem_cons.mp ha with h | h
            · exact absurd h hax
            · exact h
          refine List.mem_cons_of_mem _ (h2 a har w ?_)
          simp only [Ctx.setMargin, setMargin_axisWidget, hax, if_false]
          exact hw
    · rename_i hw0
      obtain ⟨tl, h1, h2⟩ := ih s b
      refine ⟨tl, h1, ?_⟩
      intro a ha w hw
      by_cases hax : a = x
      · subst hax
        rw [hw0] at hw
        cases hw
      · have har : a ∈ rest := by
          rcases List.mem_cons.mp ha with h | h
          · exact absurd h hax
          · exact h
        exact h2 a har w hw

theorem restoreMargins_tail (b : Int → Int) (l : List Int) :
    ∀ s : Ctx, ∃ tl, (restoreMargins b l s).trace = s.trace ++ tl
      ∧ ∀ a ∈ l, ∀ w, s.plot.axisWidget a = some w → Call.setMargin a (b a) ∈ tl := by
  induction l with
  | nil =>
    intro s
    exact ⟨[], by simp [restoreMargins], fun a ha => by cases ha⟩
  | cons x rest ih =>
    intro s
    simp only [restoreMargins]
    split
    · rename_i w0 hw0
      obtain ⟨tl, h1, h2⟩ := ih (s.setMargin x (b x))
      refine ⟨Call.setMargin x (b x) :: tl, ?_, ?_⟩
      · rw [h1]
        simp [Ctx.setMargin]
      · intro a ha w hw
        by_cases hax : a = x
        · subst hax
          exact List.mem_cons_self _ _
        · have har : a ∈ rest := by
            rcases List.mem_cons.mp ha with h | h
            · exact absurd h hax
            · exact h
          refine List.mem_cons_of_mem _ (h2 a har w ?_)
          simp only [Ctx.setMargin, setMargin_axisWidget, hax, if_false]
          exact hw
    · rename_i hw0
      obtain ⟨tl, h1, h2⟩ := ih s
      refine ⟨tl, h1, ?_⟩
      intro a ha w hw
      by_cases hax : a = x
      · subst hax
        rw [hw0] at hw
        cases hw
      · have har : a ∈ rest := by
          rcases List.mem_cons.mp ha with h | h
          · exact absurd h hax
          · exact h
        exact h2 a har w hw

/-- Four marks found, in order, in a trace made of nine parts. -/
theorem sublist_marks {α : Type} (x1 x2 y x3 x4 r s : α) (t1 tz t5 tr : List α)
    (h1 : x1 ∈ tz) (h4 : x4 ∈ tr) :
    List.Sublist [x1, x2, x3, x4]
      (t1 ++ ([s] ++ (tz ++ ([x2] ++ ([y] ++ (t5 ++ ([x3] ++ (tr ++ [r])))))))) := by
  have a1 : List.Sublist [x4] (tr ++ [r]) :=
    List.sublist_append_of_sublist_left (List.singleton_sublist.mpr h4)
  have a2 : List.Sublist [x3, x4] ([x3] ++ (tr ++ [r])) := List.Sublist.cons₂ x3 a1
  have a3 : List.Sublist [x3, x4] (t5 ++ ([x3] ++ (tr ++ [r]))) :=
    List.sublist_append_of_sublist_right a2
  have a4 : List.Sublist [x3, x4] ([y] ++ (t5 ++ ([x3] ++ (tr ++ [r])))) :=
    List.Sublist.cons y a3
  have a5 : List.Sublist [x2, x3, x4] ([x2] ++ ([y] ++ (t5 ++ ([x3] ++ (tr ++ [r]))))) :=
    List.Sublist.cons₂ x2 a4
  have a6 : List.Sublist ([x1] ++ [x2, x3, x4])
      (tz ++ ([x2] ++ ([y] ++ (t5 ++ ([x3] ++ (tr ++ [r])))))) :=
    List.Sublist.append (List.singleton_sublist.mpr h1) a5
  exact List.sublist_append_of_sublist_right (List.sublist_append_of_sublist_right a6)

theorem render_zeroes_margins (d : PrivateData) (uninit : Int → Int) (world : World)
    (plotRect : QRectF) (w' : World) (h : render d uninit world plotRect = some w')
    (p : QPainter) (hp : world.painter = some p) (hactive : p.isActive = true)
    (hvalid : plotRect.isValid = true) (hsize : world.plot.size.isNull = false)
    (hF : flagSet d.layoutFlags FrameWithScales = true) :
    ∃ new, w'.trace = world.trace ++ new
      ∧ ∀ a ∈ QwtPlot.axisIds, ∀ w, world.plot.axisWidget a = some w →
          List.Sublist [Call.setMargin a 0,
            Call.activate
              ((QTransform.identity.scale
                  ((p.deviceLogicalDpiX : ℚ) / (world.plot.logicalDpiX : ℚ))
                  ((p.deviceLogicalDpiY : ℚ) / (world.plot.logicalDpiY : ℚ))).inverted.mapRect
                plotRect)
              (layoutOptions d),
            Call.invalidate, Call.setMargin a w.margin] new := by
  unfold render at h
  simp only [hp, hactive, hvalid, hsize, Bool.not_true, Bool.or_self, Bool.false_eq_true,
    if_false, hF, if_true] at h
  have e1 : Framed ⟨world.plot, p, world.trace⟩
      (if (!flagSet d.discardFlags DiscardBackground) = true then
        (⟨world.plot, p, world.trace⟩ : Ctx).call (Call.fillRect plotRect)
      else ⟨world.plot, p, world.trace⟩) := by
    split
    · exact framed_call _ _
    · exact Framed.refl _
  generalize (if (!flagSet d.discardFlags DiscardBackground) = true then
        (⟨world.plot, p, world.trace⟩ : Ctx).call (Call.fillRect plotRect)
      else ⟨world.plot, p, world.trace⟩) = s1 at h e1
  obtain ⟨e1p, -, t1, e1t⟩ := e1
  simp only at e1p e1t
  obtain ⟨tz, z2, z5⟩ := zeroMargins_tail QwtPlot.axisIds s1.save uninit
  have z3 := zeroMargins_axisWidget QwtPlot.axisIds s1.save uninit
  have z4 := zeroMargins_dists QwtPlot.axisIds axisIds_nodup s1.save uninit
  generalize zeroMargins QwtPlot.axisIds (s1.save, uninit) = z at h z2 z3 z4
  split at h
  · cases h
  · rename_i s5 h5
    cases h
    obtain ⟨f1, -, t5, f3⟩ := framed_renderSteps d _ _ h5
    obtain ⟨tr, r1, r2⟩ := restoreMargins_tail z.2 QwtPlot.axisIds
      (({ s5 with plot := s5.plot.invalidate } : Ctx).call Call.invalidate)
    refine ⟨t1 ++ ([Call.save] ++ (tz ++ ([Call.activate
        ((QTransform.identity.scale
            ((p.deviceLogicalDpiX : ℚ) / (world.plot.logicalDpiX : ℚ))
            ((p.deviceLogicalDpiY : ℚ) / (world.plot.logicalDpiY : ℚ))).inverted.mapRect
          plotRect) (layoutOptions d)]
      ++ ([Call.setWorldTransform (QTransform.identity.scale
            ((p.deviceLogicalDpiX : ℚ) / (world.plot.logicalDpiX : ℚ))
            ((p.deviceLogicalDpiY : ℚ) / (world.plot.logicalDpiY : ℚ)))]
        ++ (t5 ++ ([Call.invalidate] ++ (tr ++ [Call.restore]))))))),
      ?_, ?_⟩
    · show (restoreMargins z.2 QwtPlot.axisIds _).trace ++ [Call.restore] = _
      rw [r1]
      show (s5.trace ++ [Call.invalidate]) ++ tr ++ [Call.restore] = _
      rw [← f3]
      show (((z.1.trace ++ [_]) ++ [_]) ++ t5 ++ [Call.invalidate]) ++ tr ++ [Call.restore] = _
      rw [z2]
      show ((((s1.trace ++ [Call.save] ++ tz) ++ [_]) ++ [_]) ++ t5 ++ [Call.invalidate]) ++ tr
        ++ [Call.restore] = _
      rw [← e1t]
      simp only [List.append_assoc]
    · intro a ha w hw
      have hw1 : s1.save.plot.axisWidget a = some w := by
        show s1.plot.axisWidget a = some w
        rw [e1p]
        exact hw
      have hx1 := z5 a ha w hw1
      have hw6 : (({ s5 with plot := s5.plot.invalidate } : Ctx).call
          Call.invalidate).plot.axisWidget a = some { w with margin := 0 } := by
        show s5.plot.axisWidget a = _
        rw [f1]
        show z.1.plot.axisWidget a = _
        rw [z3 a, hw1]
        simp [ha]
      have hx4 := r2 a ha _ hw6
      rw [z4 a w ha hw1] at hx4
      exact sublist_marks _ _ _ _ _ _ _ t1 tz t5 tr hx1 hx4

theorem zeroMargins_fields (l : List Int) :
    ∀ (s : Ctx) (b : Int → Int),
      (zeroMargins l (s, b)).1.plot.axisEnabled = s.plot.axisEnabled
      ∧ (zeroMargins l (s, b)).1.plot.legend = s.plot.legend := by
  induction l with
  | nil => intro s b; exact ⟨rfl, rfl⟩
  | cons x rest ih =>
    intro s b
    simp only [zeroMargins]
    split
    · rename_i w hw
      obtain ⟨h1, h2⟩ := ih (s.setMargin x 0) (Function.update b x w.margin)
      rw [h1, h2]
      simp [Ctx.setMargin, QwtPlot.setMargin, hw]
    · exact ih s b

theorem buildCanvasMapsLoop_returns (plot : QwtPlot) (canvasRect : QRectF) (l : List Int)
    (h : ∀ a ∈ l, plot.axisEnabled a = true → ∃ w, plot.axisWidget a = some w) :
    ∃ maps, buildCanvasMapsLoop plot canvasRect l = some maps := by
  induction l with
  | nil => exact ⟨[], rfl⟩
  | cons a rest ih =>
    obtain ⟨maps, hmaps⟩ := ih (fun b hb => h b (List.mem_cons_of_mem _ hb))
    have hm : ∃ m, buildCanvasMap plot canvasRect a = some m := by
      unfold buildCanvasMap
      by_cases he : plot.axisEnabled a = true
      · obtain ⟨w, hw⟩ := h a (List.mem_cons_self _ _) he
        simp only [he, if_true, hw]
        split <;> exact ⟨_, rfl⟩
      · simp only [he, Bool.false_eq_true, if_false]
        split <;> exact ⟨_, rfl⟩
    obtain ⟨m, hm⟩ := hm
    exact ⟨m :: maps, by simp only [buildCanvasMapsLoop, hm, hmaps]⟩

theorem buildCanvasMaps_returns (plot : QwtPlot) (canvasRect : QRectF)
    (h : ∀ a ∈ QwtPlot.axisIds, plot.axisEnabled a = true → ∃ w, plot.axisWidget a = some w) :
    ∃ maps, buildCanvasMaps plot canvasRect = some maps :=
  buildCanvasMapsLoop_returns plot canvasRect _ h

theorem renderLegendItems_returns (itemRects : List QRect)
    (items : List (Option LegendItemWidget)) :
    ∀ (index : Nat) (s : Ctx), (items.filterMap id).length + index ≤ itemRects.length →
      ∃ t, renderLegendItems itemRects items index s = some t := by
  induction items with
  | nil => intro index s _; exact ⟨s, rfl⟩
  | cons item rest ih =>
    intro index s h
    cases item with
    | none =>
      simp only [renderLegendItems]
      exact ih index s (by simpa using h)
    | some w =>
      simp only [List.filterMap_cons, id_eq, List.length_cons] at h
      simp only [renderLegendItems]
      have hlt : index < itemRects.length := by omega
      rw [List.getElem?_eq_getElem hlt]
      exact ih (index + 1) _ (by omega)

theorem renderLegend_returns (s : Ctx) (rect : QRectF)
    (h : ∀ legend l, s.plot.legend = some legend → legend.layout = some l →
      (l.items.filterMap id).length ≤ (l.layoutItems rect).length) :
    ∃ t, renderLegend s rect = some t := by
  unfold renderLegend
  split
  · exact ⟨s, rfl⟩
  · rename_i legend hl
    split
    · exact ⟨s, rfl⟩
    · split
      · exact ⟨s, rfl⟩
      · rename_i l hl2
        split
        · exact ⟨s, rfl⟩
        · exact renderLegendItems_returns _ _ 0 s (h legend l hl hl2)

theorem renderScale_returns (s : Ctx) (axisId : Int) (startDist endDist baseDist : Int)
    (rect : QRectF) (w : QwtScaleWidget) (hw : s.plot.axisWidget axisId = some w) :
    ∃ t, renderScale s axisId startDist endDist baseDist rect = some t := by
  unfold renderScale
  split
  · exact ⟨s, rfl⟩
  · simp only [hw]
    split <;> exact ⟨_, rfl⟩

theorem renderScales_returns (l : List Int) :
    ∀ s : Ctx, ∃ t, renderScales l s = some t := by
  induction l with
  | nil => intro s; exact ⟨s, rfl⟩
  | cons a rest ih =>
    intro s
    simp only [renderScales]
    split
    · rename_i w hw
      obtain ⟨t, ht⟩ := renderScale_returns s a w.borderDistHintStart w.borderDistHintEnd
        w.margin (s.plot.plotLayout.rects.scaleRect a) w hw
      rw [ht]
      exact ih t
    · exact ih s

theorem renderSteps_returns (d : PrivateData) (s : Ctx)
    (h1 : ∀ a ∈ QwtPlot.axisIds, s.plot.axisEnabled a = true →
      ∃ w, s.plot.axisWidget a = some w)
    (h2 : ∀ legend l rect, s.plot.legend = some legend → legend.layout = some l →
      (l.items.filterMap id).length ≤ (l.layoutItems rect).length) :
    ∃ t, renderSteps d s = some t := by
  unfold renderSteps
  obtain ⟨maps, hm⟩ := buildCanvasMaps_returns s.plot s.plot.plotLayout.rects.canvasRect h1
  simp only [hm]
  have c1 := framed_renderCanvas d s s.plot.plotLayout.rects.canvasRect maps
  generalize renderCanvas d s s.plot.plotLayout.rects.canvasRect maps = s1 at c1
  have c2 : Framed s1 (if (!flagSet d.discardFlags DiscardTitle && !s1.plot.titleIsEmpty) = true
      then renderTitle s1 s1.plot.plotLayout.rects.titleRect else s1) := by
    split
    · exact framed_renderTitle _ _
    · exact Framed.refl _
  generalize (if (!flagSet d.discardFlags DiscardTitle && !s1.plot.titleIsEmpty) = true
      then renderTitle s1 s1.plot.plotLayout.rects.titleRect else s1) = s2 at c2
  split
  · rename_i heq
    split at heq
    · obtain ⟨t, ht⟩ := renderLegend_returns s2 s2.plot.plotLayout.rects.legendRect (by
        intro legend l hlg hly
        refine h2 legend l _ ?_ hly
        rw [← hlg, c2.1, c1.1])
      rw [ht] at heq
      cases heq
    · cases heq
  · exact renderScales_returns _ _

/-- `render` returns when every enabled axis has a scale widget and the legend
layout yields a rectangle for each of its widgets. -/
theorem render_returns (d : PrivateData) (uninit : Int → Int) (world : World)
    (plotRect : QRectF)
    (h1 : ∀ a ∈ QwtPlot.axisIds, world.plot.axisEnabled a = true →
      ∃ w, world.plot.axisWidget a = some w)
    (h2 : ∀ legend l rect, world.plot.legend = some legend → legend.layout = some l →
      (l.items.filterMap id).length ≤ (l.layoutItems rect).length) :
    ∃ w', render d uninit world plotRect = some w' := by
  unfold render
  split
  · exact ⟨world, rfl⟩
  · rename_i painter hp
    split
    · exact ⟨world, rfl⟩
    · have e1 : Framed ⟨world.plot, painter, world.trace⟩
          (if (!flagSet d.discardFlags DiscardBackground) = true then
            (⟨world.plot, painter, world.trace⟩ : Ctx).call (Call.fillRect plotRect)
          else ⟨world.plot, painter, world.trace⟩) := by
        split
        · exact framed_call _ _
        · exact Framed.refl _
      simp only
      generalize (if (!flagSet d.discardFlags DiscardBackground) = true then
            (⟨world.plot, painter, world.trace⟩ : Ctx).call (Call.fillRect plotRect)
          else ⟨world.plot, painter, world.trace⟩) = s1 at e1
      obtain ⟨e1p, -, -⟩ := e1
      simp only at e1p
      have key : ∀ z : Ctx × (Int → Int),
          z.1.plot.axisEnabled = world.plot.axisEnabled →
          z.1.plot.legend = world.plot.legend →
          (∀ a, (∃ w, world.plot.axisWidget a = some w) → ∃ w, z.1.plot.axisWidget a = some w) →
          ∀ rect options c1 c2, ∃ t, renderSteps d
            (((⟨z.1.plot.activate rect options, z.1.painter, z.1.trace⟩ : Ctx).call c1).call c2)
              = some t := by
        intro z hz1 hz2 hz3 rect options c1 c2
        apply renderSteps_returns
        · intro a ha he
          apply hz3 a
          apply h1 a ha
          rw [← hz1]
          exact he
        · intro legend l r hlg hly
          refine h2 legend l r ?_ hly
          rw [← hz2]
          exact hlg
      by_cases hF : flagSet d.layoutFlags FrameWithScales = true
      · simp only [hF, if_true]
        obtain ⟨t, ht⟩ := key (zeroMargins QwtPlot.axisIds (s1.save, uninit))
          (by rw [(zeroMargins_fields _ _ _).1]; show s1.plot.axisEnabled = _; rw [e1p])
          (by rw [(zeroMargins_fields _ _ _).2]; show s1.plot.legend = _; rw [e1p])
          (by
            intro a ⟨w, hw⟩
            rw [zeroMargins_axisWidget]
            have : s1.save.plot.axisWidget a = some w := by
              show s1.plot.axisWidget a = _
              rw [e1p]; exact hw
            rw [this]
            split <;> exact ⟨_, rfl⟩) _ _ _ _
        split
        · rename_i heq
          have h3 := heq.symm.trans ht
          cases h3
        · exact ⟨_, rfl⟩
      · simp only [hF, if_false]
        obtain ⟨t, ht⟩ := key (s1.save, uninit)
          (by show s1.plot.axisEnabled = _; rw [e1p])
          (by show s1.plot.legend = _; rw [e1p])
          (by
            intro a ⟨w, hw⟩
            exact ⟨w, by show s1.plot.axisWidget a = _; rw [e1p]; exact hw⟩) _ _ _ _
        split
        · rename_i heq
          have h3 := heq.symm.trans ht
          cases h3
        · exact ⟨_, rfl⟩

/-- C9: whenever `render` returns, for every flag words and every plot, the
margin of each axis scale widget is what it was before the call and so is the
save/restore depth of the painter.  With `FrameWithScales` set and the entry
guard passed, the calls appended to the trace contain, for every axis that has
a scale widget, in this order: the margin set to 0, the activation of the
layout, its invalidation, the margin set back to its value before the call. -/
theorem render_restores_margins_and_depth (d : PrivateData) (uninit : Int → Int)
    (world : World) (plotRect : QRectF) (w' : World)
    (h : render d uninit world plotRect = some w') :
    (∀ axisId : Int,
        (w'.plot.axisWidget axisId).map (fun w => w.margin)
          = (world.plot.axisWidget axisId).map (fun w => w.margin))
    ∧ w'.painter.map (fun p => p.depth) = world.painter.map (fun p => p.depth)
    ∧ (∀ p : QPainter, world.painter = some p → p.isActive = true →
        plotRect.isValid = true → world.plot.size.isNull = false →
        flagSet d.layoutFlags FrameWithScales = true →
        ∃ new, w'.trace = world.trace ++ new
          ∧ ∀ a ∈ QwtPlot.axisIds, ∀ w, world.plot.axisWidget a = some w →
              List.Sublist [Call.setMargin a 0,
                Call.activate
                  ((QTransform.identity.scale
                      ((p.deviceLogicalDpiX : ℚ) / (world.plot.logicalDpiX : ℚ))
                      ((p.deviceLogicalDpiY : ℚ) / (world.plot.logicalDpiY : ℚ))).inverted.mapRect
                    plotRect)
                  (layoutOptions d),
                Call.invalidate, Call.setMargin a w.margin] new) := by
  obtain ⟨h1, h2, -⟩ := render_frame d uninit world plotRect w' h
  refine ⟨fun axisId => by rw [h1], by rw [h2], ?_⟩
  intro p hp hactive hvalid hsize hF
  exact render_zeroes_margins d uninit world plotRect w' h p hp hactive hvalid hsize hF

theorem render_restores_margins_and_depth_witness :
    ∃ w' : World,
      render ⟨DiscardBackground, FrameWithScales⟩ (fun _ => 0)
        ⟨examplePlot, some examplePainter, []⟩ ⟨0, 0, 400, 300⟩ = some w'
      ∧ (w'.plot.axisWidget QwtPlot.xBottom).map (fun w => w.margin) = some 6
      ∧ w'.painter.map (fun p => p.depth) = some 0
      ∧ ∃ new, w'.trace = [] ++ new
          ∧ List.Sublist [Call.setMargin QwtPlot.xBottom 0,
              Call.activate
                ((QTransform.identity.scale ((96 : Int) / (96 : Int) : ℚ)
                  ((96 : Int) / (96 : Int) : ℚ)).inverted.mapRect ⟨0, 0, 400, 300⟩)
                (layoutOptions ⟨DiscardBackground, FrameWithScales⟩),
              Call.invalidate, Call.setMargin QwtPlot.xBottom 6] new := by
  obtain ⟨w', hw'⟩ := Option.isSome_iff_exists.mp
    (show (render ⟨DiscardBackground, FrameWithScales⟩ (fun _ => 0)
      ⟨examplePlot, some examplePainter, []⟩ ⟨0, 0, 400, 300⟩).isSome = true from by decide)
  have hthm := render_restores_margins_and_depth ⟨DiscardBackground, FrameWithScales⟩
    (fun _ => 0) ⟨examplePlot, some examplePainter, []⟩ ⟨0, 0, 400, 300⟩ w' hw'
  obtain ⟨new, hnew, hsub⟩ := hthm.2.2 examplePainter rfl rfl (by decide) (by decide) (by decide)
  exact ⟨w', hw', hthm.1 QwtPlot.xBottom, hthm.2.1, new, hnew,
    hsub QwtPlot.xBottom (by decide) (exampleWidget 6) (by decide)⟩

theorem render_noop_witness :
    (∃ p, (some { examplePainter with isActive := false } : Option QPainter) = some p
        ∧ p.isActive = false)
    ∧ render PrivateData.init (fun _ => 0)
        ⟨examplePlot, some { examplePainter with isActive := false }, []⟩ ⟨0, 0, 400, 300⟩
      = some ⟨examplePlot, some { examplePainter with isActive := false }, []⟩ :=
  ⟨⟨_, rfl, rfl⟩,
   render_noop PrivateData.init (fun _ => 0)
     ⟨examplePlot, some { examplePainter with isActive := false }, []⟩ ⟨0, 0, 400, 300⟩
     (Or.inr (Or.inl ⟨_, rfl, rfl⟩))⟩

/-! ## Theorems: the flag words -/

theorem int_eq_of_testBit_eq (m n : Int) (h : ∀ k, m.testBit k = n.testBit k) : m = n := by
  have key : ∀ a b : ℕ, ∃ k, a.testBit k = false ∧ b.testBit k = false := by
    intro a b
    refine ⟨a + b, Nat.testBit_lt_two_pow ?_, Nat.testBit_lt_two_pow ?_⟩
    · exact lt_of_lt_of_le (Nat.lt_two_pow a) (Nat.pow_le_pow_right (by norm_num) (by omega))
    · exact lt_of_lt_of_le (Nat.lt_two_pow b) (Nat.pow_le_pow_right (by norm_num) (by omega))
  cases m with
  | ofNat a =>
    cases n with
    | ofNat b =>
      congr 1
      exact Nat.eq_of_testBit_eq h
    | negSucc b =>
      obtain ⟨k, h1, h2⟩ := key a b
      have := h k
      simp [Int.testBit, h1, h2] at this
  | negSucc a =>
    cases n with
    | ofNat b =>
      obtain ⟨k, h1, h2⟩ := key a b
      have := h k
      simp [Int.testBit, h1, h2] at this
    | negSucc b =>
      congr 1
      apply Nat.eq_of_testBit_eq
      intro k
      have := h k
      simpa [Int.testBit] using this

theorem testBit_zero_int (k : ℕ) : (0 : Int).testBit k = false := by
  simp [Int.testBit]

theorem land_lor_self (x f : Int) : Int.land (Int.lor x f) f = f := by
  apply int_eq_of_testBit_eq
  intro k
  rw [Int.testBit_land, Int.testBit_lor]
  cases x.testBit k <;> cases f.testBit k <;> rfl

theorem land_lnot_self (x f : Int) : Int.land (Int.land x (Int.lnot f)) f = 0 := by
  apply int_eq_of_testBit_eq
  intro k
  rw [Int.testBit_land, Int.testBit_land, Int.testBit_lnot, testBit_zero_int]
  cases x.testBit k <;> cases f.testBit k <;> rfl

theorem disjoint_bits (f g : Int) (h : Int.land f g = 0) (k : ℕ) :
    (f.testBit k && g.testBit k) = false := by
  rw [← Int.testBit_land, h, testBit_zero_int]

theorem land_lor_disjoint (x f g : Int) (h : Int.land f g = 0) :
    Int.land (Int.lor x f) g = Int.land x g := by
  apply int_eq_of_testBit_eq
  intro k
  have hk := disjoint_bits f g h k
  rw [Int.testBit_land, Int.testBit_lor, Int.testBit_land]
  cases x.testBit k <;> cases hf : f.testBit k <;> cases hg : g.testBit k <;> simp_all

theorem land_lnot_disjoint (x f g : Int) (h : Int.land f g = 0) :
    Int.land (Int.land x (Int.lnot f)) g = Int.land x g := by
  apply int_eq_of_testBit_eq
  intro k
  have hk := disjoint_bits f g h k
  rw [Int.testBit_land, Int.testBit_land, Int.testBit_lnot, Int.testBit_land]
  cases x.testBit k <;> cases hf : f.testBit k <;> cases hg : g.testBit k <;> simp_all

/-- Setting or clearing the bits of `f` in a flag word. -/
theorem setBits_comm (x f g : Int) (a b : Bool) (h : Int.land f g = 0) :
    (if b then Int.lor (if a then Int.lor x f else Int.land x (Int.lnot f)) g
      else Int.land (if a then Int.lor x f else Int.land x (Int.lnot f)) (Int.lnot g))
    = (if a then Int.lor (if b then Int.lor x g else Int.land x (Int.lnot g)) f
      else Int.land (if b then Int.lor x g else Int.land x (Int.lnot g)) (Int.lnot f)) := by
  apply int_eq_of_testBit_eq
  intro k
  have hk := disjoint_bits f g h k
  cases a <;> cases b <;>
    simp only [if_true, if_false, Bool.false_eq_true, Int.testBit_land, Int.testBit_lor,
      Int.testBit_lnot] <;>
    cases x.testBit k <;> cases hf : f.testBit k <;> cases hg : g.testBit k <;> simp_all

theorem setBits_idem (x f : Int) (a : Bool) :
    (if a then Int.lor (if a then Int.lor x f else Int.land x (Int.lnot f)) f
      else Int.land (if a then Int.lor x f else Int.land x (Int.lnot f)) (Int.lnot f))
    = (if a then Int.lor x f else Int.land x (Int.lnot f)) := by
  apply int_eq_of_testBit_eq
  intro k
  cases a <;>
    simp only [if_true, if_false, Bool.false_eq_true, Int.testBit_land, Int.testBit_lor,
      Int.testBit_lnot] <;>
    cases x.testBit k <;> cases f.testBit k <;> rfl

theorem layoutOptions_cases (d : PrivateData) :
    layoutOptions d = 6 ∨ layoutOptions d = 14 ∨ layoutOptions d = 22 ∨ layoutOptions d = 30 := by
  unfold layoutOptions
  cases keepMarginsCheck d <;> cases flagSet d.discardFlags DiscardLegend <;> decide

/-- C11: with `layoutFlags = FrameWithScales` the flag `KeepMargins` is not
set, yet `IgnoreMargin` is not among the options `render` computes for the
layout engine: the claim fails there.  The other parts of the claim hold for
all flag words: `IgnoreScrollbars` and `IgnoreFrames` are always among the
options and `IgnoreLegend` is exactly when `DiscardLegend` is set. -/
theorem layoutOptions_frameWithScales_keeps_margin :
    (testLayoutFlag ⟨DiscardBackground, FrameWithScales⟩ KeepMargins = false
      ∧ flagSet (layoutOptions ⟨DiscardBackground, FrameWithScales⟩)
          QwtPlotLayout.IgnoreMargin = false)
    ∧ ∀ d : PrivateData,
        flagSet (layoutOptions d) QwtPlotLayout.IgnoreScrollbars = true
        ∧ flagSet (layoutOptions d) QwtPlotLayout.IgnoreFrames = true
        ∧ flagSet (layoutOptions d) QwtPlotLayout.IgnoreLegend
            = testDiscardFlag d DiscardLegend := by
  refine ⟨by decide, fun d => ⟨?_, ?_, ?_⟩⟩
  · rcases layoutOptions_cases d with h | h | h | h <;> rw [h] <;> decide
  · rcases layoutOptions_cases d with h | h | h | h <;> rw [h] <;> decide
  · unfold layoutOptions testDiscardFlag
    cases keepMarginsCheck d <;> cases flagSet d.discardFlags DiscardLegend <;> decide

/-- C12: after `setDiscardFlag( f, on )` the test of a non-zero `f` gives `on`,
the test of a flag `g` without common bit with `f` is unchanged and so is
`layoutFlags()`; two changes of flags without common bit commute and a change
made twice is the change made once.  The same holds for `setLayoutFlag`,
`testLayoutFlag` and `discardFlags()`. -/
theorem flag_changes_independent (d : PrivateData) (f g : Int) (a b : Bool) :
    ((f ≠ 0 → testDiscardFlag (setDiscardFlag d f a) f = a)
      ∧ (Int.land f g = 0 →
          testDiscardFlag (setDiscardFlag d f a) g = testDiscardFlag d g)
      ∧ layoutFlags (setDiscardFlag d f a) = layoutFlags d
      ∧ (Int.land f g = 0 →
          setDiscardFlag (setDiscardFlag d f a) g b
            = setDiscardFlag (setDiscardFlag d g b) f a)
      ∧ setDiscardFlag (setDiscardFlag d f a) f a = setDiscardFlag d f a)
    ∧ ((f ≠ 0 → testLayoutFlag (setLayoutFlag d f a) f = a)
      ∧ (Int.land f g = 0 →
          testLayoutFlag (setLayoutFlag d f a) g = testLayoutFlag d g)
      ∧ discardFlags (setLayoutFlag d f a) = discardFlags d
      ∧ (Int.land f g = 0 →
          setLayoutFlag (setLayoutFlag d f a) g b
            = setLayoutFlag (setLayoutFlag d g b) f a)
      ∧ setLayoutFlag (setLayoutFlag d f a) f a = setLayoutFlag d f a) := by
  obtain ⟨x, y⟩ := d
  refine ⟨⟨?_, ?_, ?_, ?_, ?_⟩, ?_, ?_, ?_, ?_, ?_⟩
  · intro hf
    cases a
    · simp [testDiscardFlag, setDiscardFlag, flagSet, land_lnot_self]
    · simp [testDiscardFlag, setDiscardFlag, flagSet, land_lor_self, hf]
  · intro h
    cases a
    · simp [testDiscardFlag, setDiscardFlag, flagSet, land_lnot_disjoint x f g h]
    · simp [testDiscardFlag, setDiscardFlag, flagSet, land_lor_disjoint x f g h]
  · cases a <;> rfl
  · intro h
    have := setBits_comm x f g a b h
    cases a <;> cases b <;> simp_all [setDiscardFlag]
  · have := setBits_idem x f a
    cases a <;> simp_all [setDiscardFlag]
  · intro hf
    cases a
    · simp [testLayoutFlag, setLayoutFlag, flagSet, land_lnot_self]
    · simp [testLayoutFlag, setLayoutFlag, flagSet, land_lor_self, hf]
  · intro h
    cases a
    · simp [testLayoutFlag, setLayoutFlag, flagSet, land_lnot_disjoint y f g h]
    · simp [testLayoutFlag, setLayoutFlag, flagSet, land_lor_disjoint y f g h]
  · cases a <;> rfl
  · intro h
    have := setBits_comm y f g a b h
    cases a <;> cases b <;> simp_all [setLayoutFlag]
  · have := setBits_idem y f a
    cases a <;> simp_all [setLayoutFlag]

theorem flag_changes_independent_witness :
    (DiscardTitle ≠ 0 ∧ Int.land DiscardTitle DiscardLegend = 0)
    ∧ testDiscardFlag (setDiscardFlag PrivateData.init DiscardTitle true) DiscardTitle = true
    ∧ testDiscardFlag (setDiscardFlag PrivateData.init DiscardTitle true) DiscardLegend
        = testDiscardFlag PrivateData.init DiscardLegend
    ∧ setDiscardFlag (setDiscardFlag PrivateData.init DiscardTitle true) DiscardLegend false
        = setDiscardFlag (setDiscardFlag PrivateData.init DiscardLegend false) DiscardTitle true :=
  ⟨⟨by decide, by decide⟩,
   (flag_changes_independent PrivateData.init DiscardTitle DiscardLegend true false).1.1
     (by decide),
   (flag_changes_independent PrivateData.init DiscardTitle DiscardLegend true false).1.2.1
     (by decide),
   (flag_changes_independent PrivateData.init DiscardTitle DiscardLegend true false).1.2.2.2.1
     (by decide)⟩

/-! ## Theorems: the clipping wrappers -/

theorem isClippingNeeded_svg (painter : ClipPainter) (clipRect : QRectF)
    (he : painter.paintEngine = some PaintEngineType.SVG) (hc : painter.hasClipping = true) :
    isClippingNeeded painter clipRect = (true, QRectF.ofQRect painter.clipBoundingRect) := by
  simp [isClippingNeeded, he, hc]

theorem isClippingNeeded_fst (painter : ClipPainter) (clipRect : QRectF) :
    (isClippingNeeded painter clipRect).1
      = (decide (painter.paintEngine = some PaintEngineType.SVG) && painter.hasClipping) := by
  unfold isClippingNeeded
  cases he : painter.paintEngine with
  | none => simp
  | some pe =>
    by_cases h : pe = PaintEngineType.SVG
    · subst h
      cases hc : painter.hasClipping <;> simp [hc]
    · simp [h]

/-- C14: on a raster painter without clipping whose window is
`(0, 0, 100, 100)`, `QwtPainter::fillRect` forwards the rectangle
`(-1000, -1000, 5000, 5000)` as it is, not its intersection `(0, 0, 100, 100)`
with the window, and it forwards the rectangle `(200, 200, 50, 50)`, which
lies outside the window.  In general the rectangle is intersected with the
window and the clip rectangle only when the paint engine is SVG and clipping
is on; on every other painter a valid rectangle is forwarded unchanged. -/
theorem fillRect_window_not_applied :
    (fillRect ⟨some PaintEngineType.Raster, false, ⟨0, 0, 0, 0⟩, ⟨0, 0, 100, 100⟩⟩
          ⟨-1000, -1000, 5000, 5000⟩
        = [PainterCall.fillRect ⟨-1000, -1000, 5000, 5000⟩]
      ∧ (QRectF.mk (-1000) (-1000) 5000 5000).intersected
          (QRectF.ofQRect ⟨0, 0, 100, 100⟩) = ⟨0, 0, 100, 100⟩
      ∧ fillRect ⟨some PaintEngineType.Raster, false, ⟨0, 0, 0, 0⟩, ⟨0, 0, 100, 100⟩⟩
          ⟨200, 200, 50, 50⟩
        = [PainterCall.fillRect ⟨200, 200, 50, 50⟩]
      ∧ ((QRectF.mk 200 200 50 50).intersected
          (QRectF.ofQRect ⟨0, 0, 100, 100⟩)).isValid = false)
    ∧ (∀ (painter : ClipPainter) (rect : QRectF),
        (painter.paintEngine ≠ some PaintEngineType.SVG ∨ painter.hasClipping = false) →
        rect.isValid = true →
        fillRect painter rect = [PainterCall.fillRect rect])
    ∧ (∀ (painter : ClipPainter) (rect : QRectF),
        painter.paintEngine = some PaintEngineType.SVG → painter.hasClipping = true →
        fillRect painter rect
          = if rect.isValid
              ∧ (rect.intersected
                  (((QRectF.ofQRect painter.clipBoundingRect).intersected
                      (QRectF.ofQRect painter.window)).intersected
                    (QRectF.ofQRect painter.clipBoundingRect))).isValid
            then
              [PainterCall.fillRect
                (rect.intersected
                  (((QRectF.ofQRect painter.clipBoundingRect).intersected
                      (QRectF.ofQRect painter.window)).intersected
                    (QRectF.ofQRect painter.clipBoundingRect)))]
            else []) := by
  refine ⟨⟨?_, ?_, ?_, ?_⟩, ?_, ?_⟩
  · norm_num [fillRect, isClippingNeeded, QRectF.isValid, QRectF.ofQRect]
  · norm_num [QRectF.intersected, QRectF.lo1, QRectF.hi1, QRectF.lo2, QRectF.hi2,
      QRectF.ofQRect, QRectF.null]
  · norm_num [fillRect, isClippingNeeded, QRectF.isValid, QRectF.ofQRect]
  · norm_num [QRectF.intersected, QRectF.lo1, QRectF.hi1, QRectF.lo2, QRectF.hi2,
      QRectF.ofQRect, QRectF.null, QRectF.isValid]
  · intro painter rect hp hv
    have h1 : (isClippingNeeded painter QRectF.null).1 = false := by
      rw [isClippingNeeded_fst]
      rcases hp with hp | hp <;> simp [hp]
    simp [fillRect, hv, h1]
  · intro painter rect he hc
    rw [fillRect, isClippingNeeded_svg painter _ he hc]
    by_cases hv : rect.isValid = true
    · simp only [hv, Bool.not_true, Bool.false_eq_true, if_false, if_true, hc, true_and]
    · simp [hv]

theorem fillRect_window_not_applied_witness :
    ((some PaintEngineType.Raster ≠ some PaintEngineType.SVG ∨ false = false)
      ∧ (QRectF.mk 150 150 10 10).isValid = true)
    ∧ fillRect ⟨some PaintEngineType.Raster, false, ⟨0, 0, 0, 0⟩, ⟨0, 0, 100, 100⟩⟩
        ⟨150, 150, 10, 10⟩ = [PainterCall.fillRect ⟨150, 150, 10, 10⟩] :=
  ⟨⟨Or.inr rfl, by decide⟩,
   fillRect_window_not_applied.2.1
     ⟨some PaintEngineType.Raster, false, ⟨0, 0, 0, 0⟩, ⟨0, 0, 100, 100⟩⟩ ⟨150, 150, 10, 10⟩
     (Or.inr rfl) (by decide)⟩

/-- For rectangles of positive width and height `intersects` says that the
interiors overlap and `contains` that the second lies inside the first. -/
theorem intersects_contains_valid (a b : QRectF) (ha : 0 < a.w ∧ 0 < a.h)
    (hb : 0 < b.w ∧ 0 < b.h) :
    (a.intersects b = true ↔
      (max a.left b.left < min a.right b.right ∧ max a.top b.top < min a.bottom b.bottom))
    ∧ (a.contains b = true ↔
      (a.left ≤ b.left ∧ b.right ≤ a.right ∧ a.top ≤ b.top ∧ b.bottom ≤ a.bottom)) := by
  obtain ⟨ha1, ha2⟩ := ha
  obtain ⟨hb1, hb2⟩ := hb
  have e1 : a.lo1 = a.xp := by simp [QRectF.lo1, not_lt.mpr ha1.le]
  have e2 : a.hi1 = a.xp + a.w := by simp [QRectF.hi1, not_lt.mpr ha1.le]
  have e3 : a.lo2 = a.yp := by simp [QRectF.lo2, not_lt.mpr ha2.le]
  have e4 : a.hi2 = a.yp + a.h := by simp [QRectF.hi2, not_lt.mpr ha2.le]
  have f1 : b.lo1 = b.xp := by simp [QRectF.lo1, not_lt.mpr hb1.le]
  have f2 : b.hi1 = b.xp + b.w := by simp [QRectF.hi1, not_lt.mpr hb1.le]
  have f3 : b.lo2 = b.yp := by simp [QRectF.lo2, not_lt.mpr hb2.le]
  have f4 : b.hi2 = b.yp + b.h := by simp [QRectF.hi2, not_lt.mpr hb2.le]
  have n1 : a.xp ≠ a.xp + a.w := by linarith
  have n2 : b.xp ≠ b.xp + b.w := by linarith
  have n3 : a.yp ≠ a.yp + a.h := by linarith
  have n4 : b.yp ≠ b.yp + b.h := by linarith
  constructor
  · simp only [QRectF.intersects, e1, e2, e3, e4, f1, f2, f3, f4, n1, n2, n3, n4, if_false,
      QRectF.left, QRectF.right, QRectF.top, QRectF.bottom, max_lt_iff, lt_min_iff]
    by_cases c1 : a.xp ≥ b.xp + b.w ∨ b.xp ≥ a.xp + a.w
    · simp only [c1, if_true, Bool.false_eq_true, false_iff]
      rcases c1 with c1 | c1
      · intro h; linarith [h.1.1.2]
      · intro h; linarith [h.1.2.1]
    · simp only [c1, if_false]
      push_neg at c1
      by_cases c2 : a.yp ≥ b.yp + b.h ∨ b.yp ≥ a.yp + a.h
      · simp only [c2, if_true, Bool.false_eq_true, false_iff]
        rcases c2 with c2 | c2
        · intro h; linarith [h.2.1.2]
        · intro h; linarith [h.2.2.1]
      · simp only [c2, if_false, true_iff]
        push_neg at c2
        refine ⟨⟨⟨?_, ?_⟩, ?_, ?_⟩, ⟨?_, ?_⟩, ?_, ?_⟩ <;> linarith [c1.1, c1.2, c2.1, c2.2]
  · simp only [QRectF.contains, e1, e2, e3, e4, f1, f2, f3, f4, n1, n2, n3, n4, if_false,
      QRectF.left, QRectF.right, QRectF.top, QRectF.bottom]
    by_cases c1 : b.xp < a.xp ∨ b.xp + b.w > a.xp + a.w
    · simp only [c1, if_true, Bool.false_eq_true, false_iff]
      rcases c1 with c1 | c1
      · intro h; linarith [h.1]
      · intro h; linarith [h.2.1]
    · simp only [c1, if_false]
      push_neg at c1
      by_cases c2 : b.yp < a.yp ∨ b.yp + b.h > a.yp + a.h
      · simp only [c2, if_true, Bool.false_eq_true, false_iff]
        rcases c2 with c2 | c2
        · intro h; linarith [h.2.2.1]
        · intro h; linarith [h.2.2.2]
      · simp only [c2, if_false, true_iff]
        push_neg at c2
        exact ⟨c1.1, c1.2, c2.1, c2.2⟩

/-- C15, as stated, fails: on an SVG painter with clipping on and the clip
rectangle `(0, 0, 100, 100)`, the ellipse and the pie of the rectangle
`(50, 50, 100, 100)`, which overlaps the clip rectangle, are not drawn. -/
theorem drawEllipse_overlapping_skipped :
    (QRectF.ofQRect ⟨0, 0, 100, 100⟩).intersects ⟨50, 50, 100, 100⟩ = true
    ∧ drawEllipse ⟨some PaintEngineType.SVG, true, ⟨0, 0, 100, 100⟩, ⟨0, 0, 640, 480⟩⟩
        ⟨50, 50, 100, 100⟩ = []
    ∧ drawPie ⟨some PaintEngineType.SVG, true, ⟨0, 0, 100, 100⟩, ⟨0, 0, 640, 480⟩⟩
        ⟨50, 50, 100, 100⟩ 0 90 = [] := by
  refine ⟨?_, ?_, ?_⟩
  · norm_num [QRectF.intersects, QRectF.lo1, QRectF.hi1, QRectF.lo2, QRectF.hi2,
      QRectF.ofQRect]
  · norm_num [drawEllipse, isClippingNeeded, QRectF.contains, QRectF.lo1, QRectF.hi1,
      QRectF.lo2, QRectF.hi2, QRectF.ofQRect]
  · norm_num [drawPie, isClippingNeeded, QRectF.contains, QRectF.lo1, QRectF.hi1,
      QRectF.lo2, QRectF.hi2, QRectF.ofQRect]

/-- C15, amended: on a painter whose paint engine is SVG and whose clipping is
on, with `clipRect` the bounding rectangle of the clip region: `drawRect`
forwards nothing exactly when the rectangle does not intersect `clipRect`; a
rectangle inside `clipRect` is forwarded as it is, one that overlaps it partly
is drawn as the fill of the common part followed by the outline as a
polyline; `drawPoint` forwards nothing exactly when the point is not in
`clipRect`; `drawEllipse` and `drawPie` forward their call exactly when the
rectangle lies inside `clipRect`, so a shape that overlaps it only partly is
not drawn. -/
theorem clipped_draw_calls (clipPolygonF : QRectF → List QPointF → List QPointF)
    (polylineSplitting : Bool) (painter : ClipPainter) (rect : QRectF) (pos : QPointF)
    (a alen : Int)
    (he : painter.paintEngine = some PaintEngineType.SVG)
    (hc : painter.hasClipping = true) :
    (drawRect clipPolygonF polylineSplitting painter rect = []
        ↔ (QRectF.ofQRect painter.clipBoundingRect).intersects rect = false)
    ∧ ((QRectF.ofQRect painter.clipBoundingRect).contains rect = true →
        (QRectF.ofQRect painter.clipBoundingRect).intersects rect = true →
        drawRect clipPolygonF polylineSplitting painter rect = [PainterCall.drawRect rect])
    ∧ ((QRectF.ofQRect painter.clipBoundingRect).intersects rect = true →
        (QRectF.ofQRect painter.clipBoundingRect).contains rect = false →
        drawRect clipPolygonF polylineSplitting painter rect
          = fillRect painter (rect.intersected (QRectF.ofQRect painter.clipBoundingRect))
            ++ [PainterCall.save, PainterCall.setNoBrush]
            ++ drawPolylineF clipPolygonF polylineSplitting painter (polygonOfRect rect)
            ++ [PainterCall.restore])
    ∧ (drawPoint painter pos
        = if (QRectF.ofQRect painter.clipBoundingRect).containsPoint pos then
            [PainterCall.drawPoint pos] else [])
    ∧ (drawEllipse painter rect
        = if (QRectF.ofQRect painter.clipBoundingRect).contains rect then
            [PainterCall.drawEllipse rect] else [])
    ∧ (drawPie painter rect a alen
        = if (QRectF.ofQRect painter.clipBoundingRect).contains rect then
            [PainterCall.drawPie rect a alen] else []) := by
  have hcl := isClippingNeeded_svg painter QRectF.null he hc
  refine ⟨?_, ?_, ?_, ?_, ?_, ?_⟩
  · simp only [drawRect, hcl, if_true]
    cases h1 : (QRectF.ofQRect painter.clipBoundingRect).intersects rect
    · simp
    · cases h2 : (QRectF.ofQRect painter.clipBoundingRect).contains rect <;> simp
  · intro h2 h1
    simp [drawRect, hcl, h1, h2]
  · intro h1 h2
    simp [drawRect, hcl, h1, h2]
  · simp only [drawPoint, hcl]
    cases (QRectF.ofQRect painter.clipBoundingRect).containsPoint pos <;> simp
  · simp only [drawEllipse, hcl]
    cases (QRectF.ofQRect painter.clipBoundingRect).contains rect <;> simp
  · simp only [drawPie, hcl]
    cases (QRectF.ofQRect painter.clipBoundingRect).contains rect <;> simp

theorem clipped_draw_calls_witness :
    ((some PaintEngineType.SVG : Option PaintEngineType) = some PaintEngineType.SVG
      ∧ true = true)
    ∧ drawEllipse ⟨some PaintEngineType.SVG, true, ⟨0, 0, 100, 100⟩, ⟨0, 0, 640, 480⟩⟩
        ⟨10, 10, 20, 20⟩
      = if (QRectF.ofQRect ⟨0, 0, 100, 100⟩).contains ⟨10, 10, 20, 20⟩ then
          [PainterCall.drawEllipse ⟨10, 10, 20, 20⟩] else [] :=
  ⟨⟨rfl, rfl⟩,
   (clipped_draw_calls (fun _ l => l) true
     ⟨some PaintEngineType.SVG, true, ⟨0, 0, 100, 100⟩, ⟨0, 0, 640, 480⟩⟩
     ⟨10, 10, 20, 20⟩ ⟨0, 0⟩ 0 90 rfl rfl).2.2.2.2.1⟩

/-! ## Theorems: column rectangles -/

/-- C16: for all intervals, valid or not, and every direction, the rectangle
of `QwtColumnRect::toRect()` has width and height `>= 0`, is its own
normalization, has its left and right edges at the smaller and the larger end
of the horizontal interval and its top and bottom edges at the smaller and the
larger end of the vertical interval, and is the same for every direction; for
valid intervals it is `(hMin, vMin, hMax - hMin, vMax - vMin)`. -/
theorem toRect_normalized (c : QwtColumnRect) :
    0 ≤ c.toRect.w ∧ 0 ≤ c.toRect.h
    ∧ c.toRect.normalized = c.toRect
    ∧ c.toRect.left = min c.hInterval.minValue c.hInterval.maxValue
    ∧ c.toRect.right = max c.hInterval.minValue c.hInterval.maxValue
    ∧ c.toRect.top = min c.vInterval.minValue c.vInterval.maxValue
    ∧ c.toRect.bottom = max c.vInterval.minValue c.vInterval.maxValue
    ∧ (∀ direction : QwtColumnRect.Direction,
        (QwtColumnRect.mk c.hInterval c.vInterval direction).toRect = c.toRect)
    ∧ (c.hInterval.minValue ≤ c.hInterval.maxValue →
        c.vInterval.minValue ≤ c.vInterval.maxValue →
        c.toRect = ⟨c.hInterval.minValue, c.vInterval.minValue,
          c.hInterval.maxValue - c.hInterval.minValue,
          c.vInterval.maxValue - c.vInterval.minValue⟩) := by
  obtain ⟨⟨a, b⟩, ⟨u, v⟩, dir⟩ := c
  simp only [QwtColumnRect.toRect, QRectF.normalized, QRectF.left, QRectF.right, QRectF.top,
    QRectF.bottom]
  refine ⟨?_, ?_, ?_, ?_, ?_, ?_, ?_, ?_, ?_⟩
  · split_ifs <;> linarith
  · split_ifs <;> linarith
  · by_cases h1 : b - a < 0 <;> by_cases h2 : v - u < 0
    · have h3 : ¬ (-(b - a) < 0) := by linarith
      have h4 : ¬ (-(v - u) < 0) := by linarith
      simp only [if_pos h1, if_pos h2, if_neg h3, if_neg h4]
    · have h3 : ¬ (-(b - a) < 0) := by linarith
      simp only [if_pos h1, if_neg h2, if_neg h3]
    · have h4 : ¬ (-(v - u) < 0) := by linarith
      simp only [if_neg h1, if_pos h2, if_neg h4]
    · simp only [if_neg h1, if_neg h2]
  · by_cases h1 : b - a < 0
    · simp only [h1, if_true]
      rw [min_eq_right (by linarith)]
      ring
    · simp only [h1, if_false]
      rw [min_eq_left (by linarith)]
  · by_cases h1 : b - a < 0
    · simp only [h1, if_true]
      rw [max_eq_left (by linarith)]
      ring
    · simp only [h1, if_false]
      rw [max_eq_right (by linarith)]
      ring
  · by_cases h1 : v - u < 0
    · simp only [h1, if_true]
      rw [min_eq_right (by linarith)]
      ring
    · simp only [h1, if_false]
      rw [min_eq_left (by linarith)]
  · by_cases h1 : v - u < 0
    · simp only [h1, if_true]
      rw [max_eq_left (by linarith)]
      ring
    · simp only [h1, if_false]
      rw [max_eq_right (by linarith)]
      ring
  · intro direction
    trivial
  · intro h1 h2
    have h3 : ¬ (b - a < 0) := by linarith
    have h4 : ¬ (v - u < 0) := by linarith
    simp [h3, h4]

theorem toRect_normalized_witness :
    ((1 : ℚ) ≤ 3 ∧ (2 : ℚ) ≤ 5)
    ∧ (QwtColumnRect.mk ⟨1, 3⟩ ⟨2, 5⟩ QwtColumnRect.Direction.BottomToTop).toRect
        = ⟨1, 2, 3 - 1, 5 - 2⟩ :=
  ⟨⟨by norm_num, by norm_num⟩,
   (toRect_normalized ⟨⟨1, 3⟩, ⟨2, 5⟩, QwtColumnRect.Direction.BottomToTop⟩).2.2.2.2.2.2.2.2
     (by norm_num) (by norm_num)⟩

/-! ## Theorems: documents and paint devices -/

/-- C17: `renderDocument` does nothing at all (no device is set up, `render`
is not called, nothing is saved) when the plot is null, or `sizeMM` is empty,
or `resolution <= 0`, or the format is none of `pdf`, `ps`, `svg` and not a
supported image format; in every other case its calls contain exactly one
call of `render`. -/
theorem renderDocument_render_once (supportedImageFormat : String → Bool)
    (plot : Option QwtPlot) (plotTitle fileName format : String) (sizeMM : QSizeF)
    (resolution : Int) :
    ((plot = none ∨ sizeMM.isEmpty = true ∨ resolution ≤ 0
        ∨ (format ≠ ("pdf") ∧ format ≠ ("ps") ∧ format ≠ ("svg")
            ∧ supportedImageFormat format = false)) →
      renderDocument supportedImageFormat plot plotTitle fileName format sizeMM resolution
        = [])
    ∧ (¬ (plot = none ∨ sizeMM.isEmpty = true ∨ resolution ≤ 0
        ∨ (format ≠ ("pdf") ∧ format ≠ ("ps") ∧ format ≠ ("svg")
            ∧ supportedImageFormat format = false)) →
      (renderDocument supportedImageFormat plot plotTitle fileName format sizeMM
        resolution).countP DocumentCall.isRender = 1) := by
  constructor
  · intro h
    unfold renderDocument
    rcases h with h | h | h | ⟨h1, h2, h3, h4⟩
    · simp [h]
    · simp [h]
    · simp [h]
    · split
      · rfl
      · simp [h1, h2, h3, h4]
  · intro h
    push_neg at h
    obtain ⟨h1, h2, h3, h4⟩ := h
    have g1 : plot.isNone = false := by
      cases plot with
      | none => exact absurd rfl h1
      | some _ => rfl
    have g2 : sizeMM.isEmpty = false := by simpa using h2
    have g3 : ¬ resolution ≤ 0 := not_le.mpr h3
    unfold renderDocument
    simp only [g1, g2, g3, decide_False, Bool.or_self, Bool.false_eq_true, if_false]
    by_cases c1 : format = ("pdf")
    · simp [c1, DocumentCall.isRender]
    · by_cases c2 : format = ("ps")
      · simp [c2, DocumentCall.isRender]
      · by_cases c3 : format = ("svg")
        · simp [c3, DocumentCall.isRender]
        · have c4 : supportedImageFormat format = true := by
            have := h4 c1 c2 c3
            simpa using this
          simp [c1, c2, c3, c4, DocumentCall.isRender]

theorem renderDocument_render_once_witness :
    ((none : Option QwtPlot) = none ∨ (QSizeF.mk 100 50).isEmpty = true ∨ (300 : Int) ≤ 0
        ∨ (("png") ≠ ("pdf") ∧ ("png") ≠ ("ps") ∧ ("png") ≠ ("svg")
            ∧ (fun _ : String => true) ("png") = false))
    ∧ renderDocument (fun _ => true) none ("") ("plot.png") ("png") ⟨100, 50⟩ 300 = [] :=
  ⟨Or.inl rfl,
   (renderDocument_render_once (fun _ => true) none ("") ("plot.png") ("png") ⟨100, 50⟩
     300).1 (Or.inl rfl)⟩

/-- C18: `renderTo( plot, QSvgGenerator & )` calls `render` with the view box
of the generator when that is not empty, otherwise with
`(0, 0, generator.width(), generator.height())` when that is not empty,
otherwise with `(0, 0, 800, 600)`; the rectangle passed to `render` is never
empty, so it passes the test `plotRect.isValid()` of `render`. -/
theorem renderToSvg_target_rect (d : PrivateData) (uninit : Int → Int) (plot : QwtPlot)
    (generator : QSvgGenerator) (p : QPainter) (trace : List Call) :
    (∃ rect : QRectF,
      renderToSvg d uninit plot generator p trace
          = render d uninit ⟨plot, some p, trace⟩ rect
      ∧ rect =
        (if generator.viewBoxF.isEmpty = false then generator.viewBoxF
         else if (QRectF.mk 0 0 generator.width generator.height).isEmpty = false then
           ⟨0, 0, generator.width, generator.height⟩
         else ⟨0, 0, 800, 600⟩)
      ∧ rect.isEmpty = false ∧ rect.isValid = true) := by
  refine ⟨renderToSvgRect generator, rfl, ?_, ?_, ?_⟩
  · unfold renderToSvgRect
    by_cases h1 : generator.viewBoxF.isEmpty = true
    · by_cases h2 : (QRectF.mk 0 0 generator.width generator.height).isEmpty = true
      · simp [h1, h2]
      · simp [h1, h2]
    · simp only [Bool.not_eq_true] at h1
      simp [h1]
  · unfold renderToSvgRect
    by_cases h1 : generator.viewBoxF.isEmpty = true
    · by_cases h2 : (QRectF.mk 0 0 generator.width generator.height).isEmpty = true
      · simp only [h1, h2, if_true]
        norm_num [QRectF.isEmpty]
      · simp only [h1, h2, if_true]
        simpa using h2
    · simp only [Bool.not_eq_true] at h1
      simp [h1]
  · have key : ∀ r : QRectF, r.isEmpty = false → r.isValid = true := by
      intro r hr
      simp only [QRectF.isEmpty, decide_eq_false_iff_not, not_or, not_le] at hr
      simp [QRectF.isValid, hr.1, hr.2]
    apply key
    unfold renderToSvgRect
    by_cases h1 : generator.viewBoxF.isEmpty = true
    · by_cases h2 : (QRectF.mk 0 0 generator.width generator.height).isEmpty = true
      · simp only [h1, h2, if_true]
        norm_num [QRectF.isEmpty]
      · simp only [h1, h2, if_true]
        simpa using h2
    · simp only [Bool.not_eq_true] at h1
      simp [h1]

/-! ## Theorems: the canvas maps -/

theorem buildCanvasMapsLoop_eq (plot : QwtPlot) (canvasRect : QRectF) (l : List Int)
    (h : ∀ a ∈ l, ∃ m, buildCanvasMap plot canvasRect a = some m) :
    buildCanvasMapsLoop plot canvasRect l
      = some (l.filterMap (buildCanvasMap plot canvasRect)) := by
  induction l with
  | nil => rfl
  | cons a rest ih =>
    obtain ⟨m, hm⟩ := h a (List.mem_cons_self _ _)
    have ih2 := ih (fun b hb => h b (List.mem_cons_of_mem _ hb))
    simp only [buildCanvasMapsLoop, hm, ih2, List.filterMap_cons]

theorem buildCanvasMap_some (plot : QwtPlot) (canvasRect : QRectF) (a : Int)
    (h : plot.axisEnabled a = true → (plot.axisWidget a).isSome = true) :
    ∃ m, buildCanvasMap plot canvasRect a = some m := by
  unfold buildCanvasMap
  by_cases he : plot.axisEnabled a = true
  · obtain ⟨w, hw⟩ := Option.isSome_iff_exists.mp (h he)
    simp only [he, if_true, hw]
    split <;> exact ⟨_, rfl⟩
  · simp only [he, Bool.false_eq_true, if_false]
    split <;> exact ⟨_, rfl⟩

theorem buildCanvasMap_intervals (plot : QwtPlot) (canvasRect : QRectF) (a : Int)
    (ha : a ∈ QwtPlot.axisIds) (m : QwtScaleMap)
    (h : buildCanvasMap plot canvasRect a = some m) :
    m.s1 = (plot.axisScaleDiv a).lowerBound ∧ m.s2 = (plot.axisScaleDiv a).upperBound
    ∧ (plot.axisEnabled a = true → ∃ wdg, plot.axisWidget a = some wdg
        ∧ ((a = QwtPlot.xBottom ∨ a = QwtPlot.xTop) →
            m.p1 = (plot.plotLayout.rects.scaleRect a).left + wdg.startBorderDist
            ∧ m.p2 = (plot.plotLayout.rects.scaleRect a).right - wdg.endBorderDist)
        ∧ ((a = QwtPlot.yLeft ∨ a = QwtPlot.yRight) →
            m.p1 = (plot.plotLayout.rects.scaleRect a).bottom - wdg.endBorderDist
            ∧ m.p2 = (plot.plotLayout.rects.scaleRect a).top + wdg.startBorderDist))
    ∧ (plot.axisEnabled a = false →
        ((a = QwtPlot.xBottom ∨ a = QwtPlot.xTop) →
            m.p1 = canvasRect.left + plot.plotLayout.canvasMargin a
            ∧ m.p2 = canvasRect.right - plot.plotLayout.canvasMargin a)
        ∧ ((a = QwtPlot.yLeft ∨ a = QwtPlot.yRight) →
            m.p1 = canvasRect.bottom - plot.plotLayout.canvasMargin a
            ∧ m.p2 = canvasRect.top + plot.plotLayout.canvasMargin a)) := by
  have hcases : a = 0 ∨ a = 1 ∨ a = 2 ∨ a = 3 := by
    simpa [QwtPlot.axisIds, QwtPlot.axisCnt, List.range_succ] using ha
  unfold buildCanvasMap at h
  by_cases he : plot.axisEnabled a = true
  · simp only [he, if_true] at h
    cases hw : plot.axisWidget a with
    | none => simp [hw] at h
    | some wdg =>
      simp only [hw] at h
      rcases hcases with c | c | c | c <;> subst c <;>
        simp [QwtPlot.xTop, QwtPlot.xBottom, QwtPlot.yLeft, QwtPlot.yRight] at h ⊢ <;>
        subst h <;> simp [he]
  · have he2 : plot.axisEnabled a = false := by simpa using he
    simp only [he2, Bool.false_eq_true, if_false] at h
    rcases hcases with c | c | c | c <;> subst c <;>
      simp [QwtPlot.xTop, QwtPlot.xBottom, QwtPlot.yLeft, QwtPlot.yRight] at h ⊢ <;>
      subst h <;> simp [he2]

/-- C19: when every enabled axis has a scale widget, `buildCanvasMaps` fills
the four maps, the map of axis `axisId` at index `axisId`; each map has the
scale interval `(scaleDiv.lowerBound, scaleDiv.upperBound)` of its axis and the
paint interval `[scaleRect.left + startBorderDist, scaleRect.right -
endBorderDist]` for an enabled x axis, `[scaleRect.bottom - endBorderDist,
scaleRect.top + startBorderDist]` for an enabled y axis, `[canvasRect.left +
margin, canvasRect.right - margin]` for a disabled x axis and
`[canvasRect.bottom - margin, canvasRect.top + margin]` for a disabled y axis,
`margin` being the canvas margin of the layout for that axis. -/
theorem buildCanvasMaps_intervals (plot : QwtPlot) (canvasRect : QRectF)
    (hw : ∀ a ∈ QwtPlot.axisIds, plot.axisEnabled a = true →
      (plot.axisWidget a).isSome = true) :
    ∃ maps, buildCanvasMaps plot canvasRect = some maps ∧ maps.length = 4
      ∧ ∀ axisId ∈ QwtPlot.axisIds, ∃ m, maps[axisId.toNat]? = some m
        ∧ m.s1 = (plot.axisScaleDiv axisId).lowerBound
        ∧ m.s2 = (plot.axisScaleDiv axisId).upperBound
        ∧ (plot.axisEnabled axisId = true → ∃ wdg, plot.axisWidget axisId = some wdg
            ∧ ((axisId = QwtPlot.xBottom ∨ axisId = QwtPlot.xTop) →
                m.p1 = (plot.plotLayout.rects.scaleRect axisId).left + wdg.startBorderDist
                ∧ m.p2 = (plot.plotLayout.rects.scaleRect axisId).right
                    - wdg.endBorderDist)
            ∧ ((axisId = QwtPlot.yLeft ∨ axisId = QwtPlot.yRight) →
                m.p1 = (plot.plotLayout.rects.scaleRect axisId).bottom
                    - wdg.endBorderDist
                ∧ m.p2 = (plot.plotLayout.rects.scaleRect axisId).top
                    + wdg.startBorderDist))
        ∧ (plot.axisEnabled axisId = false →
            ((axisId = QwtPlot.xBottom ∨ axisId = QwtPlot.xTop) →
                m.p1 = canvasRect.left + plot.plotLayout.canvasMargin axisId
                ∧ m.p2 = canvasRect.right - plot.plotLayout.canvasMargin axisId)
            ∧ ((axisId = QwtPlot.yLeft ∨ axisId = QwtPlot.yRight) →
                m.p1 = canvasRect.bottom - plot.plotLayout.canvasMargin axisId
                ∧ m.p2 = canvasRect.top + plot.plotLayout.canvasMargin axisId)) := by
  have hs : ∀ a ∈ QwtPlot.axisIds, ∃ m, buildCanvasMap plot canvasRect a = some m :=
    fun a ha => buildCanvasMap_some plot canvasRect a (hw a ha)
  obtain ⟨m0, h0⟩ := hs 0 (by decide)
  obtain ⟨m1, h1⟩ := hs 1 (by decide)
  obtain ⟨m2, h2⟩ := hs 2 (by decide)
  obtain ⟨m3, h3⟩ := hs 3 (by decide)
  have hmaps : buildCanvasMaps plot canvasRect = some [m0, m1, m2, m3] := by
    unfold buildCanvasMaps
    rw [buildCanvasMapsLoop_eq plot canvasRect _ hs]
    have e : QwtPlot.axisIds = [0, 1, 2, 3] := by decide
    rw [e]
    simp [h0, h1, h2, h3]
  refine ⟨[m0, m1, m2, m3], hmaps, rfl, ?_⟩
  intro axisId ha
  have hcases : axisId = 0 ∨ axisId = 1 ∨ axisId = 2 ∨ axisId = 3 := by
    simpa [QwtPlot.axisIds, QwtPlot.axisCnt, List.range_succ] using ha
  rcases hcases with c | c | c | c <;> subst c
  · exact ⟨m0, rfl, buildCanvasMap_intervals plot canvasRect 0 ha m0 h0⟩
  · exact ⟨m1, rfl, buildCanvasMap_intervals plot canvasRect 1 ha m1 h1⟩
  · exact ⟨m2, rfl, buildCanvasMap_intervals plot canvasRect 2 ha m2 h2⟩
  · exact ⟨m3, rfl, buildCanvasMap_intervals plot canvasRect 3 ha m3 h3⟩

theorem buildCanvasMaps_intervals_witness :
    (∀ a ∈ QwtPlot.axisIds, examplePlot.axisEnabled a = true →
      (examplePlot.axisWidget a).isSome = true)
    ∧ ∃ maps, buildCanvasMaps examplePlot ⟨0, 10, 400, 290⟩ = some maps ∧ maps.length = 4
      ∧ ∀ axisId ∈ QwtPlot.axisIds, ∃ m, maps[axisId.toNat]? = some m
        ∧ m.s1 = (examplePlot.axisScaleDiv axisId).lowerBound
        ∧ m.s2 = (examplePlot.axisScaleDiv axisId).upperBound
        ∧ (examplePlot.axisEnabled axisId = true →
            ∃ wdg, examplePlot.axisWidget axisId = some wdg
            ∧ ((axisId = QwtPlot.xBottom ∨ axisId = QwtPlot.xTop) →
                m.p1 = (examplePlot.plotLayout.rects.scaleRect axisId).left
                    + wdg.startBorderDist
                ∧ m.p2 = (examplePlot.plotLayout.rects.scaleRect axisId).right
                    - wdg.endBorderDist)
            ∧ ((axisId = QwtPlot.yLeft ∨ axisId = QwtPlot.yRight) →
                m.p1 = (examplePlot.plotLayout.rects.scaleRect axisId).bottom
                    - wdg.endBorderDist
                ∧ m.p2 = (examplePlot.plotLayout.rects.scaleRect axisId).top
                    + wdg.startBorderDist))
        ∧ (examplePlot.axisEnabled axisId = false →
            ((axisId = QwtPlot.xBottom ∨ axisId = QwtPlot.xTop) →
                m.p1 = (QRectF.mk 0 10 400 290).left
                    + examplePlot.plotLayout.canvasMargin axisId
                ∧ m.p2 = (QRectF.mk 0 10 400 290).right
                    - examplePlot.plotLayout.canvasMargin axisId)
            ∧ ((axisId = QwtPlot.yLeft ∨ axisId = QwtPlot.yRight) →
                m.p1 = (QRectF.mk 0 10 400 290).bottom
                    - examplePlot.plotLayout.canvasMargin axisId
                ∧ m.p2 = (QRectF.mk 0 10 400 290).top
                    + examplePlot.plotLayout.canvasMargin axisId)) :=
  ⟨by decide, buildCanvasMaps_intervals examplePlot ⟨0, 10, 400, 290⟩ (by decide)⟩

/-! ## Theorems: the calls of `render`, in order -/

theorem painter_depth_roundtrip (p : QPainter) :
    ({ p with depth := p.depth + 1 - 1 } : QPainter) = p := by
  obtain ⟨a, x, y, n⟩ := p
  simp

theorem renderCanvas_eq (d : PrivateData) (s : Ctx) (canvasRect : QRectF)
    (map : List QwtScaleMap) :
    renderCanvas d s canvasRect map
      = ⟨s.plot, s.painter, s.trace ++ canvasCalls d canvasRect map⟩ := by
  obtain ⟨plot, ⟨a, x, y, n⟩, trace⟩ := s
  unfold renderCanvas canvasCalls
  cases h1 : flagSet d.layoutFlags FrameWithScales <;>
    cases h2 : flagSet d.discardFlags DiscardCanvasBackground <;>
    simp [Ctx.save, Ctx.restore, Ctx.call]

theorem renderTitle_eq (s : Ctx) (rect : QRectF) :
    renderTitle s rect = ⟨s.plot, s.painter, s.trace ++ titleCalls rect⟩ := by
  obtain ⟨plot, p, trace⟩ := s
  simp [renderTitle, titleCalls, Ctx.call]

theorem renderLegendItem_eq (s : Ctx) (widget : LegendItemWidget) (rect : QRectF) :
    renderLegendItem s widget rect
      = ⟨s.plot, s.painter, s.trace ++ legendItemCalls widget rect⟩ := by
  obtain ⟨plot, ⟨a, x, y, n⟩, trace⟩ := s
  unfold renderLegendItem legendItemCalls
  cases h1 : widget.isLegendItem <;> cases h2 : widget.hasManager <;>
    simp [Ctx.save, Ctx.restore, Ctx.call]

theorem renderLegendItems_eq (itemRects : List QRect)
    (items : List (Option LegendItemWidget)) :
    ∀ (index : Nat) (s t : Ctx), renderLegendItems itemRects items index s = some t →
      ∃ calls, legendItemsCalls itemRects items index = some calls
        ∧ t = ⟨s.plot, s.painter, s.trace ++ calls⟩ := by
  induction items with
  | nil =>
    intro index s t h
    simp only [renderLegendItems, Option.some.injEq] at h
    subst h
    exact ⟨[], rfl, by simp⟩
  | cons item rest ih =>
    intro index s t h
    cases item with
    | none =>
      simp only [renderLegendItems] at h
      simpa only [legendItemsCalls] using ih index s t h
    | some w =>
      simp only [renderLegendItems] at h
      cases hr : itemRects[index]? with
      | none => simp [hr] at h
      | some itemRect =>
        simp only [hr] at h
        obtain ⟨calls, hc, ht⟩ := ih _ _ _ h
        refine ⟨[Call.save, Call.setClipRect (QRectF.ofQRect itemRect)]
          ++ legendItemCalls w (QRectF.ofQRect itemRect) ++ [Call.restore] ++ calls,
          by simp only [legendItemsCalls, hr, hc], ?_⟩
        rw [ht, renderLegendItem_eq]
        obtain ⟨plot, ⟨a, x, y, n⟩, trace⟩ := s
        simp [Ctx.save, Ctx.restore, Ctx.call]

theorem renderLegend_eq (s t : Ctx) (rect : QRectF) (h : renderLegend s rect = some t) :
    ∃ calls, legendCalls s.plot.legend rect = some calls
      ∧ t = ⟨s.plot, s.painter, s.trace ++ calls⟩ := by
  unfold renderLegend at h
  unfold legendCalls
  cases hl : s.plot.legend with
  | none =>
    simp only [hl, Option.some.injEq] at h
    subst h
    exact ⟨[], rfl, by simp⟩
  | some legend =>
    simp only [hl] at h
    cases he : legend.isEmpty with
    | true =>
      simp only [he, if_true, Option.some.injEq] at h
      subst h
      exact ⟨[], by simp [he], by simp⟩
    | false =>
      simp only [he, Bool.false_eq_true, if_false] at h
      cases hy : legend.layout with
      | none =>
        simp only [hy, Option.some.injEq] at h
        subst h
        exact ⟨[], by simp [he, hy], by simp⟩
      | some l =>
        simp only [hy] at h
        cases hg : l.isDynGrid with
        | false =>
          simp only [hg, Bool.not_false, if_true, Option.some.injEq] at h
          subst h
          exact ⟨[], by simp [he, hy, hg], by simp⟩
        | true =>
          simp only [hg, Bool.not_true, Bool.false_eq_true, if_false] at h
          obtain ⟨calls, hc, ht⟩ := renderLegendItems_eq _ _ _ _ _ h
          exact ⟨calls, by simp [he, hy, hg, hc], ht⟩

theorem renderScale_eq (s t : Ctx) (axisId : Int) (w : QwtScaleWidget)
    (ha : axisId ∈ QwtPlot.axisIds) (hw : s.plot.axisWidget axisId = some w)
    (h : renderScale s axisId w.borderDistHintStart w.borderDistHintEnd w.margin
      (s.plot.plotLayout.rects.scaleRect axisId) = some t) :
    t = ⟨s.plot, s.painter, s.trace ++ scaleCalls s.plot axisId⟩ := by
  unfold renderScale at h
  unfold scaleCalls
  simp only [hw]
  cases he : s.plot.axisEnabled axisId with
  | false =>
    simp only [he, Bool.not_false, if_true, Option.some.injEq] at h
    subst h
    simp
  | true =>
    simp only [he, Bool.not_true, Bool.false_eq_true, if_false, hw] at h
    simp only [Bool.not_true, Bool.false_eq_true, if_false]
    have hg := scaleGeometry_ne_none axisId w.borderDistHintStart w.borderDistHintEnd
      (if (w.isColorBarEnabled && decide (w.colorBarWidth > 0)) = true then
        w.margin + (w.colorBarWidth + w.spacing) else w.margin)
      (s.plot.plotLayout.rects.scaleRect axisId) ha
    cases hgeo : scaleGeometry axisId w.borderDistHintStart w.borderDistHintEnd
      (if (w.isColorBarEnabled && decide (w.colorBarWidth > 0)) = true then
        w.margin + (w.colorBarWidth + w.spacing) else w.margin)
      (s.plot.plotLayout.rects.scaleRect axisId) with
    | none => exact absurd hgeo hg
    | some g =>
      obtain ⟨x, y, len, align⟩ := g
      simp only [hgeo, Option.some.injEq] at h
      subst h
      have hplot := setScaleDraw_restore s.plot axisId w hw ⟨x, y⟩ len
      obtain ⟨plot, ⟨a, dx, dy, n⟩, trace⟩ := s
      simp only at hplot hw
      by_cases hcb : (w.isColorBarEnabled && decide (w.colorBarWidth > 0)) = true
      · simp [hcb, Ctx.save, Ctx.restore, Ctx.call, hplot]
      · simp [hcb, Ctx.save, Ctx.restore, Ctx.call, hplot]

theorem renderScales_eq (l : List Int) (hl : ∀ a ∈ l, a ∈ QwtPlot.axisIds) :
    ∀ s t : Ctx, renderScales l s = some t →
      t = ⟨s.plot, s.painter, s.trace ++ l.flatMap (scaleCalls s.plot)⟩ := by
  induction l with
  | nil =>
    intro s t h
    simp only [renderScales, Option.some.injEq] at h
    subst h
    simp
  | cons a rest ih =>
    intro s t h
    have ih2 := ih (fun b hb => hl b (List.mem_cons_of_mem _ hb))
    simp only [renderScales] at h
    cases hw : s.plot.axisWidget a with
    | none =>
      simp only [hw] at h
      rw [ih2 s t h]
      simp [List.flatMap_cons, scaleCalls, hw]
    | some w =>
      simp only [hw] at h
      cases hr : renderScale s a w.borderDistHintStart w.borderDistHintEnd w.margin
          (s.plot.plotLayout.rects.scaleRect a) with
      | none => simp [hr] at h
      | some u =>
        simp only [hr] at h
        have hu := renderScale_eq s u a w (hl a (List.mem_cons_self _ _)) hw hr
        rw [ih2 u t h, hu]
        simp [List.flatMap_cons]

theorem zeroMargins_eq (l : List Int) :
    ∀ (s : Ctx) (b : Int → Int),
      (zeroMargins l (s, b)).1
        = ⟨{ s.plot with
              axisWidget := fun a =>
                if a ∈ l then (s.plot.axisWidget a).map (fun w => { w with margin := 0 })
                else s.plot.axisWidget a },
            s.painter, s.trace ++ zeroMarginCalls s.plot l⟩ := by
  induction l with
  | nil =>
    intro s b
    simp [zeroMargins, zeroMarginCalls]
  | cons x rest ih =>
    intro s b
    simp only [zeroMargins]
    cases hw : s.plot.axisWidget x with
    | none =>
      simp only [hw]
      rw [ih]
      have e1 : (fun a => if a ∈ rest then
            (s.plot.axisWidget a).map (fun w => ({ w with margin := 0 } : QwtScaleWidget))
          else s.plot.axisWidget a)
          = (fun a => if a ∈ x :: rest then
            (s.plot.axisWidget a).map (fun w => ({ w with margin := 0 } : QwtScaleWidget))
          else s.plot.axisWidget a) := by
        funext a
        by_cases hax : a = x
        · subst hax
          simp [hw]
        · simp [hax]
      rw [e1]
      simp [zeroMarginCalls, hw]
    | some w =>
      simp only [hw]
      rw [ih]
      have e1 : (fun a => if a ∈ rest then
            ((s.setMargin x 0).plot.axisWidget a).map
              (fun w => ({ w with margin := 0 } : QwtScaleWidget))
          else (s.setMargin x 0).plot.axisWidget a)
          = (fun a => if a ∈ x :: rest then
            (s.plot.axisWidget a).map (fun w => ({ w with margin := 0 } : QwtScaleWidget))
          else s.plot.axisWidget a) := by
        funext a
        simp only [Ctx.setMargin, setMargin_axisWidget, List.mem_cons]
        by_cases hax : a = x
        · subst hax
          simp [hw]
        · simp [hax]
      have e2 : zeroMarginCalls (s.setMargin x 0).plot rest = zeroMarginCalls s.plot rest := by
        unfold zeroMarginCalls
        refine congrArg (fun f => List.filterMap f rest) ?_
        funext a
        simp only [Ctx.setMargin, setMargin_axisWidget]
        by_cases hax : a = x
        · subst hax
          simp [hw]
        · simp [hax]
      rw [e1, e2]
      have e3 : zeroMarginCalls s.plot (x :: rest)
          = Call.setMargin x 0 :: zeroMarginCalls s.plot rest := by
        simp [zeroMarginCalls, hw]
      rw [e3]
      obtain ⟨plot, p, trace⟩ := s
      simp only at hw
      simp [Ctx.setMargin, QwtPlot.setMargin, hw]

theorem restoreMargins_trace_eq (b : Int → Int) (l : List Int) :
    ∀ s : Ctx, (restoreMargins b l s).trace
      = s.trace ++ l.filterMap (fun a =>
          (s.plot.axisWidget a).map fun _ => Call.setMargin a (b a)) := by
  induction l with
  | nil => intro s; simp [restoreMargins]
  | cons x rest ih =>
    intro s
    simp only [restoreMargins]
    cases hw : s.plot.axisWidget x with
    | none =>
      simp only [hw]
      rw [ih]
      simp [hw]
    | some w =>
      simp only [hw]
      rw [ih]
      have e2 : (fun a => ((s.setMargin x (b x)).plot.axisWidget a).map
            fun _ => Call.setMargin a (b a))
          = (fun a => (s.plot.axisWidget a).map fun _ => Call.setMargin a (b a)) := by
        funext a
        simp only [Ctx.setMargin, setMargin_axisWidget]
        by_cases hax : a = x
        · subst hax
          simp [hw]
        · simp [hax]
      rw [e2]
      simp [Ctx.setMargin, hw]

theorem renderSteps_eq (d : PrivateData) (s t : Ctx) (h : renderSteps d s = some t) :
    ∃ maps legendSeg,
      buildCanvasMaps s.plot s.plot.plotLayout.rects.canvasRect = some maps
      ∧ (if flagSet d.discardFlags DiscardLegend = true then some []
          else legendCalls s.plot.legend s.plot.plotLayout.rects.legendRect) = some legendSeg
      ∧ t = ⟨s.plot, s.painter,
          s.trace ++ canvasCalls d s.plot.plotLayout.rects.canvasRect maps
            ++ (if (!flagSet d.discardFlags DiscardTitle && !s.plot.titleIsEmpty) = true then
                  titleCalls s.plot.plotLayout.rects.titleRect
                else [])
            ++ legendSeg
            ++ QwtPlot.axisIds.flatMap (scaleCalls s.plot)⟩ := by
  unfold renderSteps at h
  cases hm : buildCanvasMaps s.plot s.plot.plotLayout.rects.canvasRect with
  | none => simp [hm] at h
  | some maps =>
    simp only [hm, renderCanvas_eq] at h
    refine ⟨maps, ?_⟩
    generalize hseg : (if (!flagSet d.discardFlags DiscardTitle && !s.plot.titleIsEmpty) = true
      then titleCalls s.plot.plotLayout.rects.titleRect else []) = titleSeg
    have hstep : (if (!flagSet d.discardFlags DiscardTitle && !s.plot.titleIsEmpty) = true then
          renderTitle ⟨s.plot, s.painter,
            s.trace ++ canvasCalls d s.plot.plotLayout.rects.canvasRect maps⟩
            s.plot.plotLayout.rects.titleRect
        else ⟨s.plot, s.painter,
            s.trace ++ canvasCalls d s.plot.plotLayout.rects.canvasRect maps⟩)
        = (⟨s.plot, s.painter,
            s.trace ++ canvasCalls d s.plot.plotLayout.rects.canvasRect maps ++ titleSeg⟩
            : Ctx) := by
      rw [← hseg]
      split
      · rw [renderTitle_eq]
      · rw [List.append_nil]
    rw [hstep] at h
    simp only at h
    cases hD : flagSet d.discardFlags DiscardLegend with
    | true =>
      simp only [hD, Bool.not_true, Bool.false_and, Bool.false_eq_true, if_false] at h
      refine ⟨[], rfl, by simp, ?_⟩
      rw [renderScales_eq _ (fun a ha => ha) _ t h]
      simp
    | false =>
      simp only [hD, Bool.not_false, Bool.true_and] at h
      cases hl : s.plot.legend with
      | none =>
        simp only [hl, Bool.false_eq_true, if_false] at h
        refine ⟨[], rfl, by simp [legendCalls, hl], ?_⟩
        rw [renderScales_eq _ (fun a ha => ha) _ t h]
        simp
      | some legend =>
        simp only [hl] at h
        cases he : legend.isEmpty with
        | true =>
          simp only [he, Bool.not_true, Bool.false_eq_true, if_false] at h
          refine ⟨[], rfl, by simp [legendCalls, hl, he], ?_⟩
          rw [renderScales_eq _ (fun a ha => ha) _ t h]
          simp
        | false =>
          simp only [he, Bool.not_false, if_true] at h
          split at h
          · cases h
          · rename_i u hu
            obtain ⟨calls, hc, hu2⟩ := renderLegend_eq _ _ _ hu
            simp only [hl] at hc hu2
            refine ⟨calls, rfl, by simpa using hc, ?_⟩
            rw [renderScales_eq _ (fun a ha => ha) u t h, hu2]

theorem paintedPlot_of_framed (d : PrivateData) (plot : QwtPlot) (layoutRect : QRectF)
    (hF : flagSet d.layoutFlags FrameWithScales = true) :
    ({ plot with
        axisWidget := fun a =>
          if a ∈ QwtPlot.axisIds then
            (plot.axisWidget a).map (fun w => { w with margin := 0 })
          else plot.axisWidget a } : QwtPlot).activate layoutRect (layoutOptions d)
      = paintedPlot d plot layoutRect := by
  simp [QwtPlot.activate, paintedPlot, hF]

theorem paintedPlot_of_not_framed (d : PrivateData) (plot : QwtPlot) (layoutRect : QRectF)
    (hF : flagSet d.layoutFlags FrameWithScales = false) :
    plot.activate layoutRect (layoutOptions d) = paintedPlot d plot layoutRect := by
  simp [QwtPlot.activate, paintedPlot, hF]

theorem restoreMarginCalls_eq (plot : QwtPlot) (b : Int → Int) (l : List Int)
    (hb : ∀ a ∈ l, ∀ w, plot.axisWidget a = some w → b a = w.margin) :
    l.filterMap (fun a =>
        ((if a ∈ l then (plot.axisWidget a).map (fun w => ({ w with margin := 0 } : QwtScaleWidget))
          else plot.axisWidget a)).map fun _ => Call.setMargin a (b a))
      = restoreMarginCalls plot l := by
  unfold restoreMarginCalls
  apply List.filterMap_congr
  intro a ha
  simp only [ha, if_true]
  cases hw : plot.axisWidget a with
  | none => rfl
  | some w => simp [hb a ha w hw]

theorem render_trace (d : PrivateData) (uninit : Int → Int) (world : World)
    (plotRect : QRectF) (w' : World) (p : QPainter) (layoutRect : QRectF) (painted : QwtPlot)
    (h : render d uninit world plotRect = some w')
    (hp : world.painter = some p) (hactive : p.isActive = true)
    (hvalid : plotRect.isValid = true) (hsize : world.plot.size.isNull = false)
    (hL : layoutRect = (QTransform.identity.scale
        ((p.deviceLogicalDpiX : ℚ) / (world.plot.logicalDpiX : ℚ))
        ((p.deviceLogicalDpiY : ℚ) / (world.plot.logicalDpiY : ℚ))).inverted.mapRect plotRect)
    (hP : painted = paintedPlot d world.plot layoutRect) :
    ∃ maps legendSeg,
      buildCanvasMaps painted painted.plotLayout.rects.canvasRect = some maps
      ∧ (if flagSet d.discardFlags DiscardLegend = true then some []
          else legendCalls painted.legend painted.plotLayout.rects.legendRect)
          = some legendSeg
      ∧ w'.trace = world.trace
          ++ (if (!flagSet d.discardFlags DiscardBackground) = true then
                [Call.fillRect plotRect] else [])
          ++ [Call.save]
          ++ (if flagSet d.layoutFlags FrameWithScales = true then
                zeroMarginCalls world.plot QwtPlot.axisIds else [])
          ++ [Call.activate layoutRect (layoutOptions d),
              Call.setWorldTransform (QTransform.identity.scale
                ((p.deviceLogicalDpiX : ℚ) / (world.plot.logicalDpiX : ℚ))
                ((p.deviceLogicalDpiY : ℚ) / (world.plot.logicalDpiY : ℚ)))]
          ++ canvasCalls d painted.plotLayout.rects.canvasRect maps
          ++ (if (!flagSet d.discardFlags DiscardTitle && !painted.titleIsEmpty) = true then
                titleCalls painted.plotLayout.rects.titleRect else [])
          ++ legendSeg
          ++ QwtPlot.axisIds.flatMap (scaleCalls painted)
          ++ [Call.invalidate]
          ++ (if flagSet d.layoutFlags FrameWithScales = true then
                restoreMarginCalls world.plot QwtPlot.axisIds else [])
          ++ [Call.restore] := by
  unfold render at h
  simp only [hp, hactive, hvalid, hsize, Bool.not_true, Bool.or_self, Bool.false_eq_true,
    if_false] at h
  have e1 : (if (!flagSet d.discardFlags DiscardBackground) = true then
        (⟨world.plot, p, world.trace⟩ : Ctx).call (Call.fillRect plotRect)
      else ⟨world.plot, p, world.trace⟩)
      = (⟨world.plot, p, world.trace
          ++ (if (!flagSet d.discardFlags DiscardBackground) = true then
                [Call.fillRect plotRect] else [])⟩ : Ctx) := by
    split
    · rfl
    · simp
  rw [e1, ← hL] at h
  generalize (world.trace ++ (if (!flagSet d.discardFlags DiscardBackground) = true then
                [Call.fillRect plotRect] else [])) = tr0 at h ⊢
  by_cases hF : flagSet d.layoutFlags FrameWithScales = true
  · simp only [hF, if_true] at h ⊢
    have z4 := zeroMargins_dists QwtPlot.axisIds axisIds_nodup
      (⟨world.plot, p, tr0⟩ : Ctx).save uninit
    rw [zeroMargins_eq] at h
    simp only [Ctx.save, Ctx.call] at h z4
    rw [paintedPlot_of_framed d world.plot layoutRect hF, ← hP] at h
    split at h
    · cases h
    · rename_i s5 h5
      obtain ⟨maps, legendSeg, hm, hl, ht⟩ := renderSteps_eq d _ _ h5
      simp only at hm hl ht
      refine ⟨maps, legendSeg, hm, hl, ?_⟩
      simp only [Option.some.injEq] at h
      subst h
      simp only [Ctx.restore]
      rw [restoreMargins_trace_eq]
      subst ht
      simp only [QwtPlot.invalidate]
      rw [hP]
      simp only [paintedPlot, hF, true_and]
      rw [restoreMarginCalls_eq world.plot _ _ (fun a ha w hw => z4 a w ha hw)]
      simp
  · have hF2 : flagSet d.layoutFlags FrameWithScales = false := by simpa using hF
    simp only [hF2, Bool.false_eq_true, if_false] at h ⊢
    simp only [Ctx.save, Ctx.call] at h
    rw [paintedPlot_of_not_framed d world.plot layoutRect hF2, ← hP] at h
    split at h
    · cases h
    · rename_i s5 h5
      obtain ⟨maps, legendSeg, hm, hl, ht⟩ := renderSteps_eq d _ _ h5
      simp only at hm hl ht
      refine ⟨maps, legendSeg, hm, hl, ?_⟩
      simp only [Option.some.injEq] at h
      subst h
      subst ht
      simp [Ctx.restore]

theorem scaleCalls_ne_nil_iff (plot : QwtPlot) (axisId : Int) :
    scaleCalls plot axisId ≠ []
      ↔ ((plot.axisWidget axisId).isSome = true ∧ plot.axisEnabled axisId = true) := by
  unfold scaleCalls
  cases hw : plot.axisWidget axisId with
  | none => simp
  | some w =>
    cases he : plot.axisEnabled axisId with
    | false => simp
    | true =>
      simp only [Bool.not_true, Bool.false_eq_true, if_false, Option.isSome_some, and_self,
        iff_true, ne_eq, List.append_eq_nil, not_and]
      intro _
      split <;> simp

theorem legendCalls_ne_nil (legend : Option QwtLegend) (rect : QRectF) (seg : List Call)
    (h : legendCalls legend rect = some seg) (hne : seg ≠ []) :
    ∃ lg l, legend = some lg ∧ lg.isEmpty = false ∧ lg.layout = some l
      ∧ l.isDynGrid = true := by
  unfold legendCalls at h
  cases legend with
  | none =>
    simp only [Option.some.injEq] at h
    exact absurd h.symm hne
  | some lg =>
    simp only at h
    cases he : lg.isEmpty with
    | true =>
      simp only [he, if_true, Option.some.injEq] at h
      exact absurd h.symm hne
    | false =>
      cases hy : lg.layout with
      | none =>
        simp only [he, hy, Bool.false_eq_true, if_false, Option.some.injEq] at h
        exact absurd h.symm hne
      | some l =>
        cases hg : l.isDynGrid with
        | false =>
          simp only [he, hy, hg, Bool.false_eq_true, if_false, Bool.not_false, if_true,
            Option.some.injEq] at h
          exact absurd h.symm hne
        | true => exact ⟨lg, l, rfl, he, hy, hg⟩

theorem paintedPlot_axisWidget_isSome (d : PrivateData) (plot : QwtPlot)
    (layoutRect : QRectF) (axisId : Int) :
    ((paintedPlot d plot layoutRect).axisWidget axisId).isSome
      = (plot.axisWidget axisId).isSome := by
  simp only [paintedPlot]
  split
  · cases plot.axisWidget axisId <;> rfl
  · rfl

/-- C13, as stated, fails: the example plot has scale widgets on its four
axes, but the axes `yRight` and `xTop` are not enabled, and `render` makes the
calls of the scale step only for the axes 0 and 2 (the title and the scale of
each).  And for a plot with a legend that is not empty and whose layout is not
a `QwtDynGridLayout` the trace has 27 calls, as many as for the plot without
legend: no call is made for the legend. -/
theorem render_skips_disabled_axes :
    ((examplePlot.axisWidget QwtPlot.yRight).isSome = true
      ∧ (examplePlot.axisWidget QwtPlot.xTop).isSome = true
      ∧ (render PrivateData.init (fun _ => 0) ⟨examplePlot, some examplePainter, []⟩
          ⟨0, 0, 400, 300⟩).map (fun w => w.trace.filterMap Call.scaleAxis)
        = some [0, 0, 2, 2])
    ∧ (testDiscardFlag PrivateData.init DiscardLegend = false
      ∧ (render PrivateData.init (fun _ => 0)
          ⟨{ examplePlot with
              legend := some ⟨false,
                some ⟨false, [some ⟨true, 1, 1, 8, true⟩], fun _ => [⟨0, 0, 10, 10⟩]⟩⟩ },
            some examplePainter, []⟩
          ⟨0, 0, 400, 300⟩).map (fun w => w.trace.length) = some 27
      ∧ (render PrivateData.init (fun _ => 0) ⟨examplePlot, some examplePainter, []⟩
          ⟨0, 0, 400, 300⟩).map (fun w => w.trace.length) = some 27) := by
  refine ⟨⟨by decide, by decide, by decide⟩, by decide, by decide, by decide⟩

/-- C13, amended: a call of `render` that passes the entry guard, on a plot
whose enabled axes have scale widgets and whose legend layout has a rectangle
for every item, returns, and the calls it adds to the trace are, in this order
and nothing else: the background fill (exactly when `DiscardBackground` is not
set), `save` and the zeroing of the margins, the activation of the layout and
the world transform, the calls of the canvas (background rectangle, then the
plot items), the calls of the title (exactly when `DiscardTitle` is not set
and the title is not empty), the calls of `renderLegend` (entered exactly when
`DiscardLegend` is not set and the plot has a legend that is not empty; it
makes calls only when the layout of the legend is a `QwtDynGridLayout`), the
calls of the scales of the axes `0, 1, 2, 3` in this order, where an axis
contributes calls exactly when it has a scale widget and is enabled,
`invalidate`, the restoring of the margins and `restore`. -/
theorem render_steps_in_order (d : PrivateData) (uninit : Int → Int) (world : World)
    (plotRect : QRectF) (p : QPainter)
    (hp : world.painter = some p) (hactive : p.isActive = true)
    (hvalid : plotRect.isValid = true) (hsize : world.plot.size.isNull = false)
    (h1 : ∀ a ∈ QwtPlot.axisIds, world.plot.axisEnabled a = true →
      (world.plot.axisWidget a).isSome = true)
    (h2 : ∀ legend l rect, world.plot.legend = some legend → legend.layout = some l →
      (l.items.filterMap id).length ≤ (l.layoutItems rect).length) :
    ∃ w' layoutRect painted maps legendSeg,
      render d uninit world plotRect = some w'
      ∧ layoutRect = (QTransform.identity.scale
          ((p.deviceLogicalDpiX : ℚ) / (world.plot.logicalDpiX : ℚ))
          ((p.deviceLogicalDpiY : ℚ) / (world.plot.logicalDpiY : ℚ))).inverted.mapRect plotRect
      ∧ painted = paintedPlot d world.plot layoutRect
      ∧ buildCanvasMaps painted painted.plotLayout.rects.canvasRect = some maps
      ∧ ((flagSet d.discardFlags DiscardLegend = false
            ∧ ∃ legend, world.plot.legend = some legend ∧ legend.isEmpty = false) →
          legendCalls world.plot.legend painted.plotLayout.rects.legendRect = some legendSeg)
      ∧ (¬ (flagSet d.discardFlags DiscardLegend = false
            ∧ ∃ legend, world.plot.legend = some legend ∧ legend.isEmpty = false) →
          legendSeg = [])
      ∧ QwtPlot.axisIds = [0, 1, 2, 3]
      ∧ w'.trace = world.trace
          ++ (if flagSet d.discardFlags DiscardBackground = false then
                [Call.fillRect plotRect] else [])
          ++ [Call.save]
          ++ (if flagSet d.layoutFlags FrameWithScales = true then
                zeroMarginCalls world.plot QwtPlot.axisIds else [])
          ++ [Call.activate layoutRect (layoutOptions d),
              Call.setWorldTransform (QTransform.identity.scale
                ((p.deviceLogicalDpiX : ℚ) / (world.plot.logicalDpiX : ℚ))
                ((p.deviceLogicalDpiY : ℚ) / (world.plot.logicalDpiY : ℚ)))]
          ++ canvasCalls d painted.plotLayout.rects.canvasRect maps
          ++ (if flagSet d.discardFlags DiscardTitle = false
                  ∧ world.plot.titleIsEmpty = false then
                titleCalls painted.plotLayout.rects.titleRect else [])
          ++ legendSeg
          ++ QwtPlot.axisIds.flatMap (scaleCalls painted)
          ++ [Call.invalidate]
          ++ (if flagSet d.layoutFlags FrameWithScales = true then
                restoreMarginCalls world.plot QwtPlot.axisIds else [])
          ++ [Call.restore]
      ∧ (∀ axisId, scaleCalls painted axisId ≠ []
          ↔ ((world.plot.axisWidget axisId).isSome = true
              ∧ world.plot.axisEnabled axisId = true))
      ∧ (legendSeg ≠ [] →
          ∃ legend l, world.plot.legend = some legend ∧ legend.isEmpty = false
            ∧ legend.layout = some l ∧ l.isDynGrid = true) := by
  obtain ⟨w', hw'⟩ := render_returns d uninit world plotRect
    (fun a ha he => Option.isSome_iff_exists.mp (h1 a ha he)) h2
  obtain ⟨maps, legendSeg, hm, hl, ht⟩ := render_trace d uninit world plotRect w' p _ _ hw' hp
    hactive hvalid hsize rfl rfl
  refine ⟨w', _, _, maps, legendSeg, hw', rfl, rfl, hm, ?_, ?_, by decide, ?_, ?_, ?_⟩
  · rintro ⟨hD, legend, hleg, hne⟩
    simpa [hD] using hl
  · intro hn
    cases hD : flagSet d.discardFlags DiscardLegend with
    | true =>
      simp only [hD, if_true, Option.some.injEq] at hl
      exact hl.symm
    | false =>
      simp only [hD, Bool.false_eq_true, if_false] at hl
      have hpl : (paintedPlot d world.plot
          ((QTransform.identity.scale
            ((p.deviceLogicalDpiX : ℚ) / (world.plot.logicalDpiX : ℚ))
            ((p.deviceLogicalDpiY : ℚ) / (world.plot.logicalDpiY : ℚ))).inverted.mapRect
              plotRect)).legend = world.plot.legend := rfl
      rw [hpl] at hl
      cases hleg : world.plot.legend with
      | none =>
        simp only [hleg, legendCalls, Option.some.injEq] at hl
        exact hl.symm
      | some legend =>
        cases he : legend.isEmpty with
        | true =>
          simp only [hleg, legendCalls, he, if_true, Option.some.injEq] at hl
          exact hl.symm
        | false => exact absurd ⟨hD, legend, hleg, he⟩ hn
  · rw [ht]
    have hti : (paintedPlot d world.plot
          ((QTransform.identity.scale
            ((p.deviceLogicalDpiX : ℚ) / (world.plot.logicalDpiX : ℚ))
            ((p.deviceLogicalDpiY : ℚ) / (world.plot.logicalDpiY : ℚ))).inverted.mapRect
              plotRect)).titleIsEmpty = world.plot.titleIsEmpty := rfl
    rw [hti]
    cases flagSet d.discardFlags DiscardBackground <;>
      cases flagSet d.discardFlags DiscardTitle <;>
      cases world.plot.titleIsEmpty <;> simp
  · intro axisId
    rw [scaleCalls_ne_nil_iff, paintedPlot_axisWidget_isSome]
    exact Iff.rfl
  · intro hne
    cases hD : flagSet d.discardFlags DiscardLegend with
    | true =>
      simp only [hD, if_true, Option.some.injEq] at hl
      exact absurd hl.symm hne
    | false =>
      simp only [hD, Bool.false_eq_true, if_false] at hl
      exact legendCalls_ne_nil _ _ _ hl hne

theorem render_steps_in_order_witness :
    ((some examplePainter : Option QPainter) = some examplePainter
      ∧ examplePainter.isActive = true
      ∧ (QRectF.mk 0 0 400 300).isValid = true
      ∧ examplePlot.size.isNull = false
      ∧ (∀ a ∈ QwtPlot.axisIds, examplePlot.axisEnabled a = true →
          (examplePlot.axisWidget a).isSome = true))
    ∧ ∃ w' maps,
      render PrivateData.init (fun _ => 0) ⟨examplePlot, some examplePainter, []⟩
          ⟨0, 0, 400, 300⟩ = some w'
      ∧ w'.trace = [Call.save,
          Call.activate ⟨0, 0, 400, 300⟩ (layoutOptions PrivateData.init),
          Call.setWorldTransform ⟨1, 1⟩]
          ++ canvasCalls PrivateData.init ⟨0, 10, 400, 290⟩ maps
          ++ titleCalls ⟨0, 0, 400, 10⟩
          ++ QwtPlot.axisIds.flatMap
              (scaleCalls (paintedPlot PrivateData.init examplePlot ⟨0, 0, 400, 300⟩))
          ++ [Call.invalidate, Call.restore] := by
  refine ⟨⟨rfl, rfl, by decide, by decide, by decide⟩, ?_⟩
  obtain ⟨w', layoutRect, painted, maps, legendSeg, hw', hL, hP, hm, hl1, hl2, hax, ht, _, _⟩ :=
    render_steps_in_order PrivateData.init (fun _ => 0)
      ⟨examplePlot, some examplePainter, []⟩ ⟨0, 0, 400, 300⟩ examplePainter rfl rfl
      (by decide) (by decide) (by decide)
      (fun legend l rect hleg => nomatch hleg)
  have hL2 : layoutRect = ⟨0, 0, 400, 300⟩ := by
    rw [hL]
    norm_num [QTransform.identity, QTransform.scale, QTransform.inverted, QTransform.mapRect,
      examplePainter, examplePlot]
  subst hL2
  subst hP
  have hl3 : legendSeg = [] := hl2 (by rintro ⟨_, legend, hleg, _⟩; exact nomatch hleg)
  subst hl3
  refine ⟨w', maps, hw', ?_⟩
  rw [ht]
  have e1 : flagSet PrivateData.init.discardFlags DiscardBackground = true := by decide
  have e2 : flagSet PrivateData.init.layoutFlags FrameWithScales = false := by decide
  have e3 : flagSet PrivateData.init.discardFlags DiscardTitle = false := by decide
  have e4 : (QTransform.identity.scale
      ((examplePainter.deviceLogicalDpiX : ℚ) / (examplePlot.logicalDpiX : ℚ))
      ((examplePainter.deviceLogicalDpiY : ℚ) / (examplePlot.logicalDpiY : ℚ)))
      = ⟨1, 1⟩ := by
    norm_num [QTransform.identity, QTransform.scale, examplePainter, examplePlot]
  have e5 : (paintedPlot PrivateData.init examplePlot ⟨0, 0, 400, 300⟩).plotLayout.rects.canvasRect
      = ⟨0, 10, 400, 290⟩ := by
    norm_num [paintedPlot, examplePlot, exampleLayout]
  have e6 : (paintedPlot PrivateData.init examplePlot ⟨0, 0, 400, 300⟩).plotLayout.rects.titleRect
      = ⟨0, 0, 400, 10⟩ := by
    norm_num [paintedPlot, examplePlot, exampleLayout]
  have e7 : examplePlot.titleIsEmpty = false := rfl
  simp only [e1, e2, e3, e4, e5, e6, e7]
  simp

/-! ## Theorems: the layout rectangle of `render` -/

theorem mapRect_inverse_eq (sx sy : ℚ) (r : QRectF) :
    (QTransform.mk (1 / sx) (1 / sy)).mapRect r
      = (QRectF.mk (r.xp / sx) (r.yp / sy) (r.w / sx) (r.h / sy)).normalized := by
  simp only [QTransform.mapRect, QRectF.normalized, one_div, inv_mul_eq_div]

theorem normalized_of_pos (r : QRectF) (hw : 0 ≤ r.w) (hh : 0 ≤ r.h) : r.normalized = r := by
  obtain ⟨x, y, w, h⟩ := r
  simp only at hw hh
  simp [QRectF.normalized, not_lt.mpr hw, not_lt.mpr hh]

theorem mapRect_roundtrip (sx sy : ℚ) (hsx : sx ≠ 0) (hsy : sy ≠ 0) (r : QRectF)
    (hr : 0 < r.w ∧ 0 < r.h) :
    (QTransform.mk sx sy).mapRect ((QTransform.mk (1 / sx) (1 / sy)).mapRect r) = r := by
  obtain ⟨x, y, w, h⟩ := r
  obtain ⟨hw, hh⟩ := hr
  simp only at hw hh
  have key : ∀ (s a b : ℚ), s ≠ 0 → 0 < b →
      (if s * (if 1 / s * b < 0 then -(1 / s * b) else 1 / s * b) < 0 then
          s * (if 1 / s * b < 0 then 1 / s * a + 1 / s * b else 1 / s * a)
            + s * (if 1 / s * b < 0 then -(1 / s * b) else 1 / s * b)
        else s * (if 1 / s * b < 0 then 1 / s * a + 1 / s * b else 1 / s * a)) = a
      ∧ (if s * (if 1 / s * b < 0 then -(1 / s * b) else 1 / s * b) < 0 then
          -(s * (if 1 / s * b < 0 then -(1 / s * b) else 1 / s * b))
        else s * (if 1 / s * b < 0 then -(1 / s * b) else 1 / s * b)) = b := by
    intro s a b hs hb
    rcases lt_or_gt_of_ne hs with hneg | hpos
    · have h1 : 1 / s * b < 0 := by
        have : 1 / s < 0 := one_div_neg.mpr hneg
        exact mul_neg_of_neg_of_pos this hb
      have h2 : s * -(1 / s * b) < 0 := by
        have : s * -(1 / s * b) = -b := by
          field_simp
          ring
        rw [this]; linarith
      simp only [h1, if_true, h2]
      constructor
      · field_simp
        ring
      · field_simp
    · have h1 : ¬ (1 / s * b < 0) := by
        have : 0 < 1 / s := one_div_pos.mpr hpos
        exact not_lt.mpr (mul_pos this hb).le
      have h2 : ¬ (s * (1 / s * b) < 0) := by
        have : s * (1 / s * b) = b := by field_simp
        rw [this]; exact not_lt.mpr hb.le
      simp only [h1, if_false, h2]
      constructor <;> field_simp
  simp only [QTransform.mapRect, QRectF.mk.injEq]
  exact ⟨(key sx x w hsx hw).1, (key sy y h hsy hh).1, (key sx x w hsx hw).2,
    (key sy y h hsy hh).2⟩

/-- C20: in a call of `render` that passes the entry guard, with positive
logical DPIs of the device and of the plot and the scale factors
`sx = deviceDpiX / plotDpiX`, `sy = deviceDpiY / plotDpiY`, the rectangle handed
to the layout engine is `plotRect` mapped through the inverse `(1/sx, 1/sy)` of
the transform set on the painter, that is `(x/sx, y/sy, w/sx, h/sy)`; mapping
it through the transform set on the painter gives `plotRect` again; and it is
`plotRect` when the DPIs of the device and of the plot are equal. -/
theorem render_layout_rect (d : PrivateData) (uninit : Int → Int) (world : World)
    (plotRect : QRectF) (p : QPainter)
    (hp : world.painter = some p) (hactive : p.isActive = true)
    (hvalid : plotRect.isValid = true) (hsize : world.plot.size.isNull = false)
    (h1 : ∀ a ∈ QwtPlot.axisIds, world.plot.axisEnabled a = true →
      (world.plot.axisWidget a).isSome = true)
    (h2 : ∀ legend l rect, world.plot.legend = some legend → legend.layout = some l →
      (l.items.filterMap id).length ≤ (l.layoutItems rect).length)
    (hdev : 0 < p.deviceLogicalDpiX ∧ 0 < p.deviceLogicalDpiY)
    (hplot : 0 < world.plot.logicalDpiX ∧ 0 < world.plot.logicalDpiY) :
    ∃ (w' : World) (sx sy : ℚ) (transform : QTransform) (layoutRect : QRectF)
        (rest : List Call),
      render d uninit world plotRect = some w'
      ∧ sx = (p.deviceLogicalDpiX : ℚ) / (world.plot.logicalDpiX : ℚ)
      ∧ sy = (p.deviceLogicalDpiY : ℚ) / (world.plot.logicalDpiY : ℚ)
      ∧ transform = ⟨sx, sy⟩
      ∧ w'.trace = world.trace
          ++ (if flagSet d.discardFlags DiscardBackground = false then
                [Call.fillRect plotRect] else [])
          ++ [Call.save]
          ++ (if flagSet d.layoutFlags FrameWithScales = true then
                zeroMarginCalls world.plot QwtPlot.axisIds else [])
          ++ [Call.activate layoutRect (layoutOptions d), Call.setWorldTransform transform]
          ++ rest
      ∧ transform.inverted = ⟨1 / sx, 1 / sy⟩
      ∧ layoutRect = transform.inverted.mapRect plotRect
      ∧ layoutRect = ⟨plotRect.xp / sx, plotRect.yp / sy, plotRect.w / sx, plotRect.h / sy⟩
      ∧ transform.mapRect layoutRect = plotRect
      ∧ (p.deviceLogicalDpiX = world.plot.logicalDpiX →
          p.deviceLogicalDpiY = world.plot.logicalDpiY → layoutRect = plotRect) := by
  obtain ⟨w', hw'⟩ := render_returns d uninit world plotRect
    (fun a ha he => Option.isSome_iff_exists.mp (h1 a ha he)) h2
  obtain ⟨maps, legendSeg, _, _, ht⟩ := render_trace d uninit world plotRect w' p _ _ hw' hp
    hactive hvalid hsize rfl rfl
  have hT : QTransform.identity.scale
      ((p.deviceLogicalDpiX : ℚ) / (world.plot.logicalDpiX : ℚ))
      ((p.deviceLogicalDpiY : ℚ) / (world.plot.logicalDpiY : ℚ))
      = ⟨(p.deviceLogicalDpiX : ℚ) / (world.plot.logicalDpiX : ℚ),
         (p.deviceLogicalDpiY : ℚ) / (world.plot.logicalDpiY : ℚ)⟩ := by
    simp [QTransform.identity, QTransform.scale]
  rw [hT] at ht
  have px1 : (0 : ℚ) < (p.deviceLogicalDpiX : ℚ) := by exact_mod_cast hdev.1
  have py1 : (0 : ℚ) < (p.deviceLogicalDpiY : ℚ) := by exact_mod_cast hdev.2
  have px2 : (0 : ℚ) < (world.plot.logicalDpiX : ℚ) := by exact_mod_cast hplot.1
  have py2 : (0 : ℚ) < (world.plot.logicalDpiY : ℚ) := by exact_mod_cast hplot.2
  have hx2 : (world.plot.logicalDpiX : ℚ) ≠ 0 := px2.ne.symm
  have hy2 : (world.plot.logicalDpiY : ℚ) ≠ 0 := py2.ne.symm
  have h0x : 0 < (p.deviceLogicalDpiX : ℚ) / (world.plot.logicalDpiX : ℚ) := div_pos px1 px2
  have h0y : 0 < (p.deviceLogicalDpiY : ℚ) / (world.plot.logicalDpiY : ℚ) := div_pos py1 py2
  have hsx : (p.deviceLogicalDpiX : ℚ) / (world.plot.logicalDpiX : ℚ) ≠ 0 := h0x.ne.symm
  have hsy : (p.deviceLogicalDpiY : ℚ) / (world.plot.logicalDpiY : ℚ) ≠ 0 := h0y.ne.symm
  have hw : 0 < plotRect.w ∧ 0 < plotRect.h := by
    simpa [QRectF.isValid] using hvalid
  have hinv : (QTransform.mk ((p.deviceLogicalDpiX : ℚ) / (world.plot.logicalDpiX : ℚ))
      ((p.deviceLogicalDpiY : ℚ) / (world.plot.logicalDpiY : ℚ))).inverted
      = ⟨1 / ((p.deviceLogicalDpiX : ℚ) / (world.plot.logicalDpiX : ℚ)),
         1 / ((p.deviceLogicalDpiY : ℚ) / (world.plot.logicalDpiY : ℚ))⟩ := by
    simp only [QTransform.inverted, hsx, hsy, or_self, if_false]
  have hnorm := mapRect_inverse_eq ((p.deviceLogicalDpiX : ℚ) / (world.plot.logicalDpiX : ℚ))
    ((p.deviceLogicalDpiY : ℚ) / (world.plot.logicalDpiY : ℚ)) plotRect
  obtain ⟨rest, hrest⟩ : ∃ rest, w'.trace = world.trace
      ++ (if flagSet d.discardFlags DiscardBackground = false then
            [Call.fillRect plotRect] else [])
      ++ [Call.save]
      ++ (if flagSet d.layoutFlags FrameWithScales = true then
            zeroMarginCalls world.plot QwtPlot.axisIds else [])
      ++ [Call.activate
            ((QTransform.mk ((p.deviceLogicalDpiX : ℚ) / (world.plot.logicalDpiX : ℚ))
              ((p.deviceLogicalDpiY : ℚ) / (world.plot.logicalDpiY : ℚ))).inverted.mapRect
                plotRect) (layoutOptions d),
          Call.setWorldTransform
            ⟨(p.deviceLogicalDpiX : ℚ) / (world.plot.logicalDpiX : ℚ),
              (p.deviceLogicalDpiY : ℚ) / (world.plot.logicalDpiY : ℚ)⟩]
      ++ rest := by
    rw [ht]
    cases hB : flagSet d.discardFlags DiscardBackground <;>
      simp only [Bool.not_false, Bool.not_true, Bool.false_eq_true, if_true, if_false,
        List.append_assoc] <;>
      exact ⟨_, rfl⟩
  refine ⟨w', _, _, _, _, rest, hw', rfl, rfl, rfl, hrest, hinv, rfl, ?_, ?_, ?_⟩
  · rw [hinv, hnorm]
    exact normalized_of_pos _ (div_pos hw.1 h0x).le (div_pos hw.2 h0y).le
  · rw [hinv]
    exact mapRect_roundtrip _ _ hsx hsy plotRect hw
  · intro ex ey
    rw [hinv, hnorm, ex, ey, div_self hx2, div_self hy2]
    simp only [div_one]
    exact normalized_of_pos _ hw.1.le hw.2.le

theorem render_layout_rect_witness :
    ((some (QPainter.mk true 192 192 0) : Option QPainter) = some ⟨true, 192, 192, 0⟩
      ∧ (QPainter.mk true 192 192 0).isActive = true
      ∧ (QRectF.mk 0 0 400 300).isValid = true
      ∧ examplePlot.size.isNull = false
      ∧ (∀ a ∈ QwtPlot.axisIds, examplePlot.axisEnabled a = true →
          (examplePlot.axisWidget a).isSome = true)
      ∧ ((0 : Int) < 192 ∧ (0 : Int) < 192)
      ∧ (0 < examplePlot.logicalDpiX ∧ 0 < examplePlot.logicalDpiY))
    ∧ ∃ (w' : World) (rest : List Call),
      render PrivateData.init (fun _ => 0) ⟨examplePlot, some ⟨true, 192, 192, 0⟩, []⟩
          ⟨0, 0, 400, 300⟩ = some w'
      ∧ w'.trace = [Call.save, Call.activate ⟨0, 0, 200, 150⟩ (layoutOptions PrivateData.init),
          Call.setWorldTransform ⟨2, 2⟩] ++ rest := by
  refine ⟨⟨rfl, rfl, by decide, by decide, by decide, by decide, by decide⟩, ?_⟩
  obtain ⟨w', sx, sy, transform, layoutRect, rest, hw', hsx, hsy, hT, ht, _, _, hL, _, _⟩ :=
    render_layout_rect PrivateData.init (fun _ => 0)
      ⟨examplePlot, some ⟨true, 192, 192, 0⟩, []⟩ ⟨0, 0, 400, 300⟩ ⟨true, 192, 192, 0⟩ rfl rfl
      (by decide) (by decide) (by decide)
      (fun legend l rect hleg => nomatch hleg) (by decide) (by decide)
  have hsx1 : sx = 2 := by
    rw [hsx]
    norm_num [examplePlot]
  have hsy1 : sy = 2 := by
    rw [hsy]
    norm_num [examplePlot]
  subst hsx1 hsy1 hT
  have hL2 : layoutRect = ⟨0, 0, 200, 150⟩ := by
    rw [hL]
    norm_num
  subst hL2
  refine ⟨w', rest, hw', ?_⟩
  rw [ht]
  have e1 : flagSet PrivateData.init.discardFlags DiscardBackground = true := by decide
  have e2 : flagSet PrivateData.init.layoutFlags FrameWithScales = false := by decide
  simp only [e1, e2]
  simp

/-! ## Theorems: `renderScale` -/

theorem renderScale_disabled (s : Ctx) (axisId : Int) (startDist endDist baseDist : Int)
    (rect : QRectF) (he : s.plot.axisEnabled axisId = false) :
    renderScale s axisId startDist endDist baseDist rect = some s := by
  simp [renderScale, he]

theorem renderScale_drawn (s : Ctx) (axisId : Int) (startDist endDist baseDist : Int)
    (rect : QRectF) (w : QwtScaleWidget) (x y len : ℚ) (align : QwtScaleDraw.Alignment)
    (he : s.plot.axisEnabled axisId = true) (hw : s.plot.axisWidget axisId = some w)
    (hg : scaleGeometry axisId startDist endDist
      (if (w.isColorBarEnabled && decide (w.colorBarWidth > 0)) = true then
        baseDist + (w.colorBarWidth + w.spacing) else baseDist) rect
        = some (x, y, len, align)) :
    renderScale s axisId startDist endDist baseDist rect
      = some ⟨s.plot, s.painter,
          s.trace
            ++ (if (w.isColorBarEnabled && decide (w.colorBarWidth > 0)) = true then
                  [Call.drawColorBar axisId rect] else [])
            ++ [Call.save, Call.drawTitle axisId align rect,
                Call.setFont (FontKind.scaleWidget axisId),
                Call.drawScale axisId ⟨x, y⟩ len, Call.restore]⟩ := by
  unfold renderScale
  simp only [he, Bool.not_true, Bool.false_eq_true, if_false, hw, hg]
  have hplot := setScaleDraw_restore s.plot axisId w hw ⟨x, y⟩ len
  obtain ⟨plot, ⟨a, dx, dy, n⟩, trace⟩ := s
  simp only at hplot hw
  by_cases hcb : (w.isColorBarEnabled && decide (w.colorBarWidth > 0)) = true
  · simp [hcb, Ctx.save, Ctx.restore, Ctx.call, hplot]
  · simp [hcb, Ctx.save, Ctx.restore, Ctx.call, hplot]

/-- C21: on a plot that reports only the axes `yLeft`, `yRight`, `xBottom`,
`xTop` as enabled and has a scale widget for every enabled axis, `renderScale`
returns for every axis id, and on return the plot, with the position and the
length of the scale draw of every scale widget, and the painter, with its
save/restore depth, are what they were on entry.  This covers the three exit
paths: for a disabled axis and for an axis id that is none of the four (which
such a plot reports as disabled) the function returns at once and nothing at
all is changed; for an enabled axis the scale draw is moved, drawn and moved
back between `save` and `restore`. -/
theorem renderScale_restores_state (s : Ctx) (axisId startDist endDist baseDist : Int)
    (rect : QRectF)
    (hmodel : ∀ a, s.plot.axisEnabled a = true → a ∈ QwtPlot.axisIds)
    (hwidget : ∀ a, s.plot.axisEnabled a = true → (s.plot.axisWidget a).isSome = true) :
    ∃ t, renderScale s axisId startDist endDist baseDist rect = some t
      ∧ t.plot = s.plot
      ∧ (∀ a, (t.plot.axisWidget a).map (fun w => (w.scaleDraw.pos, w.scaleDraw.length))
          = (s.plot.axisWidget a).map (fun w => (w.scaleDraw.pos, w.scaleDraw.length)))
      ∧ t.painter = s.painter
      ∧ t.painter.depth = s.painter.depth
      ∧ (s.plot.axisEnabled axisId = false → t = s)
      ∧ (axisId ∉ QwtPlot.axisIds → t = s) := by
  cases he : s.plot.axisEnabled axisId with
  | false =>
    exact ⟨s, renderScale_disabled s axisId startDist endDist baseDist rect he, rfl,
      fun _ => rfl, rfl, rfl, fun _ => rfl, fun _ => rfl⟩
  | true =>
    have ha := hmodel axisId he
    obtain ⟨w, hw⟩ := Option.isSome_iff_exists.mp (hwidget axisId he)
    obtain ⟨t, ht⟩ := renderScale_returns s axisId startDist endDist baseDist rect w hw
    obtain ⟨f1, f2, _⟩ := framed_renderScale s t axisId startDist endDist baseDist rect ha ht
    refine ⟨t, ht, f1, fun a => by rw [f1], f2, by rw [f2], fun h => ?_, fun h => absurd ha h⟩
    exact absurd h (by simp)

theorem renderScale_restores_state_witness :
    ((∀ a, examplePlot.axisEnabled a = true → a ∈ QwtPlot.axisIds)
      ∧ (∀ a, examplePlot.axisEnabled a = true → (examplePlot.axisWidget a).isSome = true))
    ∧ (∃ t, renderScale ⟨examplePlot, examplePainter, []⟩ 4 2 3 4 ⟨0, 0, 400, 30⟩ = some t
        ∧ t.plot = examplePlot ∧ t.painter = examplePainter)
    ∧ (∃ t, renderScale ⟨examplePlot, examplePainter, []⟩ QwtPlot.yLeft 2 3 4
          ⟨0, 10, 40, 290⟩ = some t
        ∧ t.plot = examplePlot ∧ t.painter = examplePainter) := by
  have hm : ∀ a, examplePlot.axisEnabled a = true → a ∈ QwtPlot.axisIds := by
    intro a h
    have hc : a = 0 ∨ a = 2 := by
      simpa [examplePlot, QwtPlot.yLeft, QwtPlot.xBottom] using h
    rcases hc with rfl | rfl <;> decide
  have hwd : ∀ a, examplePlot.axisEnabled a = true →
      (examplePlot.axisWidget a).isSome = true := by
    intro a h
    have hc : a = 0 ∨ a = 2 := by
      simpa [examplePlot, QwtPlot.yLeft, QwtPlot.xBottom] using h
    rcases hc with rfl | rfl <;> decide
  refine ⟨⟨hm, hwd⟩, ?_, ?_⟩
  · obtain ⟨t, ht, h1, _, h2, _⟩ := renderScale_restores_state
      ⟨examplePlot, examplePainter, []⟩ 4 2 3 4 ⟨0, 0, 400, 30⟩ hm hwd
    exact ⟨t, ht, h1, h2⟩
  · obtain ⟨t, ht, h1, _, h2, _⟩ := renderScale_restores_state
      ⟨examplePlot, examplePainter, []⟩ QwtPlot.yLeft 2 3 4 ⟨0, 10, 40, 290⟩ hm hwd
    exact ⟨t, ht, h1, h2⟩

theorem buildCanvasMaps_get (plot : QwtPlot) (canvasRect : QRectF) (maps : List QwtScaleMap)
    (axisId : Int) (m : QwtScaleMap) (h : buildCanvasMaps plot canvasRect = some maps)
    (ha : axisId ∈ QwtPlot.axisIds) (hm : buildCanvasMap plot canvasRect axisId = some m) :
    maps[axisId.toNat]? = some m := by
  have e : QwtPlot.axisIds = [0, 1, 2, 3] := by decide
  unfold buildCanvasMaps at h
  rw [e] at h ha
  simp only [buildCanvasMapsLoop] at h
  cases h0 : buildCanvasMap plot canvasRect 0 with
  | none => simp [h0] at h
  | some m0 =>
    cases h1 : buildCanvasMap plot canvasRect 1 with
    | none => simp [h0, h1] at h
    | some m1 =>
      cases h2 : buildCanvasMap plot canvasRect 2 with
      | none => simp [h0, h1, h2] at h
      | some m2 =>
        cases h3 : buildCanvasMap plot canvasRect 3 with
        | none => simp [h0, h1, h2, h3] at h
        | some m3 =>
          simp only [h0, h1, h2, h3, Option.some.injEq] at h
          subst h
          have hc : axisId = 0 ∨ axisId = 1 ∨ axisId = 2 ∨ axisId = 3 := by simpa using ha
          rcases hc with c | c | c | c <;> subst c
          · rw [h0] at hm; simpa using hm
          · rw [h1] at hm; simpa using hm
          · rw [h2] at hm; simpa using hm
          · rw [h3] at hm; simpa using hm

/-- C22: for an enabled axis 0, 1, 2 or 3 with a scale widget, `renderScale`
called with the scale rectangle of the layout for the axis and with the start
and end border distances of the widget returns, and draws the scale at a
position and with a length such that: for an x axis the span from `x` to
`x + length` is `[rect.left + startDist, rect.right - endDist]`, the paint
interval `[p1, p2]` of the canvas map of the axis; for a y axis the span from
`y` to `y + length` is `[rect.top + startDist, rect.bottom - endDist]`, the
paint interval of the canvas map in reversed order `[p2, p1]`; and
`length + startDist + endDist` is the width (x axis) or the height (y axis) of
the rectangle.  The canvas map is the one `buildCanvasMaps` stores for the
axis. -/
theorem renderScale_span_matches_canvas_map (s : Ctx) (axisId baseDist : Int)
    (canvasRect : QRectF) (wdg : QwtScaleWidget)
    (ha : axisId ∈ QwtPlot.axisIds) (he : s.plot.axisEnabled axisId = true)
    (hw : s.plot.axisWidget axisId = some wdg) :
    ∃ (x y len : ℚ) (align : QwtScaleDraw.Alignment) (m : QwtScaleMap) (pre : List Call),
      renderScale s axisId wdg.startBorderDist wdg.endBorderDist baseDist
          (s.plot.plotLayout.rects.scaleRect axisId)
        = some ⟨s.plot, s.painter,
            s.trace ++ pre
              ++ [Call.save,
                  Call.drawTitle axisId align (s.plot.plotLayout.rects.scaleRect axisId),
                  Call.setFont (FontKind.scaleWidget axisId),
                  Call.drawScale axisId ⟨x, y⟩ len, Call.restore]⟩
      ∧ buildCanvasMap s.plot canvasRect axisId = some m
      ∧ (∀ maps, buildCanvasMaps s.plot canvasRect = some maps →
          maps[axisId.toNat]? = some m)
      ∧ ((axisId = QwtPlot.xBottom ∨ axisId = QwtPlot.xTop) →
          x = (s.plot.plotLayout.rects.scaleRect axisId).left + wdg.startBorderDist
          ∧ x + len = (s.plot.plotLayout.rects.scaleRect axisId).right - wdg.endBorderDist
          ∧ x = m.p1 ∧ x + len = m.p2
          ∧ len + wdg.startBorderDist + wdg.endBorderDist
              = (s.plot.plotLayout.rects.scaleRect axisId).width)
      ∧ ((axisId = QwtPlot.yLeft ∨ axisId = QwtPlot.yRight) →
          y = (s.plot.plotLayout.rects.scaleRect axisId).top + wdg.startBorderDist
          ∧ y + len = (s.plot.plotLayout.rects.scaleRect axisId).bottom - wdg.endBorderDist
          ∧ y = m.p2 ∧ y + len = m.p1
          ∧ len + wdg.startBorderDist + wdg.endBorderDist
              = (s.plot.plotLayout.rects.scaleRect axisId).height) := by
  obtain ⟨m, hm⟩ := buildCanvasMap_some s.plot canvasRect axisId (fun _ => by simp [hw])
  obtain ⟨_, _, hen, _⟩ := buildCanvasMap_intervals s.plot canvasRect axisId ha m hm
  obtain ⟨wdg2, hw2, hx, hy⟩ := hen he
  have hww : wdg2 = wdg := by
    rw [hw] at hw2
    exact (Option.some.inj hw2).symm
  subst hww
  have hgeo := scaleGeometry_ne_none axisId wdg2.startBorderDist wdg2.endBorderDist
    (if (wdg2.isColorBarEnabled && decide (wdg2.colorBarWidth > 0)) = true then
      baseDist + (wdg2.colorBarWidth + wdg2.spacing) else baseDist)
    (s.plot.plotLayout.rects.scaleRect axisId) ha
  cases hg : scaleGeometry axisId wdg2.startBorderDist wdg2.endBorderDist
    (if (wdg2.isColorBarEnabled && decide (wdg2.colorBarWidth > 0)) = true then
      baseDist + (wdg2.colorBarWidth + wdg2.spacing) else baseDist)
    (s.plot.plotLayout.rects.scaleRect axisId) with
  | none => exact absurd hg hgeo
  | some g =>
    obtain ⟨x, y, len, align⟩ := g
    refine ⟨x, y, len, align, m, _,
      renderScale_drawn s axisId _ _ baseDist _ wdg2 x y len align he hw hg, hm,
      fun maps hmaps => buildCanvasMaps_get s.plot canvasRect maps axisId m hmaps ha hm, ?_, ?_⟩
    · intro hax
      obtain ⟨hp1, hp2⟩ := hx hax
      have hc : axisId = 2 ∨ axisId = 3 := by
        simpa [QwtPlot.xBottom, QwtPlot.xTop] using hax
      rcases hc with c | c <;> subst c <;>
        simp [scaleGeometry, QwtPlot.yLeft, QwtPlot.yRight, QwtPlot.xTop, QwtPlot.xBottom]
          at hg <;>
        obtain ⟨rfl, -, rfl, -⟩ := hg <;>
        simp only [hp1, hp2, QRectF.left, QRectF.right, QRectF.width] <;>
        refine ⟨trivial, ?_, trivial, ?_, ?_⟩ <;> ring
    · intro hax
      obtain ⟨hp1, hp2⟩ := hy hax
      have hc : axisId = 0 ∨ axisId = 1 := by
        simpa [QwtPlot.yLeft, QwtPlot.yRight] using hax
      rcases hc with c | c <;> subst c <;>
        simp [scaleGeometry, QwtPlot.yLeft, QwtPlot.yRight, QwtPlot.xTop, QwtPlot.xBottom]
          at hg <;>
        obtain ⟨-, rfl, rfl, -⟩ := hg <;>
        simp only [hp1, hp2, QRectF.top, QRectF.bottom, QRectF.height, QRectF.y] <;>
        refine ⟨trivial, ?_, trivial, ?_, ?_⟩ <;> ring

theorem renderScale_span_matches_canvas_map_witness :
    (QwtPlot.xBottom ∈ QwtPlot.axisIds
      ∧ (examplePlot.activate ⟨0, 0, 400, 300⟩ 14).axisEnabled QwtPlot.xBottom = true
      ∧ (examplePlot.activate ⟨0, 0, 400, 300⟩ 14).axisWidget QwtPlot.xBottom
          = some (exampleWidget 6))
    ∧ ∃ (x y len : ℚ) (align : QwtScaleDraw.Alignment) (m : QwtScaleMap) (pre : List Call),
      renderScale ⟨examplePlot.activate ⟨0, 0, 400, 300⟩ 14, examplePainter, []⟩
          QwtPlot.xBottom (exampleWidget 6).startBorderDist (exampleWidget 6).endBorderDist 6
          ((examplePlot.activate ⟨0, 0, 400, 300⟩ 14).plotLayout.rects.scaleRect
            QwtPlot.xBottom)
        = some ⟨examplePlot.activate ⟨0, 0, 400, 300⟩ 14, examplePainter,
            [] ++ pre
              ++ [Call.save,
                  Call.drawTitle QwtPlot.xBottom align
                    ((examplePlot.activate ⟨0, 0, 400, 300⟩ 14).plotLayout.rects.scaleRect
                      QwtPlot.xBottom),
                  Call.setFont (FontKind.scaleWidget QwtPlot.xBottom),
                  Call.drawScale QwtPlot.xBottom ⟨x, y⟩ len, Call.restore]⟩
      ∧ buildCanvasMap (examplePlot.activate ⟨0, 0, 400, 300⟩ 14) ⟨0, 10, 400, 290⟩
          QwtPlot.xBottom = some m
      ∧ x = m.p1 ∧ x + len = m.p2 := by
  refine ⟨⟨by decide, by decide, by decide⟩, ?_⟩
  obtain ⟨x, y, len, align, m, pre, h1, h2, _, hx, _⟩ :=
    renderScale_span_matches_canvas_map
      ⟨examplePlot.activate ⟨0, 0, 400, 300⟩ 14, examplePainter, []⟩ QwtPlot.xBottom 6
      ⟨0, 10, 400, 290⟩ (exampleWidget 6) (by decide) (by decide) (by decide)
  obtain ⟨_, _, h3, h4, _⟩ := hx (Or.inl rfl)
  exact ⟨x, y, len, align, m, pre, h1, h2, h3, h4⟩

/-! ## Theorems: the format of `renderDocument` -/

/-- C23: `renderDocument` compares `format` as it is given.  For a non-null
plot, a size that is not empty and a positive resolution, every format other
than the strings `pdf`, `ps` and `svg` themselves, whatever its lower-cased
copy is, sets up neither a printer nor an SVG generator: the document is
written as an image when the format is a supported image format, and nothing
is done otherwise.  So `PDF`, whose lower-cased copy is `pdf`, is left to the
image-format lookup, while `pdf` goes to the printer. -/
theorem renderDocument_format_as_given (supportedImageFormat : String → Bool)
    (plot : QwtPlot) (plotTitle fileName format : String) (sizeMM : QSizeF)
    (resolution : Int) (hs : sizeMM.isEmpty = false) (hr : 0 < resolution)
    (h1 : format ≠ ("pdf")) (h2 : format ≠ ("ps")) (h3 : format ≠ ("svg")) :
    renderDocument supportedImageFormat (some plot) plotTitle fileName format sizeMM
        resolution
      = (if supportedImageFormat format = true then
          [DocumentCall.image
              (QRectF.mk 0 0 (sizeMM.wd * (1 / (254 / 10)) * resolution)
                (sizeMM.ht * (1 / (254 / 10)) * resolution)).toRect.w
              (QRectF.mk 0 0 (sizeMM.wd * (1 / (254 / 10)) * resolution)
                (sizeMM.ht * (1 / (254 / 10)) * resolution)).toRect.h
              (qRound (resolution * (1 / (254 / 10)) * 1000)),
            DocumentCall.render (QRectF.ofQRect
              (QRectF.mk 0 0 (sizeMM.wd * (1 / (254 / 10)) * resolution)
                (sizeMM.ht * (1 / (254 / 10)) * resolution)).toRect),
            DocumentCall.painterEnd,
            DocumentCall.imageSave fileName format]
        else [])
    ∧ (∀ c ∈ renderDocument supportedImageFormat (some plot) plotTitle fileName format
          sizeMM resolution,
        (∀ f pdf doc size res, c ≠ DocumentCall.printer f pdf doc size res)
        ∧ (∀ f title res box, c ≠ DocumentCall.svgGenerator f title res box))
    ∧ renderDocument supportedImageFormat (some plot) plotTitle fileName ("pdf") sizeMM
        resolution
      = [DocumentCall.printer fileName true
            (if plotTitle.isEmpty = true then ("Plot Document") else plotTitle)
            sizeMM resolution,
          DocumentCall.render
            (QRectF.mk 0 0 (sizeMM.wd * (1 / (254 / 10)) * resolution)
              (sizeMM.ht * (1 / (254 / 10)) * resolution))] := by
  have g3 : ¬ resolution ≤ 0 := not_le.mpr hr
  have key : renderDocument supportedImageFormat (some plot) plotTitle fileName format sizeMM
        resolution
      = (if supportedImageFormat format = true then
          [DocumentCall.image
              (QRectF.mk 0 0 (sizeMM.wd * (1 / (254 / 10)) * resolution)
                (sizeMM.ht * (1 / (254 / 10)) * resolution)).toRect.w
              (QRectF.mk 0 0 (sizeMM.wd * (1 / (254 / 10)) * resolution)
                (sizeMM.ht * (1 / (254 / 10)) * resolution)).toRect.h
              (qRound (resolution * (1 / (254 / 10)) * 1000)),
            DocumentCall.render (QRectF.ofQRect
              (QRectF.mk 0 0 (sizeMM.wd * (1 / (254 / 10)) * resolution)
                (sizeMM.ht * (1 / (254 / 10)) * resolution)).toRect),
            DocumentCall.painterEnd,
            DocumentCall.imageSave fileName format]
        else []) := by
    unfold renderDocument
    simp only [Option.isNone_some, hs, g3, decide_False, Bool.or_self, Bool.false_eq_true,
      if_false, h1, h2, h3]
  refine ⟨key, ?_, ?_⟩
  · intro c hc
    rw [key] at hc
    split at hc
    · simp only [List.mem_cons, List.mem_singleton, List.not_mem_nil, or_false] at hc
      rcases hc with rfl | rfl | rfl | rfl <;> exact ⟨by intros; simp, by intros; simp⟩
    · cases hc
  · unfold renderDocument
    simp [hs, g3]

theorem renderDocument_format_as_given_witness :
    ((QSizeF.mk 100 50).isEmpty = false ∧ (0 : Int) < 300
      ∧ ("PDF") ≠ ("pdf") ∧ ("PDF") ≠ ("ps") ∧ ("PDF") ≠ ("svg"))
    ∧ ("PDF").toLower = ("pdf")
    ∧ renderDocument (fun _ => false) (some examplePlot) ("") ("plot.pdf") ("PDF") ⟨100, 50⟩
        300 = [] := by
  refine ⟨⟨by decide, by decide, by decide, by decide, by decide⟩, ?_, ?_⟩
  · rw [String.toLower, String.map_eq]
    decide
  · have h := (renderDocument_format_as_given (fun _ => false) examplePlot ("") ("plot.pdf")
      ("PDF") ⟨100, 50⟩ 300 (by decide) (by decide) (by decide) (by decide) (by decide)).1
    simpa using h

end Qwt
